import Mathlib

/-!
# robinstock-go: login orchestration, identity verification and token storage

A shallow embedding of `auth/auth.go`, `auth/sheriff.go`, `auth/token_storage.go`,
`client.go`, `models/models.go`, `urls/urls.go` and `utils/util.go`.

Conventions of the embedding.

* Go values of type `interface{}` that occur in `map[string]interface{}` are the
  inductive type `Value`; a `map[string]interface{}` is an association list in which
  the first binding of a key is the one the map holds.  A nil map is `none`.
* An `error` is a `GoError`: either a message, or `fmt.Errorf("<msg>: %w", inner)`.
* Time is an integer number of nanoseconds since the zero `time.Time`; one clock
  serves `time.Now`, `time.Since` and `time.Sleep`.
* Everything the program cannot decide itself comes from an `Env`: the replies and
  latencies of the HTTP transport, how long a sleep overshoots, the random source,
  the home directory and the outcome of file writes and removals.
* The state threaded through the program is a `World`: clock, token files, the
  client's active credential, and the trace of requests and sleeps so far.
* The two polling loops of `handleSheriffVerification` are bounded by wall-clock
  time only.  They are embedded with an explicit iteration budget `fuel`; a run that
  exhausts it yields `none`.  `handleSheriffVerification_total` shows that a budget
  of 25 always suffices, because every iteration that does not return sleeps.
-/

namespace Robinstock

/-! ## Go values -/

/-- A finite `float64`, the value `mant * 2 ^ exp`. -/
structure Float64 where
  mant : Int
  exp : Int
deriving DecidableEq, Repr

/-- Go values held in a `map[string]interface{}`: what `encoding/json` decodes
(`nil`, `bool`, `float64`, `string`, `[]interface{}`, `map[string]interface{}`)
and the `int` literals the program puts into request bodies. -/
inductive Value where
  | null
  | bool (b : Bool)
  | int (i : Int)
  | num (f : Float64)
  | str (s : String)
  | arr (xs : List Value)
  | obj (kvs : List (String × Value))
deriving Repr

/-- A non-nil `map[string]interface{}`. -/
abbrev Obj := List (String × Value)

/-- Map indexing `m[key]` with the comma-ok form: `none` when the key is absent. -/
def Obj.get : Obj → String → Option Value
  | [], _ => none
  | (k, v) :: rest, key => if k = key then some v else Obj.get rest key

/-- Indexing a possibly nil map: a nil map has no keys. -/
def dataGet (data : Option Obj) (key : String) : Option Value :=
  match data with
  | none => none
  | some m => m.get key

/-- Type assertion `v.(map[string]interface{})` on the result of an index. -/
def asObj : Option Value → Option Obj
  | some (.obj kvs) => some kvs
  | _ => none

/-- Type assertion `v.(string)` on the result of an index. -/
def asString : Option Value → Option String
  | some (.str s) => some s
  | _ => none

/-- Type assertion `v.(bool)` on the result of an index. -/
def asBool : Option Value → Option Bool
  | some (.bool b) => some b
  | _ => none

/-- Two's-complement wrap-around of an integer into `int64`. -/
def wrapInt64 (x : Int) : Int := (x + 2 ^ 63) % 2 ^ 64 - 2 ^ 63

/-- Conversion `int(v)` of a `float64`: the fraction is discarded.  A value outside
`int64` has an implementation-specific result; amd64 yields the least `int64`. -/
def Float64.toInt (f : Float64) : Int :=
  let t : Int :=
    if 0 ≤ f.exp then f.mant * 2 ^ f.exp.toNat else Int.tdiv f.mant (2 ^ (-f.exp).toNat)
  if -(2 ^ 63) ≤ t ∧ t < 2 ^ 63 then t else -(2 ^ 63)

/-- Decimal value of a list of ASCII digits. -/
def digitsValue (ds : List Char) : Nat :=
  ds.foldl (fun acc c => 10 * acc + (c.toNat - 48)) 0

/-- Model of `strconv.Atoi`: an optional sign, then one or more decimal digits,
the value within `int64`; `none` is a non-nil error. -/
def Atoi (s : String) : Option Int :=
  let body : Bool × List Char :=
    match s.data with
    | '+' :: r => (false, r)
    | '-' :: r => (true, r)
    | r => (false, r)
  if body.2.isEmpty || !(body.2.all Char.isDigit) then none
  else
    let v : Int := if body.1 then -(digitsValue body.2 : Int) else (digitsValue body.2 : Int)
    if -(2 ^ 63) ≤ v ∧ v < 2 ^ 63 then some v else none

/-! ## utils/util.go -/

/-- Embedding of `utils.GetString` for a non-nil map. -/
def GetString (data : Obj) (key : String) : String :=
  match data.get key with
  | some (.str s) => s
  | _ => ""

/-- Embedding of `utils.GetString` applied to `resp.Data`, which may be nil. -/
def GetStringD (data : Option Obj) (key : String) : String :=
  match dataGet data key with
  | some (.str s) => s
  | _ => ""

/-- Embedding of `utils.GetInt` applied to `resp.Data`, which may be nil. -/
def GetIntD (data : Option Obj) (key : String) : Int :=
  match dataGet data key with
  | some (.int i) => i
  | some (.num f) => f.toInt
  | some (.str s) =>
    match Atoi s with
    | some i => i
    | none => 0
  | _ => 0

/-! ## Errors -/

/-- A Go `error` value. -/
inductive GoError where
  | new (msg : String)
  | wrap (msg : String) (inner : GoError)
deriving DecidableEq, Repr

/-- The method `Error()`: `fmt.Errorf("<msg>: %w", inner)` prints the inner error
after the message. -/
def GoError.Error : GoError → String
  | .new msg => msg
  | .wrap msg inner => msg ++ ": " ++ inner.Error

/-! ## models/models.go -/

/-- One second as a `time.Duration`. -/
def Second : Int := 1000000000

/-- The credential `models.Auth`; `IssuedAt` is an instant, `0` the zero time. -/
structure Auth where
  AccessToken : String
  RefreshToken : String
  TokenType : String
  DeviceToken : String
  ExpiresIn : Int
  IssuedAt : Int
deriving DecidableEq, Repr

/-- Embedding of `(*Auth).IsExpired` at clock reading `now`.  The conversion
`time.Duration(a.ExpiresIn) * time.Second` is an `int64` multiplication. -/
def Auth.IsExpired (a : Auth) (now : Int) : Bool :=
  if a.ExpiresIn = 0 then false
  else
    let expiresAt := a.IssuedAt + wrapInt64 (a.ExpiresIn * Second)
    decide (expiresAt < now)

/-- The struct `models.Response`. -/
structure Response where
  StatusCode : Int
  Data : Option Obj
  Results : List Obj

/-! ## The environment and the world -/

/-- HTTP methods used by the client. -/
inductive Method where
  | GET
  | POST
deriving DecidableEq, Repr

/-- A request as handed to `httpClient.Do`: method, URL, JSON body (absent for a
GET) and the `Authorization` header when the call is authenticated. -/
structure Request where
  method : Method
  url : String
  body : Option Value
  authorization : Option String

/-- What `httpClient.Do` followed by `parseResponse` makes of a request: a non-nil
error (transport failure, cancelled context, unreadable or undecodable body), given
as `doRequest` returns it, with its prefix (`execute request:` for a failed `Do`), or
a status code with the decoded JSON body (`none` for the JSON text `null`). -/
inductive Reply where
  | failure (err : GoError)
  | response (status : Int) (body : Option Obj)

/-- Outcome of `os.WriteFile`: success, failure before the file was touched, or
failure after the file was created or truncated. -/
inductive WriteOutcome where
  | ok
  | failUntouched (err : GoError)
  | failTruncated (err : GoError)

/-- Everything outside the program's control. -/
structure Env where
  /-- The variable `$HOME`; empty when unset, in which case `os.UserHomeDir` fails. -/
  HOME : String
  /-- The error of `rand.Read`, if it fails. -/
  randError : Option GoError
  /-- The bytes `rand.Read` delivers (taken modulo 256). -/
  randByte : Nat → Nat
  /-- The error of `http.NewRequestWithContext` for a URL it rejects. -/
  urlError : String → Option GoError
  /-- The reply to the n-th request sent (counting from 0). -/
  http : Nat → Request → Reply
  /-- Nanoseconds the n-th request takes. -/
  latency : Nat → Nat
  /-- Nanoseconds by which the n-th `time.Sleep` exceeds the requested duration. -/
  oversleep : Nat → Nat
  /-- Outcome of `os.WriteFile` on a path. -/
  writeFile : String → WriteOutcome
  /-- Whether `os.Remove` on an existing path succeeds. -/
  removeOk : String → Bool

/-- What a file decodes to under `json.Unmarshal` into `models.Auth`: an error, or
a credential.  `json.MarshalIndent` of a credential decodes back to it. -/
inductive FileData where
  | garbage
  | json (token : Auth)
deriving DecidableEq, Repr

/-- An existing file: whether `os.ReadFile` succeeds on it, and its content. -/
structure FileEntry where
  readable : Bool
  data : FileData
deriving DecidableEq, Repr

/-- An observable action of the program. -/
inductive Event where
  | request (time : Int) (req : Request) (reply : Reply)
  | sleep (time : Int) (d : Int)

/-- The mutable state: the clock, the files by path, the client's active
credential (`Client.auth`, `none` for nil), the trace of actions, and how many
requests and sleeps have happened. -/
structure World where
  now : Int
  files : String → Option FileEntry
  auth : Option Auth
  trace : List Event
  nreq : Nat
  nsleep : Nat

/-- Embedding of `time.Sleep d`: the clock advances by at least `d`. -/
def sleep (env : Env) (w : World) (d : Int) : World :=
  { w with
    now := w.now + d + (env.oversleep w.nsleep : Int)
    nsleep := w.nsleep + 1
    trace := w.trace ++ [Event.sleep w.now d] }

/-! ## client.go -/

/-- The sentinel `ErrNotAuthenticated`. -/
def ErrNotAuthenticated : GoError := .new "not authenticated"

/-- Embedding of `(*Client).SetAuth`. -/
def SetAuth (w : World) (auth : Option Auth) : World := { w with auth := auth }

/-- Embedding of `(*Client).IsAuthenticated`. -/
def IsAuthenticated (w : World) : Bool :=
  match w.auth with
  | none => false
  | some a => a.AccessToken != ""

/-- Embedding of the tail of `parseResponse`: the response with the JSON-object
elements of a `results` array. -/
def parseResponse (status : Int) (data : Option Obj) : Response :=
  { StatusCode := status
    Data := data
    Results :=
      match dataGet data "results" with
      | some (.arr xs) =>
        xs.filterMap (fun r => match r with
          | .obj m => some m
          | _ => none)
      | _ => [] }

/-- The `Authorization` header of an authenticated request. -/
def authorizationHeader (w : World) : String :=
  match w.auth with
  | none => ""
  | some a => a.TokenType ++ " " ++ a.AccessToken

/-- Embedding of `httpClient.Do(req)` followed by `parseResponse`: the transport's
reply to the request, the time it took, and the request recorded in the trace. -/
def roundTrip (env : Env) (w : World) (req : Request) : Reply × World :=
  (env.http w.nreq req,
    { w with
      now := w.now + (env.latency w.nreq : Int)
      nreq := w.nreq + 1
      trace := w.trace ++ [Event.request w.now req (env.http w.nreq req)] })

/-- Embedding of `(*Client).doRequest` from the creation of the request on, for a
body that `json.Marshal` accepts (`none` for a nil body); the marshalling step in
front of it, which can fail, is `doRequestWithMarshal`. -/
def doRequest (env : Env) (w : World) (method : Method) (urlStr : String)
    (body : Option Value) (authenticated : Bool) : Except GoError Response × World :=
  match env.urlError urlStr with
  | some e => (.error (.wrap "create request" e), w)
  | none =>
    if authenticated && !IsAuthenticated w then (.error ErrNotAuthenticated, w)
    else
      let req : Request :=
        { method := method
          url := urlStr
          body := body
          authorization := if authenticated then some (authorizationHeader w) else none }
      match roundTrip env w req with
      | (.failure e, w1) => (.error e, w1)
      | (.response status data, w1) => (.ok (parseResponse status data), w1)

/-- Embedding of `(*Client).Get` with nil `params`. -/
def Get (env : Env) (w : World) (urlStr : String) (authenticated : Bool) :
    Except GoError Response × World :=
  doRequest env w .GET urlStr none authenticated

/-- Embedding of `(*Client).Post`. -/
def Post (env : Env) (w : World) (urlStr : String) (body : Value) (authenticated : Bool) :
    Except GoError Response × World :=
  doRequest env w .POST urlStr (some body) authenticated

/-! ## urls/urls.go and models/constants.go -/

/-- The variable `models.BaseURL`. -/
def BaseURL : String := "https://api.robinhood.com"

/-- The constant `models.ClientID`. -/
def ClientID : String := "c82SH0WZOsabOXGP2sxqcj34FxkvfnWRZBKlBjFS"

/-- Embedding of `urls.LoginURL`. -/
def LoginURL : String := BaseURL ++ "/oauth2/token/"

/-- Embedding of `urls.PathfinderUserMachineURL`. -/
def PathfinderUserMachineURL : String := "https://api.robinhood.com/pathfinder/user_machine/"

/-- Embedding of `urls.SheriffInquiryURL`. -/
def SheriffInquiryURL (machineID : String) : String :=
  "https://api.robinhood.com/pathfinder/inquiries/" ++ machineID ++ "/user_view/"

/-- Embedding of `urls.SheriffChallengeStatusURL`. -/
def SheriffChallengeStatusURL (challengeID : String) : String :=
  "https://api.robinhood.com/push/" ++ challengeID ++ "/get_prompts_status/"

/-! ## path/filepath and the token files -/

/-- Components of a path between separators. -/
def splitSlash : List Char → List (List Char)
  | [] => [[]]
  | c :: cs =>
    if c = '/' then [] :: splitSlash cs
    else
      match splitSlash cs with
      | [] => [[c]]
      | x :: xs => (c :: x) :: xs

/-- One step of lexical cleaning: `stack` holds the kept components, last first. -/
def cleanStep (rooted : Bool) (stack : List (List Char)) (comp : List Char) :
    List (List Char) :=
  if comp = [] ∨ comp = ['.'] then stack
  else if comp = ['.', '.'] then
    match stack with
    | [] => if rooted then [] else [comp]
    | top :: rest => if top = ['.', '.'] then comp :: stack else rest
  else comp :: stack

/-- Components joined by the separator. -/
def joinSlash : List (List Char) → List Char
  | [] => []
  | [x] => x
  | x :: y :: rest => x ++ '/' :: joinSlash (y :: rest)

/-- Model of `filepath.Clean` on Unix: repeated separators, `.` elements and inner
`..` elements are removed lexically; the empty result is `.`. -/
def filepathClean (path : String) : String :=
  let rooted : Bool := path.data.head? = some '/'
  let kept := ((splitSlash path.data).foldl (cleanStep rooted) []).reverse
  let out := (if rooted then ['/'] else []) ++ joinSlash kept
  if out = [] then "." else String.mk out

/-- Model of `filepath.Join` on Unix: leading empty elements are dropped, the rest
is joined by the separator and cleaned; all elements empty gives the empty string. -/
def filepathJoin : List String → String
  | [] => ""
  | e :: rest =>
    if e = "" then filepathJoin rest
    else filepathClean (String.intercalate "/" (e :: rest))

/-- Embedding of `getTokenFilePath`; the `os.MkdirAll` of the tokens directory is
not tracked (a failure shows as a failing write). -/
def getTokenFilePath (env : Env) (username : String) : String :=
  if env.HOME = "" then ""
  else
    let tokensDir := filepathJoin [env.HOME, ".tokens"]
    filepathJoin [tokensDir, "robinhood_" ++ username ++ ".json"]

/-- Embedding of `os.Remove` on a path, its error ignored. -/
def removeFile (env : Env) (w : World) (filePath : String) : World :=
  if env.removeOk filePath then
    { w with files := fun p => if p = filePath then none else w.files p }
  else w

/-- Embedding of `tryLoadStoredToken`: the credential, or `none` for `(nil, false)`. -/
def tryLoadStoredToken (env : Env) (w : World) (username : String) : Option Auth × World :=
  let filePath := getTokenFilePath env username
  if filePath = "" then (none, w)
  else
    match w.files filePath with
    | none => (none, w)
    | some f =>
      if !f.readable then (none, w)
      else
        match f.data with
        | .garbage => (none, w)
        | .json token =>
          if token.IsExpired w.now then (none, removeFile env w filePath)
          else (some token, w)

/-- Embedding of `saveToken`.  The token is passed by pointer, so the possibly
stamped token is returned next to the error. -/
def saveToken (env : Env) (w : World) (username : String) (token : Auth) :
    (Option GoError × Auth) × World :=
  let filePath := getTokenFilePath env username
  if filePath = "" then ((some (.new "could not determine home directory"), token), w)
  else
    let token1 : Auth := if token.IssuedAt = 0 then { token with IssuedAt := w.now } else token
    match env.writeFile filePath with
    | .ok =>
      ((none, token1),
        { w with files := fun p =>
            if p = filePath then some { readable := true, data := .json token1 } else w.files p })
    | .failUntouched e => ((some e, token1), w)
    | .failTruncated e =>
      ((some e, token1),
        { w with files := fun p =>
            if p = filePath then some { readable := true, data := .garbage } else w.files p })

/-- Embedding of `deleteToken`. -/
def deleteToken (env : Env) (w : World) (username : String) : World :=
  let filePath := getTokenFilePath env username
  if filePath ≠ "" then removeFile env w filePath else w

/-! ## auth/auth.go: device token -/

/-- A lowercase hexadecimal digit. -/
def hexDigit (n : Nat) : Char :=
  if n < 10 then Char.ofNat (48 + n) else Char.ofNat (87 + n)

/-- Model of `hex.EncodeToString` on a list of bytes. -/
def hexChars : List Nat → List Char
  | [] => []
  | b :: bs => hexDigit (b / 16 % 16) :: hexDigit (b % 16) :: hexChars bs

/-- The sixteen bytes `rand.Read` fills the buffer with. -/
def randomBytes (env : Env) : List Nat :=
  (List.range 16).map (fun i => env.randByte i % 256)

/-- The formatting of `generateDeviceToken`: groups of 4, 2, 2, 2 and 6 bytes. -/
def formatDeviceToken (bytes : List Nat) : String :=
  String.mk (hexChars (bytes.take 4) ++ '-' :: hexChars ((bytes.drop 4).take 2)
    ++ '-' :: hexChars ((bytes.drop 6).take 2) ++ '-' :: hexChars ((bytes.drop 8).take 2)
    ++ '-' :: hexChars ((bytes.drop 10).take 6))

/-- Embedding of `generateDeviceToken`. -/
def generateDeviceToken (env : Env) : Except GoError String :=
  match env.randError with
  | some e => .error e
  | none => .ok (formatDeviceToken (randomBytes env))

/-! ## auth/sheriff.go -/

/-- The body of the verification-start POST. -/
def machinePayload (deviceToken workflowID : String) : Value :=
  .obj [("device_id", .str deviceToken), ("flow", .str "suv"),
    ("input", .obj [("workflow_id", .str workflowID)])]

/-- The body of the continuation POST. -/
def continuePayload : Value :=
  .obj [("sequence", .int 0), ("user_input", .obj [("status", .str "continue")])]

/-- The inquiry wait of `handleSheriffVerification` (the first `for` loop): the
inquiry data, or `none` when the loop ends with `inquiryData == nil`. -/
def inquiryLoop : Nat → Env → String → Int → World → Option (Option Obj × World)
  | 0, _, _, _, _ => none
  | fuel + 1, env, inquiryURL, inquiryTimeout, w =>
    if w.now < inquiryTimeout then
      match Get env w inquiryURL false with
      | (.error _, w1) => inquiryLoop fuel env inquiryURL inquiryTimeout (sleep env w1 (4 * Second))
      | (.ok resp, w1) =>
        match resp.Data with
        | some data => some (some data, w1)
        | none => inquiryLoop fuel env inquiryURL inquiryTimeout (sleep env w1 (4 * Second))
    else some (none, w)

/-- The `case "validated"` branch of the challenge loop: the continuation POST and
the inspection of its response. -/
def completeVerification (env : Env) (w : World) (inquiryURL : String) :
    Option GoError × World :=
  match Post env w inquiryURL continuePayload false with
  | (.error err, w1) => (some (.wrap "failed to complete sheriff verification" err), w1)
  | (.ok finalResp, w1) =>
    match finalResp.Data with
    | none => (some (.new "workflow approval failed after validation"), w1)
    | some data =>
      match asObj (data.get "type_context") with
      | none => (some (.new "workflow approval failed after validation"), w1)
      | some typeContext =>
        if GetString typeContext "result" = "workflow_status_approved" then (none, w1)
        else (some (.new "workflow approval failed after validation"), w1)

/-- The challenge-status loop of `handleSheriffVerification` (the second `for`
loop) with the final timeout error; `none` error is `nil`. -/
def challengeLoop : Nat → Env → String → String → Int → World → Option (Option GoError × World)
  | 0, _, _, _, _, _ => none
  | fuel + 1, env, statusURL, inquiryURL, startTime, w =>
    if w.now - startTime < 2 * (60 * Second) then
      match Get env w statusURL false with
      | (.error _, w1) =>
        challengeLoop fuel env statusURL inquiryURL startTime (sleep env w1 (5 * Second))
      | (.ok statusResp, w1) =>
        match statusResp.Data with
        | none =>
          challengeLoop fuel env statusURL inquiryURL startTime (sleep env w1 (5 * Second))
        | some data =>
          let status := GetString data "challenge_status"
          if status = "validated" then some (completeVerification env w1 inquiryURL)
          else if status = "issued" then
            challengeLoop fuel env statusURL inquiryURL startTime (sleep env w1 (15 * Second))
          else some (some (.new ("unexpected challenge status: " ++ status)), w1)
    else some (some (.new "sheriff verification timeout"), w)

/-- The part of `handleSheriffVerification` after the inquiry wait: extraction of
the challenge id and the challenge-status loop. -/
def resolveChallenge (fuel : Nat) (env : Env) (w : World) (inquiryURL : String)
    (inquiryData : Option Obj) : Option (Option GoError × World) :=
  match inquiryData with
  | none => some (some (.new "unable to get inquiry data within timeout"), w)
  | some data =>
    match asObj (data.get "context") with
    | none => some (some (.new "no context in inquiry data"), w)
    | some contextData =>
      match asObj (contextData.get "sheriff_challenge") with
      | none => some (some (.new "no sheriff_challenge in context"), w)
      | some challenge =>
        let challengeID := GetString challenge "id"
        if challengeID = "" then some (some (.new "no challenge ID"), w)
        else challengeLoop fuel env (SheriffChallengeStatusURL challengeID) inquiryURL w.now w

/-- Embedding of `handleSheriffVerification`; the error `none` is `nil`. -/
def handleSheriffVerification (fuel : Nat) (env : Env) (w : World)
    (deviceToken workflowID : String) : Option (Option GoError × World) :=
  match Post env w PathfinderUserMachineURL (machinePayload deviceToken workflowID) false with
  | (.error err, w1) => some (some (.wrap "failed to start sheriff verification" err), w1)
  | (.ok machineResp, w1) =>
    match machineResp.Data with
    | none => some (some (.new "no data in sheriff verification response"), w1)
    | some data =>
      let machineID := GetString data "id"
      if machineID = "" then some (some (.new "no machine ID in response"), w1)
      else
        let inquiryURL := SheriffInquiryURL machineID
        match inquiryLoop fuel env inquiryURL (w1.now + 20 * Second) w1 with
        | none => none
        | some (inquiryData, w2) => resolveChallenge fuel env w2 inquiryURL inquiryData

/-! ## auth/auth.go: Login -/

/-- The body of the login POST. -/
def loginPayload (username password mfaCode deviceToken : String) : Value :=
  .obj [("username", .str username), ("password", .str password), ("mfa_code", .str mfaCode),
    ("device_token", .str deviceToken), ("client_id", .str ClientID),
    ("grant_type", .str "password"), ("scope", .str "internal"), ("expires_in", .str "86400"),
    ("challenge_type", .str "email")]

/-- The workflow id that makes `Login` run the verification: the string `id` of a
`verification_workflow` object, `""` when there is none. -/
def workflowIDOf (resp : Response) : String :=
  match asObj (dataGet resp.Data "verification_workflow") with
  | none => ""
  | some verificationWorkflow => GetString verificationWorkflow "id"

/-- Where the first half of `Login` (up to the end of the verification block)
leaves the call: it has returned, or it holds the token response to classify. -/
inductive LoginStage where
  | returned (result : Except GoError Auth) (w : World)
  | classify (deviceToken : String) (resp : Response) (w : World)

/-- The first half of `Login`: stored-token short-circuit, device token, login
POST, and the verification with its retried POST. -/
def loginRequest (fuel : Nat) (env : Env) (w : World) (username password mfaCode : String) :
    Option LoginStage :=
  match tryLoadStoredToken env w username with
  | (some token, w0) => some (.returned (.ok token) (SetAuth w0 (some token)))
  | (none, w0) =>
    match generateDeviceToken env with
    | .error err => some (.returned (.error (.wrap "generate device token" err)) w0)
    | .ok deviceToken =>
      let payload := loginPayload username password mfaCode deviceToken
      match Post env w0 LoginURL payload false with
      | (.error err, w1) => some (.returned (.error err) w1)
      | (.ok resp, w1) =>
        let workflowID := workflowIDOf resp
        if workflowID ≠ "" then
          match handleSheriffVerification fuel env w1 deviceToken workflowID with
          | none => none
          | some (some err, w2) =>
            some (.returned (.error (.wrap "sheriff verification failed" err)) w2)
          | some (none, w2) =>
            match Post env w2 LoginURL payload false with
            | (.error err, w3) =>
              some (.returned (.error (.wrap "login after verification failed" err)) w3)
            | (.ok resp2, w3) => some (.classify deviceToken resp2 w3)
        else some (.classify deviceToken resp w1)

/-- The second half of `Login`: the MFA, challenge and status checks, the
extraction of the tokens, `SetAuth` and `saveToken`. -/
def loginClassify (env : Env) (w : World) (username deviceToken : String) (resp : Response) :
    Except GoError Auth × World :=
  if asBool (dataGet resp.Data "mfa_required") = some true then
    (.error (.new "MFA required but not provided"), w)
  else
    match asObj (dataGet resp.Data "challenge") with
    | some challenge =>
      (.error (.new ("challenge required: " ++ (asString (challenge.get "id")).getD "")), w)
    | none =>
      if resp.StatusCode ≥ 400 then
        match asString (dataGet resp.Data "detail") with
        | some detail => (.error (.new ("login failed: " ++ detail)), w)
        | none => (.error (.new ("login failed: status " ++ toString resp.StatusCode)), w)
      else
        let auth : Auth :=
          { AccessToken := GetStringD resp.Data "access_token"
            RefreshToken := GetStringD resp.Data "refresh_token"
            TokenType := GetStringD resp.Data "token_type"
            DeviceToken := deviceToken
            ExpiresIn := GetIntD resp.Data "expires_in"
            IssuedAt := 0 }
        if auth.AccessToken = "" then (.error (.new "no access token in response"), w)
        else
          let w1 := SetAuth w (some auth)
          match saveToken env w1 username auth with
          | ((some err, auth1), w2) =>
            (.error (.wrap "failed to save token" err), SetAuth w2 (some auth1))
          | ((none, auth1), w2) => (.ok auth1, SetAuth w2 (some auth1))

/-- Embedding of `Login`; `none` only when the iteration budget of the polling
loops is exhausted. -/
def Login (fuel : Nat) (env : Env) (w : World) (username password mfaCode : String) :
    Option (Except GoError Auth × World) :=
  match loginRequest fuel env w username password mfaCode with
  | none => none
  | some (.returned result w1) => some (result, w1)
  | some (.classify deviceToken resp w1) => some (loginClassify env w1 username deviceToken resp)

/-! ## Observations on worlds and traces -/

/-- The instant at which an action starts. -/
def Event.time : Event → Int
  | .request time _ _ => time
  | .sleep time _ => time

/-- Whether an action is a request with the given method to the given URL. -/
def Event.isRequestTo (m : Method) (url : String) : Event → Bool
  | .request _ req _ => decide (req.method = m ∧ req.url = url)
  | .sleep _ _ => false

/-- Whether an action is a GET request. -/
def Event.isGet : Event → Bool
  | .request _ req _ => decide (req.method = .GET)
  | .sleep _ _ => false

/-- Whether an action is a POST request. -/
def Event.isPost : Event → Bool
  | .request _ req _ => decide (req.method = .POST)
  | .sleep _ _ => false

/-- Whether a URL is a challenge-status URL `SheriffChallengeStatusURL id`. -/
def isChallengeStatusURL (url : String) : Bool :=
  "https://api.robinhood.com/push/".data.isPrefixOf url.data &&
    "/get_prompts_status/".data.isSuffixOf (url.data.drop 31)

/-- Whether an action is a poll of the challenge status. -/
def Event.isStatusPoll : Event → Bool
  | .request _ req _ => decide (req.method = .GET) && isChallengeStatusURL req.url
  | .sleep _ _ => false

/-- The `challenge_status` a reply carries, read as the loop reads it; `none` for
a failed request or a response without data. -/
def Reply.challengeStatus : Reply → Option String
  | .response _ (some data) => some (GetString data "challenge_status")
  | _ => none

/-- Whether a reply is a body whose `type_context.result` is the string
`workflow_status_approved`. -/
def Reply.approves : Reply → Bool
  | .response _ (some data) =>
    match data.get "type_context" with
    | some (.obj typeContext) =>
      match Obj.get typeContext "result" with
      | some (.str result) => decide (result = "workflow_status_approved")
      | _ => false
    | _ => false
  | _ => false

/-- The reply an action received, if it is a request. -/
def Event.reply? : Event → Option Reply
  | .request _ _ reply => some reply
  | .sleep _ _ => none

/-- No file is created or overwritten between `w` and `w1`: every file of `w1`
was a file of `w` with the same content. -/
def NoFileWritten (w w1 : World) : Prop :=
  ∀ p f, w1.files p = some f → w.files p = some f

/-- The request of the login POST. -/
def loginPost (username password mfaCode deviceToken : String) : Request :=
  { method := .POST
    url := LoginURL
    body := some (loginPayload username password mfaCode deviceToken)
    authorization := none }

/-- The world `w1` is reached from `w` by requests and sleeps alone, each new action
satisfying `P`: files and client unchanged, the clock not set back. -/
def Reaches (P : Event → Prop) (w w1 : World) : Prop :=
  w1.files = w.files ∧ w1.auth = w.auth ∧ w.now ≤ w1.now ∧
    ∃ evs, w1.trace = w.trace ++ evs ∧ ∀ e ∈ evs, P e

/-- The actions of the two polling loops for a given inquiry URL and status URL: a
sleep, a GET of either URL, or the continuation POST to the inquiry URL. -/
def PollAction (inquiryURL statusURL : String) : Event → Prop
  | .sleep _ _ => True
  | .request _ req _ =>
    (req.method = .GET ∧ (req.url = inquiryURL ∨ req.url = statusURL)) ∨
    (req.method = .POST ∧ req.url = inquiryURL ∧ req.body = some continuePayload)

/-- An action of the verification after its start POST, for the inquiry URL of
machine `machineID`: a poll action for that inquiry URL and some status URL. -/
def VerificationAction (machineID : String) (e : Event) : Prop :=
  ∃ challengeID, PollAction (SheriffInquiryURL machineID)
    (SheriffChallengeStatusURL challengeID) e

/-- The request of the verification-start POST. -/
def startPost (deviceToken workflowID : String) : Request :=
  { method := .POST
    url := PathfinderUserMachineURL
    body := some (machinePayload deviceToken workflowID)
    authorization := none }

/-! ## Concrete environments and worlds on which the theorems are exercised -/

/-- An environment with home directory `/home/alice`, a working random source that
delivers the bytes 0 to 15, requests that take a millisecond, exact sleeps, working
file operations, and the given transport. -/
def sampleEnv (http : Nat → Request → Reply) : Env :=
  { HOME := "/home/alice"
    randError := none
    randByte := fun i => i
    urlError := fun _ => none
    http := http
    latency := fun _ => 1000000
    oversleep := fun _ => 0
    writeFile := fun _ => .ok
    removeOk := fun _ => true }

/-- The device token drawn in `sampleEnv`. -/
def sampleDeviceToken : String := "00010203-0405-0607-0809-0a0b0c0d0e0f"

/-- A world without files and without a credential on the client. -/
def emptyWorld : World :=
  { now := 63900000000000000000
    files := fun _ => none
    auth := none
    trace := []
    nreq := 0
    nsleep := 0 }

/-- The world after the first request of a run from `emptyWorld` in `sampleEnv`. -/
def afterFirstPost (http : Nat → Request → Reply) (password : String) : World :=
  (roundTrip (sampleEnv http) emptyWorld (loginPost "alice" password "" sampleDeviceToken)).2

/-- A token response with a complete set of tokens. -/
def tokenBody : Obj :=
  [("access_token", .str "acc-1"), ("refresh_token", .str "ref-1"),
    ("token_type", .str "Bearer"), ("expires_in", .num ⟨86400, 0⟩)]

/-- A credential stored for `alice` one second before the clock of `storedWorld`. -/
def storedToken : Auth :=
  { AccessToken := "acc-0"
    RefreshToken := "ref-0"
    TokenType := "Bearer"
    DeviceToken := "ffffffff-0000-0000-0000-000000000000"
    ExpiresIn := 86400
    IssuedAt := 63899999999000000000 }

/-- A world whose credential store holds `storedToken` for `alice`. -/
def storedWorld : World :=
  { emptyWorld with
    files := fun p =>
      if p = "/home/alice/.tokens/robinhood_alice.json" then
        some { readable := true, data := .json storedToken }
      else none }

/-- An environment without network and without randomness: every request fails and
`rand.Read` fails. -/
def offlineEnv : Env :=
  { sampleEnv (fun _ _ => .failure (.new "network unreachable")) with
    randError := some (.new "entropy source unavailable") }

/-- A transport that answers every request with status 403, `mfa_required = true`
and a `detail` string. -/
def mfaHttp : Nat → Request → Reply :=
  fun _ _ => .response 403 (some [("mfa_required", .bool true), ("detail", .str "denied")])

/-- A transport that answers every request with status 200 and an empty string as
access token. -/
def emptyTokenHttp : Nat → Request → Reply :=
  fun _ _ => .response 200 (some [("access_token", .str ""), ("token_type", .str "Bearer")])

/-- A transport whose first reply carries both a verification workflow and
`mfa_required = true`, and that fails every later request. -/
def workflowAndMfaHttp : Nat → Request → Reply
  | 0, _ => .response 403 (some [("verification_workflow", .obj [("id", .str "wf-1")]),
      ("mfa_required", .bool true)])
  | _, _ => .failure (.new "connection reset")

/-- A transport that answers every request with status 200 and `tokenBody`. -/
def tokenHttp : Nat → Request → Reply :=
  fun _ _ => .response 200 (some tokenBody)

/-- The environment of `sampleEnv tokenHttp` with `$HOME` unset. -/
def homelessEnv : Env :=
  { sampleEnv tokenHttp with HOME := "" }

/-- A transport that answers every request with status 200 and a token response
whose `expires_in` is -1. -/
def negativeExpiryHttp : Nat → Request → Reply :=
  fun _ _ => .response 200 (some [("access_token", .str "acc-1"),
    ("refresh_token", .str "ref-1"), ("token_type", .str "Bearer"),
    ("expires_in", .num ⟨-1, 0⟩)])

/-- The world in which a fresh login of `alice` against `tokenHttp` ends. -/
def freshWorld : World :=
  (loginClassify (sampleEnv tokenHttp) (afterFirstPost tokenHttp "secret") "alice"
    sampleDeviceToken (parseResponse 200 (some tokenBody))).2

/-- The credential a fresh login of `alice` against `tokenHttp` returns. -/
def freshToken : Auth :=
  { AccessToken := "acc-1"
    RefreshToken := "ref-1"
    TokenType := "Bearer"
    DeviceToken := sampleDeviceToken
    ExpiresIn := 86400
    IssuedAt := 63900000000001000000 }

/-- The world in which the reply to the first login POST of a fresh login arrives. -/
def afterLoginPost (env : Env) (w : World) (username password mfaCode deviceToken : String) :
    World :=
  (roundTrip env (tryLoadStoredToken env w username).2
    (loginPost username password mfaCode deviceToken)).2

/-- The transport of the verification scenario: the login response carries the
workflow `wf-1`; the start POST yields machine `m-1`; the inquiry yields challenge
`c-1`; the challenge status is `issued` once, then `validated`; the continuation is
approved; the retried login POST yields `tokenBody`. -/
def scenarioHttp : Nat → Request → Reply
  | 0, _ => .response 403 (some [("verification_workflow", .obj [("id", .str "wf-1")])])
  | 1, _ => .response 200 (some [("id", .str "m-1")])
  | 2, _ => .response 200 (some [("context", .obj [("sheriff_challenge",
      .obj [("id", .str "c-1")])])])
  | 3, _ => .response 200 (some [("challenge_status", .str "issued")])
  | 4, _ => .response 200 (some [("challenge_status", .str "validated")])
  | 5, _ => .response 200 (some [("type_context",
      .obj [("result", .str "workflow_status_approved")])])
  | _, _ => .response 200 (some tokenBody)

/-- The transport of a verification that is refused: the login response carries the
workflow `wf-1`, the start POST yields machine `m-1`, the inquiry yields challenge
`c-1`, and the challenge status is `denied`. -/
def deniedHttp : Nat → Request → Reply
  | 0, _ => .response 403 (some [("verification_workflow", .obj [("id", .str "wf-1")])])
  | 1, _ => .response 200 (some [("id", .str "m-1")])
  | 2, _ => .response 200 (some [("context", .obj [("sheriff_challenge",
      .obj [("id", .str "c-1")])])])
  | _, _ => .response 200 (some [("challenge_status", .str "denied")])

/-- The world a run of the verification ends in, `emptyWorld` if it does not end. -/
def verificationEnd (http : Nat → Request → Reply) : World :=
  match handleSheriffVerification 25 (sampleEnv http)
      (afterLoginPost (sampleEnv http) emptyWorld "alice" "secret" "" sampleDeviceToken)
      sampleDeviceToken "wf-1" with
  | some (_, w2) => w2
  | none => emptyWorld

/-- Whether an action is a poll of the challenge status that returned `status`. -/
def Event.isStatusPollWith (status : String) : Event → Bool
  | .request _ req reply =>
    decide (req.method = .GET) && isChallengeStatusURL req.url &&
      decide (reply.challengeStatus = some status)
  | .sleep _ _ => false

/-- The action is the continuation POST (sequence 0, user input `continue`) to the
given inquiry URL. -/
def Event.IsContinuationTo (inquiryURL : String) : Event → Prop
  | .request _ req _ =>
    req.method = .POST ∧ req.url = inquiryURL ∧ req.body = some continuePayload
  | .sleep _ _ => False

/-- Whether the action is a request whose reply approves the workflow. -/
def Event.approved : Event → Bool
  | .request _ _ reply => reply.approves
  | .sleep _ _ => false

/-- An action of the challenge loop that does not end it with the continuation: a
sleep, or a GET of the status URL whose reply does not carry the status `validated`. -/
def QuietPoll (statusURL : String) : Event → Prop
  | .sleep _ _ => True
  | .request _ req reply =>
    req.method = .GET ∧ req.url = statusURL ∧ reply.challengeStatus ≠ some "validated"

/-- An action of the verification before the challenge loop: the start POST, a
sleep, or a GET of the inquiry URL. -/
def OpeningAction (inquiryURL : String) : Event → Prop
  | .sleep _ _ => True
  | .request _ req _ =>
    (req.method = .POST ∧ req.url = PathfinderUserMachineURL) ∨
    (req.method = .GET ∧ req.url = inquiryURL)

/-- The transport of a challenge that is never resolved: the login response carries
the workflow `wf-1`, the start POST yields machine `m-1`, the inquiry of `m-1` yields
challenge `c-1`, and every other GET returns the challenge status `issued`. -/
def issuedHttp : Nat → Request → Reply :=
  fun _ req =>
    match req.method with
    | .POST =>
      if req.url = LoginURL then
        .response 403 (some [("verification_workflow", .obj [("id", .str "wf-1")])])
      else .response 200 (some [("id", .str "m-1")])
    | .GET =>
      if req.url = SheriffInquiryURL "m-1" then
        .response 200 (some [("context", .obj [("sheriff_challenge",
          .obj [("id", .str "c-1")])])])
      else .response 200 (some [("challenge_status", .str "issued")])

/-! ## auth/auth.go: Logout -/

/-- Embedding of `Logout`: `deleteToken(username)`, then `client.SetAuth(nil)`. -/
def Logout (env : Env) (w : World) (username : String) : World :=
  SetAuth (deleteToken env w username) none

/-! ## Further concrete inputs -/

/-- A credential that lives one second, issued at the clock reading of `emptyWorld`. -/
def oneSecondToken : Auth :=
  { AccessToken := "acc-0"
    RefreshToken := "ref-0"
    TokenType := "Bearer"
    DeviceToken := "ffffffff-0000-0000-0000-000000000000"
    ExpiresIn := 1
    IssuedAt := 63900000000000000000 }

/-- A credential whose `ExpiresIn` is the least number of seconds that does not fit
an `int64` count of nanoseconds. -/
def centuriesToken : Auth :=
  { oneSecondToken with ExpiresIn := 9223372037 }

/-- A world whose credential store holds `oneSecondToken` for `alice`, two seconds
after it was issued. -/
def staleWorld : World :=
  { emptyWorld with
    now := 63900000002000000000
    files := fun p =>
      if p = "/home/alice/.tokens/robinhood_alice.json" then
        some { readable := true, data := .json oneSecondToken }
      else none }

/-- The environment of `offlineEnv` in which, moreover, `os.Remove` fails. -/
def stickyEnv : Env :=
  { offlineEnv with removeOk := fun _ => false }

/-- A world in which the token file of `alice` does not decode as a credential. -/
def garbledWorld : World :=
  { emptyWorld with
    files := fun p =>
      if p = "/home/alice/.tokens/robinhood_alice.json" then
        some { readable := true, data := .garbage }
      else none }

/-- Whether a character is a lowercase hexadecimal digit. -/
def isLowerHex (c : Char) : Bool :=
  (decide ('0' ≤ c) && decide (c ≤ '9')) || (decide ('a' ≤ c) && decide (c ≤ 'f'))

/-- The environment of `offlineEnv` in which `http.NewRequestWithContext` rejects the
URL `http://a b.example/`, whose host contains a blank. -/
def strictUrlEnv : Env :=
  { offlineEnv with
    urlError := fun url =>
      if url = "http://a b.example/" then some (.new "invalid character in host name")
      else none }

/-! ## Cancellation of the caller's context -/

/-- The caller's context is cancelled by the time the request numbered `n` is made:
that call of `httpClient.Do` and every later one fails, as `net/http` does for a
request whose context is done. -/
def CancelledFrom (env : Env) (n : Nat) : Prop :=
  ∀ k req, n ≤ k → ∃ e, env.http k req = .failure e

/-- Whether a list of actions is a run of failed polls and their waits: a GET of
`url` that fails, then a sleep of `d`, any number of times. -/
def failedPolling (url : String) (d : Int) : List Event → Bool
  | [] => true
  | .request _ req (.failure _) :: .sleep _ d1 :: rest =>
    decide (req.method = .GET) && decide (req.url = url) && decide (d1 = d) &&
      failedPolling url d rest
  | _ => false

/-- Whether an action is a request that failed. -/
def Event.isFailedRequest : Event → Bool
  | .request _ _ (.failure _) => true
  | _ => false

/-- Whether an action is a sleep of the duration `d`. -/
def Event.isSleepOf (d : Int) : Event → Bool
  | .sleep _ d1 => decide (d1 = d)
  | .request _ _ _ => false

/-- The transport of a verification whose context is cancelled while the challenge
is pending: the login response carries the workflow `wf-1`, the start POST yields
machine `m-1`, the inquiry yields challenge `c-1`, the first poll of the challenge
status returns `issued`, and every later request fails. -/
def cancelledHttp : Nat → Request → Reply
  | 0, _ => .response 403 (some [("verification_workflow", .obj [("id", .str "wf-1")])])
  | 1, _ => .response 200 (some [("id", .str "m-1")])
  | 2, _ => .response 200 (some [("context", .obj [("sheriff_challenge",
      .obj [("id", .str "c-1")])])])
  | 3, _ => .response 200 (some [("challenge_status", .str "issued")])
  | _, _ => .failure (.new "context canceled")

/-- The world of the run of `cancelledHttp` right after the poll that returned
`issued`, the last request before the cancellation. -/
def cancelledWorld : World :=
  (Get (sampleEnv cancelledHttp)
    (Get (sampleEnv cancelledHttp)
      (Post (sampleEnv cancelledHttp)
        (afterLoginPost (sampleEnv cancelledHttp) emptyWorld "alice" "secret" "" sampleDeviceToken)
        PathfinderUserMachineURL (machinePayload sampleDeviceToken "wf-1") false).2
      (SheriffInquiryURL "m-1") false).2
    (SheriffChallengeStatusURL "c-1") false).2

/-! ## Shape of cleaned paths -/

/-- The stack of kept components that lexical cleaning maintains, last component
first: no component is empty, `.` or contains a separator, and a `..` component
occurs only in an unrooted path, on top of nothing or of another `..`. -/
def CleanStack (rooted : Bool) : List (List Char) → Prop
  | [] => True
  | comp :: rest =>
    comp ≠ [] ∧ comp ≠ ['.'] ∧ '/' ∉ comp ∧
      (comp = ['.', '.'] → rooted = false ∧ ∀ top ∈ rest.head?, top = ['.', '.']) ∧
      CleanStack rooted rest

/-- The name of the token file of an identity inside the tokens directory. -/
def tokenFileName (username : String) : String := "robinhood_" ++ username ++ ".json"

/-! ## utils/util.go: BuildURL -/

/-- Embedding of `utils.BuildURL`.  The Go map is given as the list of its entries in
the order the `range` loop visits them; the program calls it with one entry. -/
def BuildURL (base : String) (params : List (String × String)) : String :=
  if params.length = 0 then base
  else
    let parts := params.filterMap (fun kv => if kv.2 ≠ "" then some (kv.1 ++ "=" ++ kv.2) else none)
    if parts.length = 0 then base
    else base ++ "?" ++ String.intercalate "&" parts

/-! ## client.go: FetchAllPages -/

/-- The loop of `FetchAllPages` with its variables `nextURL` and `allResults`; the
outer `none` means the iteration budget `fuel` ran out. -/
def fetchPages : Nat → Env → World → String → Bool → List Obj →
    Option (Except GoError (List Obj) × World)
  | 0, _, _, _, _, _ => none
  | fuel + 1, env, w, nextURL, authenticated, allResults =>
    if nextURL ≠ "" then
      match Get env w nextURL authenticated with
      | (.error err, w1) => some (.error err, w1)
      | (.ok resp, w1) =>
        let nextURL1 : String :=
          match asString (dataGet resp.Data "next") with
          | some next => if next ≠ "" then next else ""
          | none => ""
        fetchPages fuel env w1 nextURL1 authenticated (allResults ++ resp.Results)
    else some (.ok allResults, w)

/-- Embedding of `(*Client).FetchAllPages`. -/
def FetchAllPages (fuel : Nat) (env : Env) (w : World) (initialURL : String)
    (authenticated : Bool) : Option (Except GoError (List Obj) × World) :=
  fetchPages fuel env w initialURL authenticated []

/-! ## account/accounts.go: positions -/

/-- The function `urls.PositionsURL`. -/
def PositionsURL : String := "https://api.robinhood.com/positions/"

/-- The struct `models.Position` as the account functions fill it. -/
structure Position where
  URL : String
  Instrument : String
  InstrumentID : String
  Account : String
  AccountNumber : String
  AverageBuyPrice : String
  PendingAverageBuyPrice : String
  Quantity : String
  IntradayAverageBuyPrice : String
  IntradayQuantity : String
  SharesHeldForBuys : String
  SharesHeldForSells : String
  UpdatedAt : String
  CreatedAt : String
deriving DecidableEq, Repr

/-- The `models.Position` literal built from one result. -/
def positionOf (result : Obj) : Position :=
  { URL := GetString result "url"
    Instrument := GetString result "instrument"
    InstrumentID := GetString result "instrument_id"
    Account := GetString result "account"
    AccountNumber := GetString result "account_number"
    AverageBuyPrice := GetString result "average_buy_price"
    PendingAverageBuyPrice := GetString result "pending_average_buy_price"
    Quantity := GetString result "quantity"
    IntradayAverageBuyPrice := GetString result "intraday_average_buy_price"
    IntradayQuantity := GetString result "intraday_quantity"
    SharesHeldForBuys := GetString result "shares_held_for_buys"
    SharesHeldForSells := GetString result "shares_held_for_sells"
    UpdatedAt := GetString result "updated_at"
    CreatedAt := GetString result "created_at" }

/-- Embedding of `GetOpenStockPosition`; `accountNumber` is `none` for a nil pointer.
The map `params` with `nonzero = true` is built and then discarded (`_ = params`). -/
def GetOpenStockPosition (fuel : Nat) (env : Env) (w : World) (accountNumber : Option String) :
    Option (Except GoError (List Position) × World) :=
  if !IsAuthenticated w then some (.error ErrNotAuthenticated, w)
  else
    let params : List (String × String) := [("nonzero", "true")]
    let url : String :=
      match accountNumber with
      | some n => BuildURL PositionsURL [("account_number", n)]
      | none => PositionsURL
    match FetchAllPages fuel env w url true with
    | none => none
    | some (.error err, w1) => some (.error err, w1)
    | some (.ok results, w1) =>
      let _ := params
      some (.ok (results.map positionOf), w1)

/-! ## Pagination: what is observed -/

/-- The URL of the next page as `FetchAllPages` reads it from a page: the string
`next`, and `""` when `next` is absent or not a string. -/
def nextPageURL (page : Response) : String :=
  (asString (dataGet page.Data "next")).getD ""

/-- Following `next` from `url` in the world `w` visits exactly the pages `pages`,
every GET succeeding: the last page is the first one without a next URL. -/
def VisitsPages (env : Env) (authenticated : Bool) : World → String → List Response → Prop
  | _, url, [] => url = ""
  | w, url, page :: rest =>
    url ≠ "" ∧ (Get env w url authenticated).1 = .ok page ∧
      VisitsPages env authenticated (Get env w url authenticated).2 (nextPageURL page) rest

/-- Following `next` from `url` in the world `w` visits the pages `pages`, every GET
succeeding, and then a GET that fails with `err`. -/
def VisitsUntilError (env : Env) (authenticated : Bool) :
    World → String → List Response → GoError → Prop
  | w, url, [], err => url ≠ "" ∧ (Get env w url authenticated).1 = .error err
  | w, url, page :: rest, err =>
    url ≠ "" ∧ (Get env w url authenticated).1 = .ok page ∧
      VisitsUntilError env authenticated (Get env w url authenticated).2 (nextPageURL page)
        rest err

/-- The actions `evs` are one successful GET per page of `pages`, in order: the
first of `url`, each following one of the next URL of the page before, and each
page is `parseResponse` of the reply to its GET. -/
def PageFetches : String → List Response → List Event → Prop
  | _, [], evs => evs = []
  | _, _ :: _, [] => False
  | url, page :: rest, e :: evs =>
    (∃ time authorization status data,
      e = Event.request time ⟨.GET, url, none, authorization⟩ (.response status data) ∧
      page = parseResponse status data) ∧
    PageFetches (nextPageURL page) rest evs

/-- The URL of a request, `none` for a sleep. -/
def Event.url? : Event → Option String
  | .request _ req _ => some req.url
  | .sleep _ _ => none

/-- A client that holds `storedToken` as its credential, without files. -/
def authedWorld : World := SetAuth emptyWorld (some storedToken)

/-- The body of the first page of `pagedHttp`: two results, an element that is not
an object, and the next URL `https://api.robinhood.com/page2`. -/
def firstPageBody : Obj :=
  [("results", .arr [.obj [("quantity", .str "0.0000")], .str "skipped",
      .obj [("quantity", .str "3.0000")]]),
    ("next", .str "https://api.robinhood.com/page2")]

/-- The body of the second page of `pagedHttp`: one result and a null `next`. -/
def secondPageBody : Obj :=
  [("results", .arr [.obj [("quantity", .str "7.0000")]]), ("next", .null)]

/-- A transport that serves two pages: the first request returns `firstPageBody`,
every later request `secondPageBody`. -/
def pagedHttp : Nat → Request → Reply
  | 0, _ => .response 200 (some firstPageBody)
  | _, _ => .response 200 (some secondPageBody)

/-- A transport that serves the first page of `pagedHttp` and fails afterwards. -/
def brokenPagedHttp : Nat → Request → Reply
  | 0, req => pagedHttp 0 req
  | _, _ => .failure (.new "connection reset")

/-! ## The inquiry wait: what is observed -/

/-- Whether a reply is a failed request or a response without data, the two cases in
which the inquiry wait and the challenge loop retry. -/
def Reply.noData : Reply → Bool
  | .failure _ => true
  | .response _ none => true
  | .response _ (some _) => false

/-- Whether a list of actions is a run of the inquiry wait for the URL `url` and the
deadline `deadline`: GETs of `url` started before the deadline, each one that failed
or returned no data followed by a 4-second sleep, and a GET that returned data only
as the last action. -/
def inquiryWait (url : String) (deadline : Int) : List Event → Bool
  | [] => true
  | [.request t req (.response _ (some _))] =>
    decide (req.method = .GET) && decide (req.url = url) && decide (t < deadline)
  | .request t req reply :: .sleep _ d :: rest =>
    decide (req.method = .GET) && decide (req.url = url) && decide (t < deadline) &&
      reply.noData && decide (d = 4 * Second) && inquiryWait url deadline rest
  | _ => false

/-- The data of the first request in a list of actions that returned data. -/
def firstData : List Event → Option Obj
  | [] => none
  | .request _ _ (.response _ (some data)) :: _ => some data
  | _ :: rest => firstData rest

/-- A transport on which the inquiry never yields data: the login response carries
the workflow `wf-1`, the start POST yields machine `m-1`, and every later request
returns the JSON text `null`. -/
def silentHttp : Nat → Request → Reply
  | 0, _ => .response 403 (some [("verification_workflow", .obj [("id", .str "wf-1")])])
  | 1, _ => .response 200 (some [("id", .str "m-1")])
  | _, _ => .response 200 none

/-! ## auth/auth.go: RefreshToken -/

/-- The body of the refresh POST, a `map[string]string`. -/
def refreshPayload (refreshToken deviceToken : String) : Value :=
  .obj [("client_id", .str ClientID), ("grant_type", .str "refresh_token"),
    ("refresh_token", .str refreshToken), ("device_token", .str deviceToken),
    ("scope", .str "internal")]

/-- Embedding of `RefreshToken`.  The struct literal leaves `IssuedAt` at the zero
time, and `saveToken`, which would stamp it, is not called. -/
def RefreshToken (env : Env) (w : World) (refreshToken deviceToken : String) :
    Except GoError Auth × World :=
  match Post env w LoginURL (refreshPayload refreshToken deviceToken) false with
  | (.error err, w1) => (.error err, w1)
  | (.ok resp, w1) =>
    if resp.StatusCode ≥ 400 then
      (.error (.new ("refresh failed: status " ++ toString resp.StatusCode)), w1)
    else
      let auth : Auth :=
        { AccessToken := GetStringD resp.Data "access_token"
          RefreshToken := GetStringD resp.Data "refresh_token"
          TokenType := GetStringD resp.Data "token_type"
          DeviceToken := deviceToken
          ExpiresIn := GetIntD resp.Data "expires_in"
          IssuedAt := 0 }
      (.ok auth, SetAuth w1 (some auth))

/-- The credential that the file content `{}` decodes to: every field zero. -/
def blankToken : Auth :=
  { AccessToken := ""
    RefreshToken := ""
    TokenType := ""
    DeviceToken := ""
    ExpiresIn := 0
    IssuedAt := 0 }

/-- A world in which the token file of `alice` has the content `{}`. -/
def blankWorld : World :=
  { emptyWorld with
    files := fun p =>
      if p = "/home/alice/.tokens/robinhood_alice.json" then
        some { readable := true, data := .json blankToken }
      else none }

/-- The credential that `RefreshToken` builds from `tokenBody` for the device token
`sampleDeviceToken`. -/
def refreshedToken : Auth :=
  { AccessToken := "acc-1"
    RefreshToken := "ref-1"
    TokenType := "Bearer"
    DeviceToken := sampleDeviceToken
    ExpiresIn := 86400
    IssuedAt := 0 }

/-! ## Floats, panics and request bodies with floats -/

/-- A `float64`: a finite value, or one of the three values that `encoding/json`
refuses to marshal. -/
inductive GoFloat where
  | finite (f : Float64)
  | nan
  | posInf
  | negInf
deriving DecidableEq, Repr

/-- How `json.Marshal` prints a non-finite float in its error. -/
def GoFloat.specialName : GoFloat → String
  | .finite _ => ""
  | .nan => "NaN"
  | .posInf => "+Inf"
  | .negInf => "-Inf"

/-- The result of a call that may panic instead of returning. -/
inductive Outcome (α : Type) where
  | returned (a : α)
  | panicked (msg : String)

/-- A Go value handed to `client.Post` as the request body, before `json.Marshal`:
a value that marshals, a `float64`, or a map with such values. -/
inductive Body where
  | val (v : Value)
  | float (f : GoFloat)
  | obj (kvs : List (String × Body))

mutual

/-- Model of `json.Marshal` on a body: the value sent, or the error for a float that
is not finite. -/
def Body.marshal : Body → Except GoError Value
  | .val v => .ok v
  | .float (.finite f) => .ok (.num f)
  | .float f => .error (.new ("json: unsupported value: " ++ f.specialName))
  | .obj kvs =>
    match Body.marshalFields kvs with
    | (_, some (_, e)) => .error e
    | (vs, none) => .ok (.obj vs)

/-- The fields of a map marshalled one by one: the fields that marshal, and the
error of the failing field with the least key (`json.Marshal` visits the keys in
sorted order and stops at the first error). -/
def Body.marshalFields : List (String × Body) → List (String × Value) × Option (String × GoError)
  | [] => ([], none)
  | (k, b) :: rest =>
    match b.marshal, Body.marshalFields rest with
    | .ok v, (vs, err) => ((k, v) :: vs, err)
    | .error e, (vs, none) => (vs, some (k, e))
    | .error e, (vs, some (k1, e1)) => (vs, if k1 < k then some (k1, e1) else some (k, e))

end

/-- Embedding of `(*Client).Post` for a body that may fail to marshal: the first
step of `doRequest` is `json.Marshal(body)`. -/
def PostBody (env : Env) (w : World) (urlStr : String) (body : Body) (authenticated : Bool) :
    Except GoError Response × World :=
  match body.marshal with
  | .error e => (.error (.wrap "marshal body" e), w)
  | .ok v => Post env w urlStr v authenticated

/-- The sixteen bytes of a random UUID of `github.com/google/uuid`: the bytes read
from `crypto/rand` with the version and variant bits set. -/
def uuidBytes (env : Env) : List Nat :=
  (List.range 16).map (fun i =>
    if i = 6 then env.randByte i % 16 + 64
    else if i = 8 then env.randByte i % 64 + 128
    else env.randByte i % 256)

/-- Model of `uuid.NewRandom` followed by `String`: the error of the random source,
or the UUID in its 8-4-4-4-12 form.  `uuid.New` and `uuid.NewString` panic on the
error. -/
def NewUUID (env : Env) : Except GoError String :=
  match env.randError with
  | some e => .error e
  | none => .ok (formatDeviceToken (uuidBytes env))

/-! ## account/accounts.go: bank transfers -/

/-- The function `urls.LinkedURL`. -/
def LinkedURL : String := "https://api.robinhood.com/ach/relationships/"

/-- The function `urls.BankTransfersURL`. -/
def BankTransfersURL : String := "https://api.robinhood.com/ach/transfers/"

/-- Embedding of `GetLinkedBankAccounts`. -/
def GetLinkedBankAccounts (fuel : Nat) (env : Env) (w : World) :
    Option (Except GoError (List Obj) × World) :=
  if !IsAuthenticated w then some (.error ErrNotAuthenticated, w)
  else
    match FetchAllPages fuel env w LinkedURL true with
    | none => none
    | some (.error err, w1) => some (.error err, w1)
    | some (.ok results, w1) => some (.ok results, w1)

/-- The `for` loop of `getBankURLByAccountNumber`: the `url` of the first account
whose `bank_account_number` is `accountNumber`. -/
def findBankURL (accountNumber : String) : List Obj → Option String
  | [] => none
  | account :: rest =>
    if GetString account "bank_account_number" = accountNumber then
      some (GetString account "url")
    else findBankURL accountNumber rest

/-- Embedding of `getBankURLByAccountNumber`: after the loop, a non-empty list
yields the `url` of its first account. -/
def getBankURLByAccountNumber (fuel : Nat) (env : Env) (w : World) (accountNumber : String) :
    Option (Except GoError String × World) :=
  match GetLinkedBankAccounts fuel env w with
  | none => none
  | some (.error err, w1) => some (.error err, w1)
  | some (.ok accounts, w1) =>
    match findBankURL accountNumber accounts with
    | some url => some (.ok url, w1)
    | none =>
      match accounts with
      | first :: _ => some (.ok (GetString first "url"), w1)
      | [] => some (.error (.new "no linked bank accounts found"), w1)

/-- The payload of a bank transfer. -/
def transferPayload (amount : GoFloat) (direction achRelationship refID : String) : Body :=
  .obj [("amount", .float amount), ("direction", .val (.str direction)),
    ("ach_relationship", .val (.str achRelationship)), ("ref_id", .val (.str refID))]

/-- The common body of `DepositFundsIntoRobinhood` and `WithdrawFundsFromRobinhood`,
which differ in the `direction` of the payload only. -/
def bankTransfer (direction : String) (fuel : Nat) (env : Env) (w : World)
    (accountNumber : String) (amount : GoFloat) :
    Option (Outcome (Except GoError (Option Obj)) × World) :=
  if !IsAuthenticated w then some (.returned (.error ErrNotAuthenticated), w)
  else
    match getBankURLByAccountNumber fuel env w accountNumber with
    | none => none
    | some (.error err, w1) =>
      some (.returned (.error (.wrap "failed to get bank relationship" err)), w1)
    | some (.ok achRelationship, w1) =>
      match NewUUID env with
      | .error e => some (.panicked e.Error, w1)
      | .ok refID =>
        match PostBody env w1 BankTransfersURL
            (transferPayload amount direction achRelationship refID) true with
        | (.error err, w2) => some (.returned (.error err), w2)
        | (.ok resp, w2) => some (.returned (.ok resp.Data), w2)

/-- Embedding of `DepositFundsIntoRobinhood`. -/
def DepositFundsIntoRobinhood (fuel : Nat) (env : Env) (w : World) (accountNumber : String)
    (amount : GoFloat) : Option (Outcome (Except GoError (Option Obj)) × World) :=
  bankTransfer "deposit" fuel env w accountNumber amount

/-- Embedding of `WithdrawFundsFromRobinhood`. -/
def WithdrawFundsFromRobinhood (fuel : Nat) (env : Env) (w : World) (accountNumber : String)
    (amount : GoFloat) : Option (Outcome (Except GoError (Option Obj)) × World) :=
  bankTransfer "withdraw" fuel env w accountNumber amount

/-- The body of a request, `none` for a sleep or a request without body. -/
def Event.body? : Event → Option Value
  | .request _ req _ => req.body
  | .sleep _ _ => none

/-- A linked bank account with the number `1111`. -/
def linkedAccount : Obj :=
  [("bank_account_number", .str "1111"),
    ("url", .str "https://api.robinhood.com/ach/relationships/r-1/")]

/-- A transport with `linkedAccount` as the only linked bank account: every GET
returns the list of linked accounts, every POST is answered with status 201. -/
def bankHttp : Nat → Request → Reply :=
  fun _ req =>
    match req.method with
    | .GET => .response 200 (some [("results", .arr [.obj linkedAccount]), ("next", .null)])
    | .POST => .response 201 (some [("state", .str "pending")])

/-- A transport without linked bank accounts. -/
def noBankHttp : Nat → Request → Reply :=
  fun _ _ => .response 200 (some [("results", .arr []), ("next", .null)])

/-- Fifty dollars as a `float64`. -/
def fiftyDollars : GoFloat := .finite ⟨50, 0⟩

/-! ## Library functions taken as parameters -/

/-- Functions of the Go standard library that the stock and order code calls.  The
embedding takes them as parameters: the theorems hold for every such library. -/
structure StdLib where
  /-- The function `strings.ToUpper`. -/
  ToUpper : String → String
  /-- The function `strings.TrimSpace`. -/
  TrimSpace : String → String
  /-- The call `strconv.ParseFloat(s, 64)`; `none` stands for a non-nil error. -/
  ParseFloat : String → Option GoFloat
  /-- The conversion `float64(i)` of an `int`. -/
  ofInt : Int → GoFloat
  /-- The function `math.Round`. -/
  Round : GoFloat → GoFloat
  /-- The product of two `float64`. -/
  mul : GoFloat → GoFloat → GoFloat
  /-- The quotient of two `float64`. -/
  div : GoFloat → GoFloat → GoFloat
  /-- The sum of two `float64`. -/
  add : GoFloat → GoFloat → GoFloat
  /-- The difference of two `float64`. -/
  sub : GoFloat → GoFloat → GoFloat
  /-- The call `fmt.Sprintf("%f", x)`. -/
  formatFloat : GoFloat → String
  /-- The call `t.Format("2006-01-02 15:04:05.000000")` on an instant. -/
  formatTime : Int → String

/-- The `float64` zero. -/
def GoFloat.zero : GoFloat := .finite ⟨0, 0⟩

/-- Conversion `int(x)` of a `float64`; for a value that is not finite the result
is implementation-specific, amd64 yields the least `int64`. -/
def GoFloat.toInt : GoFloat → Int
  | .finite f => f.toInt
  | _ => -(2 ^ 63)

/-! ## utils/util.go: symbols, floats, typed getters -/

/-- Embedding of `utils.NormalizeSymbol`. -/
def NormalizeSymbol (lib : StdLib) (symbol : String) : String :=
  lib.ToUpper (lib.TrimSpace symbol)

/-- Embedding of `utils.NormalizeSymbols`. -/
def NormalizeSymbols (lib : StdLib) (symbols : List String) : List String :=
  symbols.map (NormalizeSymbol lib)

/-- Embedding of `utils.JoinSymbols`. -/
def JoinSymbols (symbols : List String) : String := String.intercalate "," symbols

/-- Embedding of `utils.ParseFloat`: a string that parses, a `float64`, an `int`;
everything else, `nil` included, is `0.0`. -/
def ParseFloat (lib : StdLib) : Value → GoFloat
  | .str s =>
    match lib.ParseFloat s with
    | some f => f
    | none => GoFloat.zero
  | .num f => .finite f
  | .int i => lib.ofInt i
  | _ => GoFloat.zero

/-- Embedding of `utils.RoundPrice`: `math.Round(price*100) / 100`. -/
def RoundPrice (lib : StdLib) (price : GoFloat) : GoFloat :=
  lib.div (lib.Round (lib.mul price (.finite ⟨100, 0⟩))) (.finite ⟨100, 0⟩)

/-- Embedding of `utils.GetInt` for a non-nil map. -/
def GetInt (data : Obj) (key : String) : Int := GetIntD (some data) key

/-- Embedding of `utils.GetBool` for a map that may be nil. -/
def GetBoolD (data : Option Obj) (key : String) : Bool :=
  match dataGet data key with
  | some (.bool b) => b
  | _ => false

/-- Embedding of `utils.GetBool` for a non-nil map. -/
def GetBool (data : Obj) (key : String) : Bool := GetBoolD (some data) key

/-- Embedding of `(*Client).Get` with a non-nil `params` map, given as the list of
its entries. -/
def GetWith (env : Env) (w : World) (urlStr : String) (params : List (String × String))
    (authenticated : Bool) : Except GoError Response × World :=
  doRequest env w .GET (BuildURL urlStr params) none authenticated

/-! ## stocks/stocks.go -/

/-- The struct `models.Quote`. -/
structure Quote where
  Symbol : String
  InstrumentID : String
  AskPrice : String
  AskSize : Int
  BidPrice : String
  BidSize : Int
  LastTradePrice : String
  LastExtendedHoursTradePrice : String
  PreviousClose : String
  AdjustedPreviousClose : String
  TradingHalted : Bool
  HasTraded : Bool
  UpdatedAt : String
deriving DecidableEq, Repr

/-- The `models.Quote` literal that `GetQuotes` builds from one result. -/
def quoteOf (result : Obj) : Quote :=
  { Symbol := GetString result "symbol"
    InstrumentID := GetString result "instrument_id"
    AskPrice := GetString result "ask_price"
    AskSize := GetInt result "ask_size"
    BidPrice := GetString result "bid_price"
    BidSize := GetInt result "bid_size"
    LastTradePrice := GetString result "last_trade_price"
    LastExtendedHoursTradePrice := GetString result "last_extended_hours_trade_price"
    PreviousClose := GetString result "previous_close"
    AdjustedPreviousClose := GetString result "adjusted_previous_close"
    TradingHalted := GetBool result "trading_halted"
    HasTraded := GetBool result "has_traded"
    UpdatedAt := GetString result "updated_at" }

/-- Embedding of `GetQuotes`. -/
def GetQuotes (lib : StdLib) (env : Env) (w : World) (symbols : List String) :
    Except GoError (List Quote) × World :=
  let symbolsParam := JoinSymbols (NormalizeSymbols lib symbols)
  match GetWith env w (BaseURL ++ "/quotes/") [("symbols", symbolsParam)] false with
  | (.error err, w1) => (.error err, w1)
  | (.ok resp, w1) => (.ok (resp.Results.map quoteOf), w1)

/-- Embedding of `GetLatestPrice`; `priceType` is `none` for a nil pointer, and a
price is a string or `nil`. -/
def GetLatestPrice (lib : StdLib) (env : Env) (w : World) (priceType : Option String)
    (includeExtendedHours : Bool) (symbols : List String) :
    Except GoError (List Value) × World :=
  match GetQuotes lib env w symbols with
  | (.error err, w1) => (.error err, w1)
  | (.ok quotes, w1) =>
    (.ok (quotes.map (fun quote =>
      match priceType with
      | some t =>
        if t = "ask_price" then Value.str quote.AskPrice
        else if t = "bid_price" then Value.str quote.BidPrice
        else Value.null
      | none =>
        if includeExtendedHours && decide (quote.LastExtendedHoursTradePrice ≠ "") then
          Value.str quote.LastExtendedHoursTradePrice
        else Value.str quote.LastTradePrice)), w1)

/-- The struct `models.Instrument`. -/
structure Instrument where
  ID : String
  URL : String
  Symbol : String
  Name : String
  SimpleName : String
  ListDate : String
  Country : String
  /-- The field `Type`. -/
  TypeName : String
  Tradeable : Bool
  Fundamentals : String
  Quote : String
  Market : String
  State : String
  DayTradeRatio : String
  MaintenanceRatio : String
  MarginInitialRatio : String
deriving DecidableEq, Repr

/-- The `models.Instrument` literal of `GetInstrumentBySymbol`; the three ratios are
not set. -/
def instrumentOf (result : Obj) : Instrument :=
  { ID := GetString result "id"
    URL := GetString result "url"
    Symbol := GetString result "symbol"
    Name := GetString result "name"
    SimpleName := GetString result "simple_name"
    ListDate := GetString result "list_date"
    Country := GetString result "country"
    TypeName := GetString result "type"
    Tradeable := GetBool result "tradeable"
    Fundamentals := GetString result "fundamentals"
    Quote := GetString result "quote"
    Market := GetString result "market"
    State := GetString result "state"
    DayTradeRatio := ""
    MaintenanceRatio := ""
    MarginInitialRatio := "" }

/-- Embedding of `GetInstrumentBySymbol`. -/
def GetInstrumentBySymbol (lib : StdLib) (env : Env) (w : World) (symbol : String) :
    Except GoError Instrument × World :=
  let symbol1 := NormalizeSymbol lib symbol
  match GetWith env w (BaseURL ++ "/instruments/") [("symbol", symbol1)] false with
  | (.error err, w1) => (.error err, w1)
  | (.ok resp, w1) =>
    match resp.Results with
    | [] => (.error (.new ("instrument not found for symbol: " ++ symbol1)), w1)
    | result :: _ => (.ok (instrumentOf result), w1)

/-! ## profiles/profiles.go -/

/-- The struct `models.Account`. -/
structure Account where
  URL : String
  AccountNumber : String
  /-- The field `Type`. -/
  TypeName : String
  CreatedAt : String
  UpdatedAt : String
  Deactivated : Bool
  CashBalances : String
  PortfolioURL : String
  BuyingPower : String
  MaxAchEarlyAccessAmount : String
  SweepEnabled : Bool
  InstantEligibility : Bool
  CashHeldForOrders : String
  UnsettledFunds : String
  UnsettledDebit : String
deriving DecidableEq, Repr

/-- The `models.Account` literal built from a map that may be nil. -/
def accountOf (data : Option Obj) : Account :=
  { URL := GetStringD data "url"
    AccountNumber := GetStringD data "account_number"
    TypeName := GetStringD data "type"
    CreatedAt := GetStringD data "created_at"
    UpdatedAt := GetStringD data "updated_at"
    Deactivated := GetBoolD data "deactivated"
    CashBalances := GetStringD data "cash_balances"
    PortfolioURL := GetStringD data "portfolio"
    BuyingPower := GetStringD data "buying_power"
    MaxAchEarlyAccessAmount := GetStringD data "max_ach_early_access_amount"
    SweepEnabled := GetBoolD data "sweep_enabled"
    InstantEligibility := GetBoolD data "instant_eligibility"
    CashHeldForOrders := GetStringD data "cash_held_for_orders"
    UnsettledFunds := GetStringD data "unsettled_funds"
    UnsettledDebit := GetStringD data "unsettled_debit" }

/-- Embedding of `GetAccountProfile`. -/
def GetAccountProfile (env : Env) (w : World) (accountNumber : String) :
    Except GoError Account × World :=
  if !IsAuthenticated w then (.error ErrNotAuthenticated, w)
  else
    match Get env w (BaseURL ++ "/accounts/" ++ accountNumber ++ "/") true with
    | (.error err, w1) => (.error err, w1)
    | (.ok resp, w1) => (.ok (accountOf resp.Data), w1)

/-- Embedding of `GetAllAccountProfiles`. -/
def GetAllAccountProfiles (env : Env) (w : World) : Except GoError (List Account) × World :=
  if !IsAuthenticated w then (.error ErrNotAuthenticated, w)
  else
    match Get env w (BaseURL ++ "/accounts/?default_to_all_accounts=true") true with
    | (.error err, w1) => (.error err, w1)
    | (.ok resp, w1) =>
      match dataGet resp.Data "results" with
      | some (.arr results) =>
        (.ok (results.filterMap (fun item =>
          match item with
          | .obj accountData => some (accountOf (some accountData))
          | _ => none)), w1)
      | _ => (.ok [], w1)

/-! ## urls/urls.go: orders -/

/-- Embedding of `urls.OrdersURL`; `none` is a nil pointer. -/
def OrdersURL (orderID accountNumber startDate : Option String) : String :=
  let url : String :=
    match orderID with
    | some id => "https://api.robinhood.com/orders/" ++ id ++ "/"
    | none => "https://api.robinhood.com/orders/"
  let params1 : String :=
    match accountNumber with
    | some n => "account_numbers=" ++ n
    | none => ""
  let params2 : String :=
    match startDate with
    | some d => (if params1 ≠ "" then params1 ++ "&" else params1) ++ "updated_at[gte]=" ++ d
    | none => params1
  if params2 ≠ "" then url ++ "?" ++ params2 else url

/-! ## orders/orders.go -/

/-- The assignment `payload[key] = value` on a map given as the list of its
entries: the entry is replaced in place, or added at the end. -/
def setField : List (String × Body) → String → Body → List (String × Body)
  | [], key, value => [(key, value)]
  | (k, v) :: rest, key, value =>
    if k = key then (k, value) :: rest else (k, v) :: setField rest key value

/-- The statement `delete(payload, key)`. -/
def deleteField (payload : List (String × Body)) (key : String) : List (String × Body) :=
  payload.filter (fun kv => kv.1 ≠ key)

/-- The entry of a key in a payload. -/
def lookupField : List (String × Body) → String → Option Body
  | [], _ => none
  | (k, v) :: rest, key => if k = key then some v else lookupField rest key

/-- The message of the run-time panic for `s[0]` on an empty slice. -/
def indexPanic : String := "runtime error: index out of range [0] with length 0"

/-- The prices of a `GetLatestPrice` call whose error is dropped (`prices, _ :=`):
the nil slice when the call failed. -/
def pricesOf : Except GoError (List Value) → List Value
  | .ok prices => prices
  | .error _ => []

/-- Embedding of `getAccountURL`. -/
def getAccountURL (env : Env) (w : World) (accountNumber : Option String) :
    Except GoError String × World :=
  match accountNumber with
  | some n =>
    match GetAccountProfile env w n with
    | (.error err, w1) => (.error err, w1)
    | (.ok account, w1) => (.ok account.URL, w1)
  | none =>
    match GetAllAccountProfiles env w with
    | (.error err, w1) => (.error err, w1)
    | (.ok [], w1) => (.error (.new "no accounts found"), w1)
    | (.ok (account :: _), w1) => (.ok account.URL, w1)

/-- Embedding of `getInstrumentURL`. -/
def getInstrumentURL (lib : StdLib) (env : Env) (w : World) (symbol : String) :
    Except GoError String × World :=
  match GetInstrumentBySymbol lib env w symbol with
  | (.error err, w1) => (.error err, w1)
  | (.ok instrument, w1) => (.ok instrument.URL, w1)

/-- What lines 247-278 of `placeOrder` compute: the price, the rounded stop price,
the order type and the trigger. -/
structure OrderTerms where
  price : GoFloat
  stopPrice : Option GoFloat
  orderType : String
  trigger : String

/-- Lines 247-278 of `placeOrder`.  Without limit and stop price the latest price
is looked up, and this lookup is checked: a failure or an empty list is an error
(`%w` of a nil error prints as `%!w(<nil>)`). -/
def orderTerms (lib : StdLib) (env : Env) (w : World) (symbol side : String)
    (limitPrice stopPrice : Option GoFloat) (priceType : String) (extendedHours : Bool) :
    Except GoError OrderTerms × World :=
  match limitPrice, stopPrice with
  | some l, some s => (.ok ⟨RoundPrice lib l, some (RoundPrice lib s), "limit", "stop"⟩, w)
  | some l, none => (.ok ⟨RoundPrice lib l, none, "limit", "immediate"⟩, w)
  | none, some s =>
    (.ok ⟨if side = "buy" then RoundPrice lib s else GoFloat.zero, some (RoundPrice lib s),
      "market", "stop"⟩, w)
  | none, none =>
    match GetLatestPrice lib env w (some priceType) extendedHours [symbol] with
    | (.error err, w1) => (.error (.wrap "failed to get latest price" err), w1)
    | (.ok [], w1) => (.error (.new "failed to get latest price: %!w(<nil>)"), w1)
    | (.ok (p :: _), w1) =>
      (.ok ⟨RoundPrice lib (ParseFloat lib p), none, "market", "immediate"⟩, w1)

/-- Lines 293-330 of `placeOrder`: the payload literal and its adjustments for the
stop price and the market hours. -/
def orderFields (accountURL instrumentURL symbol : String) (price askPrice bidPrice : GoFloat)
    (timestamp : String) (quantity : GoFloat) (refID orderType timeInForce trigger side
    marketHours : String) (extendedHours : Bool) (stopPrice : Option GoFloat) :
    List (String × Body) :=
  let payload : List (String × Body) :=
    [("account", .val (.str accountURL)), ("instrument", .val (.str instrumentURL)),
      ("symbol", .val (.str symbol)), ("price", .float price),
      ("ask_price", .float askPrice), ("bid_price", .float bidPrice),
      ("bid_ask_timestamp", .val (.str timestamp)), ("quantity", .float quantity),
      ("ref_id", .val (.str refID)), ("type", .val (.str orderType)),
      ("time_in_force", .val (.str timeInForce)), ("trigger", .val (.str trigger)),
      ("side", .val (.str side)), ("market_hours", .val (.str marketHours)),
      ("extended_hours", .val (.bool extendedHours)), ("order_form_version", .val (.int 4))]
  let payload1 : List (String × Body) :=
    match stopPrice with
    | some s => setField payload "stop_price" (.float s)
    | none => payload
  let payload2 : List (String × Body) :=
    if orderType = "market" ∧ trigger ≠ "stop" then deleteField payload1 "stop_price"
    else payload1
  if marketHours = "regular_hours" then
    if side = "buy" then
      setField (setField payload2 "preset_percent_limit" (.val (.str "0.05"))) "type"
        (.val (.str "limit"))
    else if orderType = "market" ∧ side = "sell" then deleteField payload2 "price"
    else payload2
  else if marketHours = "extended_hours" ∨ marketHours = "all_day_hours" then
    setField (setField payload2 "type" (.val (.str "limit"))) "quantity"
      (.val (.int quantity.toInt))
  else payload2

/-- Lines 336-375 of `placeOrder`: the trailing-stop adjustments of the payload for
the last price `stockPrice`.  The constants are the `float64` values 0.01 and 1.05. -/
def trailingFields (lib : StdLib) (payload : List (String × Body)) (side trailType : String)
    (trailAmount stockPrice : GoFloat) : List (String × Body) :=
  let margin : GoFloat :=
    if trailType = "amount" then trailAmount
    else lib.mul (lib.mul stockPrice trailAmount) (.finite ⟨5764607523034235, -59⟩)
  let percentage : GoFloat := if trailType = "amount" then GoFloat.zero else trailAmount
  let calculatedStopPrice : GoFloat :=
    RoundPrice lib (if side = "buy" then lib.add stockPrice margin else lib.sub stockPrice margin)
  let payload1 := setField (setField (setField payload "stop_price" (.float calculatedStopPrice))
    "type" (.val (.str "market"))) "trigger" (.val (.str "stop"))
  let payload2 :=
    if side = "buy" then
      setField payload1 "price" (.float (RoundPrice lib
        (lib.mul calculatedStopPrice (.finite ⟨4728779608739021, -52⟩))))
    else payload1
  if trailType = "amount" then
    setField payload2 "trailing_peg" (.obj [("type", .val (.str "price")),
      ("price", .obj [("amount", .float trailAmount), ("currency_code", .val (.str "USD"))])])
  else
    setField payload2 "trailing_peg" (.obj [("type", .val (.str "percentage")),
      ("percentage", .val (.str (lib.formatFloat percentage)))])

/-- Lines 378-386 of `placeOrder`: the POST of the payload to the orders URL. -/
def submitOrder (env : Env) (w : World) (accountNumber : Option String)
    (payload : List (String × Body)) : Outcome (Except GoError (Option Obj)) × World :=
  match PostBody env w (OrdersURL none accountNumber none) (.obj payload) true with
  | (.error err, w1) => (.returned (.error err), w1)
  | (.ok resp, w1) => (.returned (.ok resp.Data), w1)

/-- Lines 332-386 of `placeOrder`: for a trailing stop the last price is looked up,
its error dropped and element 0 of the result read; then the payload is posted. -/
def finishOrder (lib : StdLib) (env : Env) (w : World) (symbol side : String)
    (accountNumber : Option String) (extendedHours : Bool) (trailAmount : Option GoFloat)
    (trailType : String) (payload : List (String × Body)) :
    Outcome (Except GoError (Option Obj)) × World :=
  match trailAmount with
  | some t =>
    match GetLatestPrice lib env w none extendedHours [symbol] with
    | (last, w1) =>
      match pricesOf last with
      | [] => (.panicked indexPanic, w1)
      | stockPrice :: _ =>
        submitOrder env w1 accountNumber
          (trailingFields lib payload side trailType t (RoundPrice lib (ParseFloat lib stockPrice)))
  | none => submitOrder env w accountNumber payload

/-- Embedding of `placeOrder`; `none` for a nil pointer.  The ask and bid lookups
before the payload drop their errors, and the payload literal reads element 0 of
both results. -/
def placeOrder (lib : StdLib) (env : Env) (w : World) (symbol : String) (quantity : GoFloat)
    (side : String) (limitPrice stopPrice : Option GoFloat) (accountNumber : Option String)
    (timeInForce : String) (extendedHours : Bool) (marketHours : String)
    (trailAmount : Option GoFloat) (trailType : String) :
    Outcome (Except GoError (Option Obj)) × World :=
  if !IsAuthenticated w then (.returned (.error ErrNotAuthenticated), w)
  else
    let symbol1 := lib.ToUpper (lib.TrimSpace symbol)
    let priceType : String := if side = "buy" then "ask_price" else "bid_price"
    match orderTerms lib env w symbol1 side limitPrice stopPrice priceType extendedHours with
    | (.error err, w1) => (.returned (.error err), w1)
    | (.ok terms, w1) =>
      match getAccountURL env w1 accountNumber with
      | (.error err, w2) => (.returned (.error err), w2)
      | (.ok accountURL, w2) =>
        match getInstrumentURL lib env w2 symbol1 with
        | (.error err, w3) => (.returned (.error err), w3)
        | (.ok instrumentURL, w3) =>
          match GetLatestPrice lib env w3 (some "ask_price") extendedHours [symbol1] with
          | (asks, w4) =>
            match GetLatestPrice lib env w4 (some "bid_price") extendedHours [symbol1] with
            | (bids, w5) =>
              match pricesOf asks, pricesOf bids with
              | [], _ => (.panicked indexPanic, w5)
              | _ :: _, [] => (.panicked indexPanic, w5)
              | askPrice :: _, bidPrice :: _ =>
                match NewUUID env with
                | .error e => (.panicked e.Error, w5)
                | .ok refID =>
                  finishOrder lib env w5 symbol1 side accountNumber extendedHours trailAmount
                    trailType
                    (orderFields accountURL instrumentURL symbol1 terms.price
                      (RoundPrice lib (ParseFloat lib askPrice))
                      (RoundPrice lib (ParseFloat lib bidPrice)) (lib.formatTime w5.now) quantity
                      refID terms.orderType timeInForce terms.trigger side marketHours
                      extendedHours terms.stopPrice)

/-- Embedding of `OrderBuyMarket`. -/
def OrderBuyMarket (lib : StdLib) (env : Env) (w : World) (symbol : String)
    (quantity : GoFloat) (accountNumber : Option String) (timeInForce : String)
    (extendedHours : Bool) : Outcome (Except GoError (Option Obj)) × World :=
  placeOrder lib env w symbol quantity "buy" none none accountNumber timeInForce extendedHours
    "regular_hours" none ""

/-- Embedding of `OrderBuyLimit`. -/
def OrderBuyLimit (lib : StdLib) (env : Env) (w : World) (symbol : String)
    (quantity limitPrice : GoFloat) (accountNumber : Option String) (timeInForce : String)
    (extendedHours : Bool) : Outcome (Except GoError (Option Obj)) × World :=
  placeOrder lib env w symbol quantity "buy" (some limitPrice) none accountNumber timeInForce
    extendedHours "regular_hours" none ""

/-- Embedding of `OrderTrailingStop`. -/
def OrderTrailingStop (lib : StdLib) (env : Env) (w : World) (symbol : String)
    (quantity : GoFloat) (side : String) (trailAmount : GoFloat) (trailType : String)
    (accountNumber : Option String) (timeInForce : String) (extendedHours : Bool) :
    Outcome (Except GoError (Option Obj)) × World :=
  placeOrder lib env w symbol quantity side none none accountNumber timeInForce extendedHours
    "regular_hours" (some trailAmount) trailType

/-! ## Sample inputs for the order functions -/

/-- Product of two sample floats: exact, without rounding. -/
def exactMul : GoFloat → GoFloat → GoFloat
  | .finite a, .finite b => .finite ⟨a.mant * b.mant, a.exp + b.exp⟩
  | _, _ => .nan

/-- Quotient of two sample floats that are integers, the first a multiple of the
second. -/
def exactDiv : GoFloat → GoFloat → GoFloat
  | .finite a, .finite b =>
    if a.exp = 0 ∧ b.exp = 0 ∧ b.mant ≠ 0 ∧ a.mant % b.mant = 0 then
      .finite ⟨a.mant / b.mant, 0⟩
    else .nan
  | _, _ => .nan

/-- Sum of two sample floats that are integers. -/
def exactAdd : GoFloat → GoFloat → GoFloat
  | .finite a, .finite b => if a.exp = 0 ∧ b.exp = 0 then .finite ⟨a.mant + b.mant, 0⟩ else .nan
  | _, _ => .nan

/-- Difference of two sample floats that are integers. -/
def exactSub : GoFloat → GoFloat → GoFloat
  | .finite a, .finite b => if a.exp = 0 ∧ b.exp = 0 then .finite ⟨a.mant - b.mant, 0⟩ else .nan
  | _, _ => .nan

/-- Whether a character is one of the ASCII characters that `strings.TrimSpace`
removes. -/
def isAsciiSpace (c : Char) : Bool :=
  c = ' ' || c = '\t' || c = '\n' || c = '\r' || c.toNat = 11 || c.toNat = 12

/-- The upper-case form of an ASCII letter; other characters are kept. -/
def asciiUpper (c : Char) : Char :=
  if 97 ≤ c.toNat ∧ c.toNat ≤ 122 then Char.ofNat (c.toNat - 32) else c

/-- A library instance on which the sample runs are evaluated.  It agrees with the
Go functions on the inputs of those runs only: symbols in ASCII, prices that are
decimal integers, and floats that are integers of small magnitude, for which
products, quotients, sums and rounding are exact.  The two formatting functions
print the number they are given; no statement depends on their result. -/
def sampleLib : StdLib :=
  { ToUpper := fun s => String.mk (s.data.map asciiUpper)
    TrimSpace := fun s =>
      String.mk ((s.data.dropWhile isAsciiSpace).reverse.dropWhile isAsciiSpace).reverse
    ParseFloat := fun s => (Atoi s).map (fun i => GoFloat.finite ⟨i, 0⟩)
    ofInt := fun i => .finite ⟨i, 0⟩
    Round := fun x => x
    mul := exactMul
    div := exactDiv
    add := exactAdd
    sub := exactSub
    formatFloat := fun x =>
      match x with
      | .finite f => toString f.mant
      | other => other.specialName
    formatTime := fun t => toString t }

/-- A transport for the order functions: the quotes endpoint returns one quote with
ask price 11 and bid price 10, the accounts endpoint one account, the instruments
endpoint one instrument, and every POST is answered with status 201 and an order id. -/
def orderHttp : Nat → Request → Reply :=
  fun _ req =>
    match req.method with
    | .POST => .response 201 (some [("id", .str "order-1")])
    | .GET =>
      if "https://api.robinhood.com/quotes/".data.isPrefixOf req.url.data then
        .response 200 (some [("results", .arr [.obj [("symbol", .str "AAPL"),
          ("ask_price", .str "11"), ("bid_price", .str "10"),
          ("last_trade_price", .str "10")]])])
      else if "https://api.robinhood.com/accounts/".data.isPrefixOf req.url.data then
        .response 200 (some [("results", .arr [.obj
          [("url", .str "https://api.robinhood.com/accounts/5QR123/")]])])
      else
        .response 200 (some [("results", .arr [.obj
          [("url", .str "https://api.robinhood.com/instruments/i-1/")]])])

/-- The transport `orderHttp` with a quotes endpoint that fails from the request
numbered `n` on. -/
def quoteOutageHttp (n : Nat) : Nat → Request → Reply :=
  fun k req =>
    if n ≤ k ∧ "https://api.robinhood.com/quotes/".data.isPrefixOf req.url.data = true then
      .failure (.new "connection reset")
    else orderHttp k req

/-- Three shares as a `float64`. -/
def threeShares : GoFloat := .finite ⟨3, 0⟩

/-- The world `w1` is reached from `w` without any POST: the client is unchanged and
no new action is a POST request. -/
def GetsOnly (w w1 : World) : Prop :=
  w1.auth = w.auth ∧ ∃ evs, w1.trace = w.trace ++ evs ∧ ∀ e ∈ evs, e.isPost = false

/-- The action is the POST of a market buy as `OrderBuyMarket` sends it: a POST to
the orders URL whose payload has side `buy`, type `limit` with the preset percent
limit `0.05`, trigger `immediate`, and no stop price. -/
def MarketBuyPost (accountNumber : Option String) (e : Event) : Prop :=
  ∃ time payload authorization reply,
    e = Event.request time
      ⟨.POST, OrdersURL none accountNumber none, some (.obj payload), authorization⟩ reply ∧
    Obj.get payload "side" = some (.str "buy") ∧
    Obj.get payload "type" = some (.str "limit") ∧
    Obj.get payload "preset_percent_limit" = some (.str "0.05") ∧
    Obj.get payload "trigger" = some (.str "immediate") ∧
    Obj.get payload "stop_price" = none

/-! ## client.go: doRequest with its marshalling step -/

/-- Embedding of `(*Client).doRequest` in full.  The body is given by what
`json.Marshal` makes of it: `none` for a nil body, the JSON value, or the error,
with which `doRequest` returns at once, before the request is created and before the
authentication check. -/
def doRequestWithMarshal (env : Env) (w : World) (method : Method) (urlStr : String)
    (marshalled : Option (Except GoError Value)) (authenticated : Bool) :
    Except GoError Response × World :=
  match marshalled with
  | some (.error e) => (.error (.wrap "marshal body" e), w)
  | some (.ok v) => doRequest env w method urlStr (some v) authenticated
  | none => doRequest env w method urlStr none authenticated

/-! # Theorems -/

/-! ## Basic facts about paths and the credential store -/

theorem dot_or_mk_ne_empty (out : List Char) :
    (if out = [] then "." else String.mk out) ≠ "" := by
  split
  · decide
  · rename_i h
    intro e
    exact h (congrArg String.data e)

theorem filepathClean_ne_empty (path : String) : filepathClean path ≠ "" :=
  dot_or_mk_ne_empty _

theorem filepathJoin_pair_ne_empty (a b : String) (h : a ≠ "") : filepathJoin [a, b] ≠ "" := by
  simp only [filepathJoin, h, if_false]
  exact filepathClean_ne_empty _

theorem getTokenFilePath_ne_empty (env : Env) (username : String) (h : env.HOME ≠ "") :
    getTokenFilePath env username ≠ "" := by
  simp only [getTokenFilePath, h, if_false]
  exact filepathJoin_pair_ne_empty _ _ (filepathJoin_pair_ne_empty _ _ h)

theorem NoFileWritten_refl (w : World) : NoFileWritten w w := fun _ _ h => h

theorem NoFileWritten_trans {w w1 w2 : World} (h1 : NoFileWritten w w1)
    (h2 : NoFileWritten w1 w2) : NoFileWritten w w2 :=
  fun p f h => h1 p f (h2 p f h)

theorem NoFileWritten_of_files_eq {w w1 : World} (h : w1.files = w.files) :
    NoFileWritten w w1 := by
  intro p f hf
  rw [← h]
  exact hf

theorem removeFile_frame (env : Env) (w : World) (filePath : String) :
    (removeFile env w filePath).auth = w.auth ∧ (removeFile env w filePath).trace = w.trace ∧
    (removeFile env w filePath).now = w.now ∧ (removeFile env w filePath).nreq = w.nreq ∧
    (removeFile env w filePath).nsleep = w.nsleep ∧
    NoFileWritten w (removeFile env w filePath) := by
  unfold removeFile
  split
  · refine ⟨rfl, rfl, rfl, rfl, rfl, ?_⟩
    intro p f hf
    simp only at hf
    split at hf
    · exact absurd hf (by simp)
    · exact hf
  · exact ⟨rfl, rfl, rfl, rfl, rfl, NoFileWritten_refl w⟩

/-- Loading touches neither the client, the clock nor the trace, and writes no file. -/
theorem tryLoadStoredToken_frame (env : Env) (w : World) (username : String) :
    (tryLoadStoredToken env w username).2.auth = w.auth ∧
    (tryLoadStoredToken env w username).2.trace = w.trace ∧
    (tryLoadStoredToken env w username).2.now = w.now ∧
    (tryLoadStoredToken env w username).2.nreq = w.nreq ∧
    (tryLoadStoredToken env w username).2.nsleep = w.nsleep ∧
    NoFileWritten w (tryLoadStoredToken env w username).2 := by
  have hw : w.auth = w.auth ∧ w.trace = w.trace ∧ w.now = w.now ∧ w.nreq = w.nreq ∧
      w.nsleep = w.nsleep ∧ NoFileWritten w w := ⟨rfl, rfl, rfl, rfl, rfl, NoFileWritten_refl w⟩
  unfold tryLoadStoredToken
  simp only
  split
  · exact hw
  · split
    · exact hw
    · split
      · exact hw
      · split
        · exact hw
        · split
          · exact removeFile_frame env w _
          · exact hw

/-- A load that finds a readable, decodable, non-expired file returns its token
and leaves the world as it is. -/
theorem tryLoadStoredToken_hit (env : Env) (w : World) (username : String) (token : Auth)
    (hHome : env.HOME ≠ "")
    (hFile : w.files (getTokenFilePath env username) = some { readable := true, data := .json token })
    (hFresh : token.IsExpired w.now = false) :
    tryLoadStoredToken env w username = (some token, w) := by
  unfold tryLoadStoredToken
  simp [getTokenFilePath_ne_empty env username hHome, hFile, hFresh]

/-! ## Effects of a request and of a sleep -/

theorem doRequest_frame (env : Env) (w : World) (m : Method) (url : String) (body : Option Value)
    (a : Bool) :
    (doRequest env w m url body a).2.files = w.files ∧
    (doRequest env w m url body a).2.auth = w.auth ∧
    w.now ≤ (doRequest env w m url body a).2.now ∧
    (doRequest env w m url body a).2.nsleep = w.nsleep := by
  unfold doRequest
  split
  · exact ⟨rfl, rfl, le_refl _, rfl⟩
  · split
    · exact ⟨rfl, rfl, le_refl _, rfl⟩
    · simp only
      split <;> rename_i h <;> simp only [roundTrip, Prod.mk.injEq] at h <;>
        rw [← h.2] <;> exact ⟨rfl, rfl, by simp, rfl⟩

theorem sleep_frame (env : Env) (w : World) (d : Int) :
    (sleep env w d).files = w.files ∧ (sleep env w d).auth = w.auth ∧
    (sleep env w d).now = w.now + d + (env.oversleep w.nsleep : Int) ∧
    (sleep env w d).trace = w.trace ++ [Event.sleep w.now d] :=
  ⟨rfl, rfl, rfl, rfl⟩

/-- An unauthenticated request either is rejected before it is sent (no action), or
is sent: the world is that of the round trip and the result follows the reply. -/
theorem doRequest_cases (env : Env) (w : World) (m : Method) (url : String)
    (body : Option Value) :
    ((∃ e, env.urlError url = some e) ∧ (doRequest env w m url body false).2 = w ∧
      ∃ e, (doRequest env w m url body false).1 = .error e) ∨
    (env.urlError url = none ∧
      (doRequest env w m url body false).2 = (roundTrip env w ⟨m, url, body, none⟩).2 ∧
      (doRequest env w m url body false).1 =
        match env.http w.nreq ⟨m, url, body, none⟩ with
        | .failure e => .error e
        | .response status data => .ok (parseResponse status data)) := by
  unfold doRequest
  split
  · rename_i e he
    exact Or.inl ⟨⟨e, he⟩, rfl, _, rfl⟩
  · rename_i he
    right
    refine ⟨he, ?_⟩
    simp only [Bool.false_and, Bool.false_eq_true, if_false]
    split <;> rename_i h <;> simp only [roundTrip, Prod.mk.injEq] at h <;>
      refine ⟨?_, ?_⟩
    · rw [← h.2]; rfl
    · rw [h.1]
    · rw [← h.2]; rfl
    · rw [h.1]

theorem doRequest_trace (env : Env) (w : World) (m : Method) (url : String)
    (body : Option Value) :
    (doRequest env w m url body false).2.trace = w.trace ∨
    (doRequest env w m url body false).2.trace = w.trace ++
        [Event.request w.now ⟨m, url, body, none⟩ (env.http w.nreq ⟨m, url, body, none⟩)] := by
  rcases doRequest_cases env w m url body with ⟨_, h, _⟩ | ⟨_, h, _⟩
  · exact Or.inl (by rw [h])
  · exact Or.inr (by rw [h]; rfl)

/-! ## The actions of the verification -/

theorem Reaches_refl (P : Event → Prop) (w : World) : Reaches P w w :=
  ⟨rfl, rfl, le_refl _, [], by simp, by simp⟩

theorem Reaches_trans {P : Event → Prop} {w w1 w2 : World} (h1 : Reaches P w w1)
    (h2 : Reaches P w1 w2) : Reaches P w w2 := by
  obtain ⟨f1, a1, n1, e1, t1, p1⟩ := h1
  obtain ⟨f2, a2, n2, e2, t2, p2⟩ := h2
  refine ⟨f2.trans f1, a2.trans a1, le_trans n1 n2, e1 ++ e2, ?_, ?_⟩
  · rw [t2, t1, List.append_assoc]
  · intro e he
    rcases List.mem_append.mp he with h | h
    · exact p1 e h
    · exact p2 e h

theorem Reaches_mono {P Q : Event → Prop} {w w1 : World} (h : Reaches P w w1)
    (hPQ : ∀ e, P e → Q e) : Reaches Q w w1 := by
  obtain ⟨f1, a1, n1, e1, t1, p1⟩ := h
  exact ⟨f1, a1, n1, e1, t1, fun e he => hPQ e (p1 e he)⟩

theorem sleep_reaches (P : Event → Prop) (env : Env) (w : World) (d : Int) (hd : 0 ≤ d)
    (hP : ∀ t, P (Event.sleep t d)) : Reaches P w (sleep env w d) := by
  refine ⟨rfl, rfl, ?_, [Event.sleep w.now d], rfl, ?_⟩
  · show w.now ≤ w.now + d + (env.oversleep w.nsleep : Int)
    have : (0 : Int) ≤ (env.oversleep w.nsleep : Int) := Int.ofNat_nonneg _
    omega
  · intro e he
    rw [List.mem_singleton] at he
    subst he
    exact hP _

theorem doRequest_reaches (P : Event → Prop) (env : Env) (w : World) (m : Method)
    (url : String) (body : Option Value)
    (hP : ∀ t reply, P (Event.request t ⟨m, url, body, none⟩ reply)) :
    Reaches P w (doRequest env w m url body false).2 := by
  obtain ⟨hf, ha, hn, _⟩ := doRequest_frame env w m url body false
  refine ⟨hf, ha, hn, ?_⟩
  rcases doRequest_trace env w m url body with ht | ht
  · exact ⟨[], by simpa using ht, by simp⟩
  · refine ⟨_, ht, ?_⟩
    intro e he
    rw [List.mem_singleton] at he
    subst he
    exact hP _ _

theorem Second_pos : (0 : Int) < Second := by decide

theorem inquiryLoop_reaches (statusURL : String) (env : Env) (inquiryURL : String)
    (deadline : Int) : ∀ (fuel : Nat) (w : World) (r : Option Obj) (w1 : World),
    inquiryLoop fuel env inquiryURL deadline w = some (r, w1) →
    Reaches (PollAction inquiryURL statusURL) w w1 := by
  intro fuel
  induction fuel with
  | zero => intro w r w1 h; simp [inquiryLoop] at h
  | succ n ih =>
    intro w r w1 h
    have hget : Reaches (PollAction inquiryURL statusURL) w (Get env w inquiryURL false).2 :=
      doRequest_reaches _ env w .GET inquiryURL none
        (fun _ _ => Or.inl ⟨rfl, Or.inl rfl⟩)
    have hsl : ∀ w2, Reaches (PollAction inquiryURL statusURL) w2 (sleep env w2 (4 * Second)) :=
      fun w2 => sleep_reaches _ env w2 _ (by decide) (fun _ => trivial)
    unfold inquiryLoop at h
    split at h
    · split at h
      · rename_i e w2 hg
        rw [hg] at hget
        exact Reaches_trans hget (Reaches_trans (hsl w2) (ih _ _ _ h))
      · rename_i resp w2 hg
        rw [hg] at hget
        split at h
        · simp only [Option.some.injEq, Prod.mk.injEq] at h
          rw [← h.2]
          exact hget
        · exact Reaches_trans hget (Reaches_trans (hsl w2) (ih _ _ _ h))
    · simp only [Option.some.injEq, Prod.mk.injEq] at h
      rw [← h.2]
      exact Reaches_refl _ _

theorem completeVerification_reaches (statusURL : String) (env : Env) (w : World)
    (inquiryURL : String) :
    Reaches (PollAction inquiryURL statusURL) w (completeVerification env w inquiryURL).2 := by
  have hp : Reaches (PollAction inquiryURL statusURL) w
      (Post env w inquiryURL continuePayload false).2 :=
    doRequest_reaches _ env w .POST inquiryURL (some continuePayload)
      (fun _ _ => Or.inr ⟨rfl, rfl, rfl⟩)
  unfold completeVerification
  split
  · rename_i e w1 hg
    rw [hg] at hp
    exact hp
  · rename_i resp w1 hg
    rw [hg] at hp
    split
    · exact hp
    · split
      · exact hp
      · split <;> exact hp

theorem challengeLoop_reaches (env : Env) (statusURL inquiryURL : String) (startTime : Int) :
    ∀ (fuel : Nat) (w : World) (r : Option GoError) (w1 : World),
    challengeLoop fuel env statusURL inquiryURL startTime w = some (r, w1) →
    Reaches (PollAction inquiryURL statusURL) w w1 := by
  intro fuel
  induction fuel with
  | zero => intro w r w1 h; simp [challengeLoop] at h
  | succ n ih =>
    intro w r w1 h
    have hget : Reaches (PollAction inquiryURL statusURL) w (Get env w statusURL false).2 :=
      doRequest_reaches _ env w .GET statusURL none
        (fun _ _ => Or.inl ⟨rfl, Or.inr rfl⟩)
    have hsl : ∀ w2 d, 0 ≤ d →
        Reaches (PollAction inquiryURL statusURL) w2 (sleep env w2 d) :=
      fun w2 d hd => sleep_reaches _ env w2 _ hd (fun _ => trivial)
    unfold challengeLoop at h
    split at h
    · split at h
      · rename_i e w2 hg
        rw [hg] at hget
        exact Reaches_trans hget (Reaches_trans (hsl w2 _ (by decide)) (ih _ _ _ h))
      · rename_i resp w2 hg
        rw [hg] at hget
        split at h
        · exact Reaches_trans hget (Reaches_trans (hsl w2 _ (by decide)) (ih _ _ _ h))
        · simp only at h
          split at h
          · simp only [Option.some.injEq] at h
            have hc := completeVerification_reaches statusURL env w2 inquiryURL
            rw [h] at hc
            exact Reaches_trans hget hc
          · split at h
            · exact Reaches_trans hget (Reaches_trans (hsl w2 _ (by decide)) (ih _ _ _ h))
            · simp only [Option.some.injEq, Prod.mk.injEq] at h
              rw [← h.2]
              exact hget
    · simp only [Option.some.injEq, Prod.mk.injEq] at h
      rw [← h.2]
      exact Reaches_refl _ _

theorem resolveChallenge_reaches (fuel : Nat) (env : Env) (w : World) (machineID : String)
    (inquiryData : Option Obj) (r : Option GoError) (w1 : World)
    (h : resolveChallenge fuel env w (SheriffInquiryURL machineID) inquiryData = some (r, w1)) :
    Reaches (VerificationAction machineID) w w1 := by
  have hrefl : ∀ (x : Option GoError), some (x, w) = some (r, w1) →
      Reaches (VerificationAction machineID) w w1 := by
    intro x hx
    simp only [Option.some.injEq, Prod.mk.injEq] at hx
    rw [← hx.2]
    exact Reaches_refl _ _
  unfold resolveChallenge at h
  split at h
  · exact hrefl _ h
  · split at h
    · exact hrefl _ h
    · split at h
      · exact hrefl _ h
      · simp only at h
        split at h
        · exact hrefl _ h
        · exact Reaches_mono (challengeLoop_reaches env _ _ _ fuel w r w1 h) (fun e he => ⟨_, he⟩)

/-- Shape of a run of the verification: files and client untouched, the clock not
set back, and the new actions are the start POST (absent only if the request could
not be created) followed by verification actions for one machine id. -/
theorem handleSheriffVerification_shape (fuel : Nat) (env : Env) (w : World)
    (deviceToken workflowID : String) (r : Option GoError) (w1 : World)
    (h : handleSheriffVerification fuel env w deviceToken workflowID = some (r, w1)) :
    w1.files = w.files ∧ w1.auth = w.auth ∧ w.now ≤ w1.now ∧
    ∃ start rest machineID, w1.trace = w.trace ++ start ++ rest ∧
      (start = [] ∨ ∃ t reply, start = [Event.request t (startPost deviceToken workflowID) reply]) ∧
      ∀ e ∈ rest, VerificationAction machineID e := by
  have hpost := doRequest_frame env w .POST PathfinderUserMachineURL
    (some (machinePayload deviceToken workflowID)) false
  have htr := doRequest_trace env w .POST PathfinderUserMachineURL
    (some (machinePayload deviceToken workflowID))
  have hstart : ∀ w2, (Post env w PathfinderUserMachineURL
      (machinePayload deviceToken workflowID) false).2 = w2 →
      w2.files = w.files ∧ w2.auth = w.auth ∧ w.now ≤ w2.now ∧
      ∃ start, w2.trace = w.trace ++ start ∧
        (start = [] ∨ ∃ t reply, start = [Event.request t (startPost deviceToken workflowID) reply]) := by
    intro w2 hw2
    unfold Post at hw2
    rw [hw2] at hpost htr
    refine ⟨hpost.1, hpost.2.1, hpost.2.2.1, ?_⟩
    rcases htr with ht | ht
    · exact ⟨[], by simpa using ht, Or.inl rfl⟩
    · exact ⟨_, ht, Or.inr ⟨_, _, rfl⟩⟩
  have hdone : ∀ (x : Option GoError) w2, (Post env w PathfinderUserMachineURL
      (machinePayload deviceToken workflowID) false).2 = w2 → some (x, w2) = some (r, w1) →
      w1.files = w.files ∧ w1.auth = w.auth ∧ w.now ≤ w1.now ∧
      ∃ start rest machineID, w1.trace = w.trace ++ start ++ rest ∧
        (start = [] ∨ ∃ t reply, start = [Event.request t (startPost deviceToken workflowID) reply]) ∧
        ∀ e ∈ rest, VerificationAction machineID e := by
    intro x w2 hw2 hx
    simp only [Option.some.injEq, Prod.mk.injEq] at hx
    obtain ⟨hf, ha, hn, start, ht, hs⟩ := hstart w2 hw2
    rw [← hx.2]
    exact ⟨hf, ha, hn, start, [], "", by simpa using ht, hs, by simp⟩
  unfold handleSheriffVerification at h
  split at h
  · rename_i e w2 hg
    exact hdone _ w2 (by rw [hg]) h
  · rename_i resp w2 hg
    have hw2 : (Post env w PathfinderUserMachineURL
        (machinePayload deviceToken workflowID) false).2 = w2 := by rw [hg]
    split at h
    · exact hdone _ w2 hw2 h
    · rename_i data hdata
      simp only at h
      split at h
      · exact hdone _ w2 hw2 h
      · split at h
        · exact absurd h (by simp)
        · rename_i inquiryData w3 hloop
          obtain ⟨hf, ha, hn, start, ht, hs⟩ := hstart w2 hw2
          have h1 : Reaches (VerificationAction (GetString data "id")) w2 w3 :=
            Reaches_mono (inquiryLoop_reaches (SheriffChallengeStatusURL "") env _ _ fuel w2
              inquiryData w3 hloop) (fun e he => ⟨"", he⟩)
          have h2 := resolveChallenge_reaches fuel env w3 _ inquiryData r w1 h
          obtain ⟨f3, a3, n3, evs, t3, p3⟩ := Reaches_trans h1 h2
          refine ⟨f3.trans hf, a3.trans ha, le_trans hn n3, start, evs, _, ?_, hs, p3⟩
          rw [t3, ht]

/-! ## Termination of the polling loops -/

theorem sleep_after_get_now (env : Env) (w : World) (url : String) (d : Int) :
    w.now + d ≤ (sleep env (Get env w url false).2 d).now := by
  have h1 := (doRequest_frame env w .GET url none false).2.2.1
  have h2 : (0 : Int) ≤ (env.oversleep (Get env w url false).2.nsleep : Int) := Int.ofNat_nonneg _
  show w.now + d ≤ (Get env w url false).2.now + d + _
  unfold Get
  unfold Get at h2
  omega

/-- The inquiry wait ends within `fuel + 1` iterations when at most `4 * fuel`
seconds remain, because every iteration that does not end the loop sleeps 4 seconds. -/
theorem inquiryLoop_total (env : Env) (inquiryURL : String) (deadline : Int) :
    ∀ (fuel : Nat) (w : World), deadline - w.now ≤ 4 * Second * (fuel : Int) →
    ∃ r, inquiryLoop (fuel + 1) env inquiryURL deadline w = some r := by
  intro fuel
  induction fuel with
  | zero =>
    intro w h
    have : ¬ w.now < deadline := by simp at h; omega
    exact ⟨(none, w), by simp [inquiryLoop, this]⟩
  | succ n ih =>
    intro w h
    have hstep : deadline - (sleep env (Get env w inquiryURL false).2 (4 * Second)).now
        ≤ 4 * Second * (n : Int) := by
      have := sleep_after_get_now env w inquiryURL (4 * Second)
      push_cast at h
      have hs : (0 : Int) < Second := by decide
      nlinarith
    unfold inquiryLoop
    split
    · split
      · rename_i e w2 hg
        have : w2 = (Get env w inquiryURL false).2 := by rw [hg]
        rw [this]
        exact ih _ hstep
      · rename_i resp w2 hg
        have : w2 = (Get env w inquiryURL false).2 := by rw [hg]
        split
        · exact ⟨_, rfl⟩
        · rw [this]
          exact ih _ hstep
    · exact ⟨_, rfl⟩

/-- The challenge loop ends within `fuel + 1` iterations when at most `5 * fuel`
seconds of the two minutes remain, because every iteration that does not end the
loop sleeps at least 5 seconds. -/
theorem challengeLoop_total (env : Env) (statusURL inquiryURL : String) (startTime : Int) :
    ∀ (fuel : Nat) (w : World),
    2 * (60 * Second) - (w.now - startTime) ≤ 5 * Second * (fuel : Int) →
    ∃ r, challengeLoop (fuel + 1) env statusURL inquiryURL startTime w = some r := by
  intro fuel
  induction fuel with
  | zero =>
    intro w h
    have : ¬ w.now - startTime < 2 * (60 * Second) := by simp at h; omega
    exact ⟨(some (.new "sheriff verification timeout"), w), by simp [challengeLoop, this]⟩
  | succ n ih =>
    intro w h
    have hs : (0 : Int) < Second := by decide
    have hstep5 : 2 * (60 * Second) -
        ((sleep env (Get env w statusURL false).2 (5 * Second)).now - startTime)
        ≤ 5 * Second * (n : Int) := by
      have := sleep_after_get_now env w statusURL (5 * Second)
      push_cast at h
      nlinarith
    have hstep15 : 2 * (60 * Second) -
        ((sleep env (Get env w statusURL false).2 (15 * Second)).now - startTime)
        ≤ 5 * Second * (n : Int) := by
      have := sleep_after_get_now env w statusURL (15 * Second)
      push_cast at h
      nlinarith
    unfold challengeLoop
    split
    · split
      · rename_i e w2 hg
        have : w2 = (Get env w statusURL false).2 := by rw [hg]
        rw [this]
        exact ih _ hstep5
      · rename_i resp w2 hg
        have : w2 = (Get env w statusURL false).2 := by rw [hg]
        split
        · rw [this]
          exact ih _ hstep5
        · simp only
          split
          · exact ⟨_, rfl⟩
          · split
            · rw [this]
              exact ih _ hstep15
            · exact ⟨_, rfl⟩
    · exact ⟨_, rfl⟩

theorem resolveChallenge_total (fuel : Nat) (hfuel : 25 ≤ fuel) (env : Env) (w : World)
    (inquiryURL : String) (inquiryData : Option Obj) :
    ∃ r, resolveChallenge fuel env w inquiryURL inquiryData = some r := by
  obtain ⟨n, rfl⟩ : ∃ n, fuel = n + 1 := ⟨fuel - 1, by omega⟩
  unfold resolveChallenge
  split
  · exact ⟨_, rfl⟩
  · split
    · exact ⟨_, rfl⟩
    · split
      · exact ⟨_, rfl⟩
      · simp only
        split
        · exact ⟨_, rfl⟩
        · apply challengeLoop_total
          have hs : (0 : Int) < Second := by decide
          have hn : (24 : Int) ≤ (n : Int) := by omega
          nlinarith

/-- With an iteration budget of 25 or more, `handleSheriffVerification` returns:
the budget is never the reason a run ends. -/
theorem handleSheriffVerification_total (fuel : Nat) (hfuel : 25 ≤ fuel) (env : Env) (w : World)
    (deviceToken workflowID : String) :
    ∃ r, handleSheriffVerification fuel env w deviceToken workflowID = some r := by
  unfold handleSheriffVerification
  split
  · exact ⟨_, rfl⟩
  · split
    · exact ⟨_, rfl⟩
    · simp only
      split
      · exact ⟨_, rfl⟩
      · rename_i resp w1 _ _ data _ hid
        obtain ⟨n, hn⟩ : ∃ n, fuel = n + 1 := ⟨fuel - 1, by omega⟩
        have hloop := inquiryLoop_total env (SheriffInquiryURL (GetString data "id"))
          (w1.now + 20 * Second) n w1 (by
            have hs : (0 : Int) < Second := by decide
            have hn : (24 : Int) ≤ (n : Int) := by omega
            nlinarith)
        obtain ⟨⟨d, w2⟩, hr⟩ := hloop
        rw [← hn] at hr
        rw [hr]
        exact resolveChallenge_total fuel hfuel env w2 _ d

/-! ## Login: the two halves -/

theorem Post_of_reply (env : Env) (w : World) (url : String) (body : Value)
    (hUrl : env.urlError url = none) :
    Post env w url body false =
      ((match env.http w.nreq ⟨.POST, url, some body, none⟩ with
        | .failure e => .error e
        | .response status data => .ok (parseResponse status data)),
        (roundTrip env w ⟨.POST, url, some body, none⟩).2) := by
  unfold Post
  rcases doRequest_cases env w .POST url (some body) with ⟨⟨e, he⟩, _⟩ | ⟨_, h2, h1⟩
  · rw [hUrl] at he
    exact absurd he (by simp)
  · exact Prod.ext h1 h2

theorem loginRequest_fresh (fuel : Nat) (env : Env) (w : World)
    (username password mfaCode deviceToken : String)
    (hFresh : (tryLoadStoredToken env w username).1 = none)
    (hDev : generateDeviceToken env = .ok deviceToken) :
    loginRequest fuel env w username password mfaCode =
      match Post env (tryLoadStoredToken env w username).2 LoginURL
          (loginPayload username password mfaCode deviceToken) false with
      | (.error err, w1) => some (.returned (.error err) w1)
      | (.ok resp, w1) =>
        if workflowIDOf resp ≠ "" then
          match handleSheriffVerification fuel env w1 deviceToken (workflowIDOf resp) with
          | none => none
          | some (some err, w2) =>
            some (.returned (.error (.wrap "sheriff verification failed" err)) w2)
          | some (none, w2) =>
            match Post env w2 LoginURL
                (loginPayload username password mfaCode deviceToken) false with
            | (.error err, w3) =>
              some (.returned (.error (.wrap "login after verification failed" err)) w3)
            | (.ok resp2, w3) => some (.classify deviceToken resp2 w3)
        else some (.classify deviceToken resp w1) := by
  unfold loginRequest
  rcases h : tryLoadStoredToken env w username with ⟨t, w0⟩
  rw [h] at hFresh
  simp only at hFresh
  subst hFresh
  simp only [hDev]

theorem saveToken_frame (env : Env) (w : World) (username : String) (token : Auth) :
    (saveToken env w username token).2.trace = w.trace ∧
    (saveToken env w username token).2.now = w.now ∧
    (saveToken env w username token).2.nreq = w.nreq ∧
    (saveToken env w username token).2.auth = w.auth := by
  unfold saveToken
  simp only
  split
  · exact ⟨rfl, rfl, rfl, rfl⟩
  · split <;> exact ⟨rfl, rfl, rfl, rfl⟩

/-- The second half of `Login` sends nothing and does not touch the clock. -/
theorem loginClassify_frame (env : Env) (w : World) (username deviceToken : String)
    (resp : Response) :
    (loginClassify env w username deviceToken resp).2.trace = w.trace ∧
    (loginClassify env w username deviceToken resp).2.now = w.now ∧
    (loginClassify env w username deviceToken resp).2.nreq = w.nreq := by
  unfold loginClassify
  split
  · exact ⟨rfl, rfl, rfl⟩
  · split
    · exact ⟨rfl, rfl, rfl⟩
    · split
      · split <;> exact ⟨rfl, rfl, rfl⟩
      · simp only
        split
        · exact ⟨rfl, rfl, rfl⟩
        · split <;> rename_i hs <;>
            have hf := saveToken_frame env (SetAuth w (some
              { AccessToken := GetStringD resp.Data "access_token"
                RefreshToken := GetStringD resp.Data "refresh_token"
                TokenType := GetStringD resp.Data "token_type"
                DeviceToken := deviceToken
                ExpiresIn := GetIntD resp.Data "expires_in"
                IssuedAt := 0 })) username
              { AccessToken := GetStringD resp.Data "access_token"
                RefreshToken := GetStringD resp.Data "refresh_token"
                TokenType := GetStringD resp.Data "token_type"
                DeviceToken := deviceToken
                ExpiresIn := GetIntD resp.Data "expires_in"
                IssuedAt := 0 } <;>
            rw [hs] at hf <;> exact ⟨hf.1, hf.2.1, hf.2.2.1⟩

theorem GetString_eq_asString (data : Obj) (key : String) :
    (asString (data.get key)).getD "" = GetString data key := by
  unfold GetString asString
  split <;> simp_all

theorem Post_ok_inv (env : Env) (w : World) (url : String) (body : Value) (resp : Response)
    (w1 : World) (h : Post env w url body false = (.ok resp, w1)) :
    env.urlError url = none ∧
    env.http w.nreq ⟨.POST, url, some body, none⟩ = .response resp.StatusCode resp.Data ∧
    w1 = (roundTrip env w ⟨.POST, url, some body, none⟩).2 := by
  unfold Post at h
  rcases doRequest_cases env w .POST url (some body) with ⟨_, _, e, he⟩ | ⟨hu, h2, h1⟩
  · rw [h] at he
    exact absurd he (by simp)
  · rw [h] at h1 h2
    simp only at h1 h2
    refine ⟨hu, ?_, h2⟩
    split at h1
    · exact absurd h1 (by simp)
    · rename_i status data hr
      simp only [Except.ok.injEq] at h1
      rw [hr, h1]
      rfl

theorem Post_frame (env : Env) (w : World) (url : String) (body : Value) :
    (Post env w url body false).2.files = w.files ∧
    (Post env w url body false).2.auth = w.auth ∧
    w.now ≤ (Post env w url body false).2.now :=
  let h := doRequest_frame env w .POST url (some body) false
  ⟨h.1, h.2.1, h.2.2.1⟩

/-- What holds whenever the first half of `Login` hands a response to the second:
no stored token was used, the device token was generated, the client and the files
are untouched, and the response is the reply to the last action, a login POST. -/
theorem loginRequest_classify (fuel : Nat) (env : Env) (w : World)
    (username password mfaCode deviceToken : String) (resp : Response) (w1 : World)
    (h : loginRequest fuel env w username password mfaCode = some (.classify deviceToken resp w1)) :
    (tryLoadStoredToken env w username).1 = none ∧
    generateDeviceToken env = .ok deviceToken ∧
    w1.auth = w.auth ∧ NoFileWritten w w1 ∧
    ∃ pre t, w1.trace = w.trace ++ pre ++
      [Event.request t (loginPost username password mfaCode deviceToken)
        (.response resp.StatusCode resp.Data)] := by
  have hfr := tryLoadStoredToken_frame env w username
  rcases hl : tryLoadStoredToken env w username with ⟨tok, w0⟩
  rw [hl] at hfr
  simp only at hfr
  obtain ⟨ha0, ht0, _, _, _, hn0⟩ := hfr
  cases tok with
  | some token =>
    unfold loginRequest at h
    rw [hl] at h
    simp at h
  | none =>
    cases hd : generateDeviceToken env with
    | error e =>
      unfold loginRequest at h
      rw [hl] at h
      simp [hd] at h
    | ok d =>
      rw [loginRequest_fresh fuel env w username password mfaCode d (by rw [hl]) hd, hl] at h
      simp only at h
      split at h
      · simp at h
      · rename_i resp1 w2 hp1
        obtain ⟨_, hr1, hw2⟩ := Post_ok_inv env w0 _ _ resp1 w2 hp1
        have hf1 := Post_frame env w0 LoginURL (loginPayload username password mfaCode d)
        rw [hp1] at hf1
        simp only at hf1
        split at h
        · split at h
          · simp at h
          · simp at h
          · rename_i w3 hv
            obtain ⟨hvf, hva, _, start, rest, mid, hvt, _, _⟩ :=
              handleSheriffVerification_shape fuel env w2 d _ none w3 hv
            split at h
            · simp at h
            · rename_i resp2 w4 hp2
              simp only [Option.some.injEq, LoginStage.classify.injEq] at h
              obtain ⟨hdd, hrr, hww⟩ := h
              subst hdd hrr hww
              obtain ⟨_, hr2, hw4⟩ := Post_ok_inv env w3 _ _ resp2 w4 hp2
              have hf2 := Post_frame env w3 LoginURL (loginPayload username password mfaCode d)
              rw [hp2] at hf2
              simp only at hf2
              refine ⟨rfl, rfl, ?_, ?_, ?_⟩
              · rw [hf2.2.1, hva, hf1.2.1, ha0]
              · exact NoFileWritten_trans hn0 (NoFileWritten_of_files_eq
                  (by rw [hf2.1, hvf, hf1.1]))
              · refine ⟨[Event.request w0.now (loginPost username password mfaCode d)
                  (env.http w0.nreq (loginPost username password mfaCode d))] ++ start ++ rest,
                  w3.now, ?_⟩
                rw [hw4]
                show w3.trace ++ [_] = _
                rw [hvt, hw2]
                show (w0.trace ++ [_]) ++ start ++ rest ++ [_] = _
                rw [ht0]
                unfold loginPost
                rw [hr2]
                simp only [List.append_assoc]
        · simp only [Option.some.injEq, LoginStage.classify.injEq] at h
          obtain ⟨hdd, hrr, hww⟩ := h
          subst hdd hrr hww
          refine ⟨rfl, rfl, ?_, ?_, ?_⟩
          · rw [hf1.2.1, ha0]
          · exact NoFileWritten_trans hn0 (NoFileWritten_of_files_eq hf1.1)
          · refine ⟨[], w0.now, ?_⟩
            rw [hw2]
            show w0.trace ++ [_] = _
            rw [ht0]
            unfold loginPost
            rw [hr1]
            simp

theorem asBool_ne_true {v : Option Value} (h : v ≠ some (.bool true)) :
    asBool v ≠ some true := by
  unfold asBool
  split
  · rename_i b
    intro hb
    simp only [Option.some.injEq] at hb
    subst hb
    exact h rfl
  · simp

theorem asObj_eq_none {v : Option Value} (h : ∀ m, v ≠ some (.obj m)) : asObj v = none := by
  unfold asObj
  split
  · rename_i m
    exact absurd rfl (h m)
  · rfl

theorem asString_eq_none {v : Option Value} (h : ∀ s, v ≠ some (.str s)) :
    asString v = none := by
  unfold asString
  split
  · rename_i s
    exact absurd rfl (h s)
  · rfl

theorem GetStringD_eq_empty {data : Option Obj} {key : String}
    (h : ∀ s, dataGet data key = some (.str s) → s = "") : GetStringD data key = "" := by
  unfold GetStringD
  split
  · rename_i s hs
    exact h s hs
  · rfl

theorem loginClassify_mfa (env : Env) (w : World) (username deviceToken : String)
    (resp : Response) (h : dataGet resp.Data "mfa_required" = some (.bool true)) :
    loginClassify env w username deviceToken resp =
      (.error (.new "MFA required but not provided"), w) := by
  unfold loginClassify
  simp [h, asBool]

theorem loginClassify_challenge (env : Env) (w : World) (username deviceToken : String)
    (resp : Response) (challenge : Obj)
    (hMfa : dataGet resp.Data "mfa_required" ≠ some (.bool true))
    (h : dataGet resp.Data "challenge" = some (.obj challenge)) :
    loginClassify env w username deviceToken resp =
      (.error (.new ("challenge required: " ++ GetString challenge "id")), w) := by
  unfold loginClassify
  rw [if_neg (asBool_ne_true hMfa), h]
  simp only [asObj]
  rw [GetString_eq_asString]

theorem loginClassify_status (env : Env) (w : World) (username deviceToken : String)
    (resp : Response)
    (hMfa : dataGet resp.Data "mfa_required" ≠ some (.bool true))
    (hCh : ∀ m, dataGet resp.Data "challenge" ≠ some (.obj m))
    (hStatus : 400 ≤ resp.StatusCode) :
    loginClassify env w username deviceToken resp =
      match asString (dataGet resp.Data "detail") with
      | some detail => (.error (.new ("login failed: " ++ detail)), w)
      | none => (.error (.new ("login failed: status " ++ toString resp.StatusCode)), w) := by
  unfold loginClassify
  rw [if_neg (asBool_ne_true hMfa), asObj_eq_none hCh]
  simp only
  rw [if_pos (by exact hStatus)]

/-- The second half of `Login` on a response that passes the three checks. -/
theorem loginClassify_tokens (env : Env) (w : World) (username deviceToken : String)
    (resp : Response)
    (hMfa : dataGet resp.Data "mfa_required" ≠ some (.bool true))
    (hCh : ∀ m, dataGet resp.Data "challenge" ≠ some (.obj m))
    (hStatus : resp.StatusCode < 400) :
    loginClassify env w username deviceToken resp =
      let auth : Auth :=
        { AccessToken := GetStringD resp.Data "access_token"
          RefreshToken := GetStringD resp.Data "refresh_token"
          TokenType := GetStringD resp.Data "token_type"
          DeviceToken := deviceToken
          ExpiresIn := GetIntD resp.Data "expires_in"
          IssuedAt := 0 }
      if auth.AccessToken = "" then (.error (.new "no access token in response"), w)
      else
        match saveToken env (SetAuth w (some auth)) username auth with
        | ((some err, auth1), w2) =>
          (.error (.wrap "failed to save token" err), SetAuth w2 (some auth1))
        | ((none, auth1), w2) => (.ok auth1, SetAuth w2 (some auth1)) := by
  unfold loginClassify
  rw [if_neg (asBool_ne_true hMfa), asObj_eq_none hCh]
  simp only
  rw [if_neg (by omega)]

/-- The token `saveToken` leaves behind differs from the one passed at most in
`IssuedAt`. -/
theorem saveToken_token (env : Env) (w : World) (username : String) (token : Auth) :
    (saveToken env w username token).1.2.AccessToken = token.AccessToken ∧
    (saveToken env w username token).1.2.RefreshToken = token.RefreshToken ∧
    (saveToken env w username token).1.2.TokenType = token.TokenType ∧
    (saveToken env w username token).1.2.DeviceToken = token.DeviceToken ∧
    (saveToken env w username token).1.2.ExpiresIn = token.ExpiresIn := by
  unfold saveToken
  simp only
  split
  · exact ⟨rfl, rfl, rfl, rfl, rfl⟩
  · split <;> split <;> exact ⟨rfl, rfl, rfl, rfl, rfl⟩

/-- C3: every token-endpoint response that `Login` classifies (the first response
when it has no verification workflow with a non-empty id, otherwise the response of
the retried POST) is handled in this priority order.  (1) `mfa_required` is the
boolean `true`: the MFA-required error.  (2) Otherwise a `challenge` object is
present: the challenge-required error carrying the challenge's string `id`.
(3) Otherwise the status is at least 400: an error carrying the `detail` string, or
(4) the status code when `detail` is not a string.  (5) Otherwise the tokens are
extracted: `Login` returns a credential made of the response's fields, or fails only
for a missing access token or a failed save.  Clause (1) has no condition on the
status, so a 4xx response with `mfa_required = true` yields the MFA error. -/
theorem Login_classification_priority (fuel : Nat) (env : Env) (w : World)
    (username password mfaCode deviceToken : String) (resp : Response) (w1 : World)
    (hReq : loginRequest fuel env w username password mfaCode =
      some (.classify deviceToken resp w1)) :
    (dataGet resp.Data "mfa_required" = some (.bool true) →
      Login fuel env w username password mfaCode =
        some (.error (.new "MFA required but not provided"), w1)) ∧
    (dataGet resp.Data "mfa_required" ≠ some (.bool true) →
      ∀ challenge, dataGet resp.Data "challenge" = some (.obj challenge) →
      Login fuel env w username password mfaCode =
        some (.error (.new ("challenge required: " ++ GetString challenge "id")), w1)) ∧
    (dataGet resp.Data "mfa_required" ≠ some (.bool true) →
      (∀ m, dataGet resp.Data "challenge" ≠ some (.obj m)) → 400 ≤ resp.StatusCode →
      ∀ detail, dataGet resp.Data "detail" = some (.str detail) →
      Login fuel env w username password mfaCode =
        some (.error (.new ("login failed: " ++ detail)), w1)) ∧
    (dataGet resp.Data "mfa_required" ≠ some (.bool true) →
      (∀ m, dataGet resp.Data "challenge" ≠ some (.obj m)) → 400 ≤ resp.StatusCode →
      (∀ s, dataGet resp.Data "detail" ≠ some (.str s)) →
      Login fuel env w username password mfaCode =
        some (.error (.new ("login failed: status " ++ toString resp.StatusCode)), w1)) ∧
    (dataGet resp.Data "mfa_required" ≠ some (.bool true) →
      (∀ m, dataGet resp.Data "challenge" ≠ some (.obj m)) → resp.StatusCode < 400 →
      ∃ result w2, Login fuel env w username password mfaCode = some (result, w2) ∧
        (∀ a, result = .ok a →
          a.AccessToken = GetStringD resp.Data "access_token" ∧
          a.RefreshToken = GetStringD resp.Data "refresh_token" ∧
          a.TokenType = GetStringD resp.Data "token_type" ∧
          a.ExpiresIn = GetIntD resp.Data "expires_in") ∧
        (∀ e, result = .error e →
          e = .new "no access token in response" ∨
          ∃ inner, e = .wrap "failed to save token" inner)) := by
  have hL : Login fuel env w username password mfaCode =
      some (loginClassify env w1 username deviceToken resp) := by
    unfold Login
    rw [hReq]
  rw [hL]
  refine ⟨?_, ?_, ?_, ?_, ?_⟩
  · intro h
    rw [loginClassify_mfa _ _ _ _ _ h]
  · intro hMfa challenge h
    rw [loginClassify_challenge _ _ _ _ _ _ hMfa h]
  · intro hMfa hCh hStatus detail hd
    rw [loginClassify_status _ _ _ _ _ hMfa hCh hStatus, hd]
    rfl
  · intro hMfa hCh hStatus hd
    rw [loginClassify_status _ _ _ _ _ hMfa hCh hStatus, asString_eq_none hd]
  · intro hMfa hCh hStatus
    rw [loginClassify_tokens _ _ _ _ _ hMfa hCh hStatus]
    simp only
    split
    · exact ⟨_, _, rfl, by simp, by simp⟩
    · have hs := saveToken_token env (SetAuth w1 (some
          { AccessToken := GetStringD resp.Data "access_token"
            RefreshToken := GetStringD resp.Data "refresh_token"
            TokenType := GetStringD resp.Data "token_type"
            DeviceToken := deviceToken
            ExpiresIn := GetIntD resp.Data "expires_in"
            IssuedAt := 0 })) username
          { AccessToken := GetStringD resp.Data "access_token"
            RefreshToken := GetStringD resp.Data "refresh_token"
            TokenType := GetStringD resp.Data "token_type"
            DeviceToken := deviceToken
            ExpiresIn := GetIntD resp.Data "expires_in"
            IssuedAt := 0 }
      split <;> rename_i hsv <;> rw [hsv] at hs <;> simp only at hs
      · exact ⟨_, _, rfl, by simp, by simp⟩
      · refine ⟨_, _, rfl, ?_, by simp⟩
        intro a ha
        simp only [Except.ok.injEq] at ha
        subst ha
        exact ⟨hs.1, hs.2.1, hs.2.2.1, hs.2.2.2.2⟩

/-- C7: when the final token response passes the MFA, challenge and status checks
but its `access_token` is missing, not a string, or the empty string, `Login` fails
with the no-access-token error; the client's credential is the one it had before the
call and no file has been created or overwritten. -/
theorem Login_rejects_empty_access_token (fuel : Nat) (env : Env) (w : World)
    (username password mfaCode deviceToken : String) (resp : Response) (w1 : World)
    (hReq : loginRequest fuel env w username password mfaCode =
      some (.classify deviceToken resp w1))
    (hMfa : dataGet resp.Data "mfa_required" ≠ some (.bool true))
    (hCh : ∀ m, dataGet resp.Data "challenge" ≠ some (.obj m))
    (hStatus : resp.StatusCode < 400)
    (hTok : ∀ s, dataGet resp.Data "access_token" = some (.str s) → s = "") :
    Login fuel env w username password mfaCode =
      some (.error (.new "no access token in response"), w1) ∧
    w1.auth = w.auth ∧ NoFileWritten w w1 := by
  obtain ⟨_, _, ha, hn, _⟩ := loginRequest_classify fuel env w username password mfaCode
    deviceToken resp w1 hReq
  refine ⟨?_, ha, hn⟩
  unfold Login
  rw [hReq]
  simp only
  rw [loginClassify_tokens _ _ _ _ _ hMfa hCh hStatus]
  simp only
  rw [if_pos (GetStringD_eq_empty hTok)]

/-- C5: when the credential store holds a readable, decodable, non-expired
credential for the identity, `Login` returns exactly that credential and installs
it on the client, and nothing else happens: no request, no sleep, no file change,
the clock untouched.  This holds for every password and MFA code, and in every
environment, also one whose random source and network fail, so neither is used. -/
theorem Login_returns_stored_credential (fuel : Nat) (env : Env) (w : World)
    (username password mfaCode : String) (token : Auth)
    (hHome : env.HOME ≠ "")
    (hFile : w.files (getTokenFilePath env username) =
      some { readable := true, data := .json token })
    (hFresh : token.IsExpired w.now = false) :
    ∃ w1, Login fuel env w username password mfaCode = some (.ok token, w1) ∧
      w1.auth = some token ∧ w1.trace = w.trace ∧ w1.nreq = w.nreq ∧
      w1.nsleep = w.nsleep ∧ w1.files = w.files ∧ w1.now = w.now := by
  refine ⟨SetAuth w (some token), ?_, rfl, rfl, rfl, rfl, rfl, rfl⟩
  unfold Login loginRequest
  rw [tryLoadStoredToken_hit env w username token hHome hFile hFresh]

theorem Login_returns_stored_credential_witness :
    ∃ w1, Login 0 offlineEnv storedWorld "alice" "secret" "123456" = some (.ok storedToken, w1) ∧
      w1.auth = some storedToken ∧ w1.trace = storedWorld.trace ∧
      w1.nreq = storedWorld.nreq ∧ w1.nsleep = storedWorld.nsleep ∧
      w1.files = storedWorld.files ∧ w1.now = storedWorld.now :=
  Login_returns_stored_credential 0 offlineEnv storedWorld "alice" "secret" "123456" storedToken
    (by decide) (by decide) (by decide)

theorem Login_classification_priority_witness :
    Login 0 (sampleEnv mfaHttp) emptyWorld "alice" "secret" "" =
      some (.error (.new "MFA required but not provided"), afterFirstPost mfaHttp "secret") :=
  (Login_classification_priority 0 (sampleEnv mfaHttp) emptyWorld "alice" "secret" ""
    sampleDeviceToken (parseResponse 403
      (some [("mfa_required", .bool true), ("detail", .str "denied")]))
    (afterFirstPost mfaHttp "secret") rfl).1 rfl

theorem Login_rejects_empty_access_token_witness :
    Login 0 (sampleEnv emptyTokenHttp) emptyWorld "alice" "secret" "" =
      some (.error (.new "no access token in response"), afterFirstPost emptyTokenHttp "secret") ∧
    (afterFirstPost emptyTokenHttp "secret").auth = emptyWorld.auth ∧
    NoFileWritten emptyWorld (afterFirstPost emptyTokenHttp "secret") :=
  Login_rejects_empty_access_token 0 (sampleEnv emptyTokenHttp) emptyWorld "alice" "secret" ""
    sampleDeviceToken (parseResponse 200
      (some [("access_token", .str ""), ("token_type", .str "Bearer")]))
    (afterFirstPost emptyTokenHttp "secret") rfl
    (by intro h; cases h) (by intro m h; cases h) (by decide)
    (by intro s h; cases h; rfl)

theorem workflowIDOf_parseResponse_eq_empty (status : Int) (data : Option Obj)
    (h : ∀ vw, dataGet data "verification_workflow" = some (.obj vw) → GetString vw "id" = "") :
    workflowIDOf (parseResponse status data) = "" := by
  unfold workflowIDOf
  show (match asObj (dataGet data "verification_workflow") with
    | none => ""
    | some verificationWorkflow => GetString verificationWorkflow "id") = ""
  unfold asObj
  split
  · rfl
  · rename_i vw hvw
    split at hvw
    · rename_i kvs hk
      simp only [Option.some.injEq] at hvw
      subst hvw
      exact h _ hk
    · exact absurd hvw (by simp)

/-- C4 (amended): when the login response has `mfa_required = true` and carries no
`verification_workflow` object with a non-empty string id, `Login` fails at once with
the MFA-required error and the login POST is the only action of the run: no
verification-start POST, no inquiry or challenge-status GET, no sleep. -/
theorem Login_mfa_without_workflow (fuel : Nat) (env : Env) (w : World)
    (username password mfaCode deviceToken : String) (status : Int) (data : Option Obj)
    (hFresh : (tryLoadStoredToken env w username).1 = none)
    (hDev : generateDeviceToken env = .ok deviceToken)
    (hUrl : env.urlError LoginURL = none)
    (hReply : env.http w.nreq (loginPost username password mfaCode deviceToken) =
      .response status data)
    (hNoWf : ∀ vw, dataGet data "verification_workflow" = some (.obj vw) →
      GetString vw "id" = "")
    (hMfa : dataGet data "mfa_required" = some (.bool true)) :
    ∃ w1, Login fuel env w username password mfaCode =
        some (.error (.new "MFA required but not provided"), w1) ∧
      w1.trace = w.trace ++
        [Event.request w.now (loginPost username password mfaCode deviceToken)
          (.response status data)] := by
  obtain ⟨_, ht0, hn0, hq0, _, _⟩ := tryLoadStoredToken_frame env w username
  have hReply0 : env.http (tryLoadStoredToken env w username).2.nreq
      ⟨.POST, LoginURL, some (loginPayload username password mfaCode deviceToken), none⟩ =
      .response status data := by
    rw [hq0]
    exact hReply
  refine ⟨(roundTrip env (tryLoadStoredToken env w username).2
    (loginPost username password mfaCode deviceToken)).2, ?_, ?_⟩
  · unfold Login
    rw [loginRequest_fresh fuel env w username password mfaCode deviceToken hFresh hDev,
      Post_of_reply env _ LoginURL _ hUrl, hReply0]
    simp only
    rw [if_neg (by
      rw [workflowIDOf_parseResponse_eq_empty status data hNoWf]
      simp)]
    simp only
    rw [loginClassify_mfa _ _ _ _ _ (by exact hMfa)]
    rfl
  · show (tryLoadStoredToken env w username).2.trace ++ [_] = _
    rw [ht0, hn0, hq0, hReply]

theorem Login_mfa_without_workflow_witness :
    ∃ w1, Login 0 (sampleEnv mfaHttp) emptyWorld "alice" "secret" "" =
        some (.error (.new "MFA required but not provided"), w1) ∧
      w1.trace = emptyWorld.trace ++
        [Event.request emptyWorld.now (loginPost "alice" "secret" "" sampleDeviceToken)
          (.response 403 (some [("mfa_required", .bool true), ("detail", .str "denied")]))] :=
  Login_mfa_without_workflow 0 (sampleEnv mfaHttp) emptyWorld "alice" "secret" ""
    sampleDeviceToken 403 (some [("mfa_required", .bool true), ("detail", .str "denied")])
    rfl rfl rfl rfl (by intro vw h; cases h) rfl

/-- C4 (as stated) fails: the first login response of `workflowAndMfaHttp` has
`mfa_required = true` together with a verification workflow; `Login` does not fail
with the MFA-required error but with the verification's error, and its second action
is the verification-start POST. -/
theorem Login_mfa_with_workflow_runs_verification :
    dataGet (some [("verification_workflow", .obj [("id", .str "wf-1")]),
      ("mfa_required", .bool true)]) "mfa_required" = some (.bool true) ∧
    workflowAndMfaHttp 0 (loginPost "alice" "secret" "" sampleDeviceToken) =
      .response 403 (some [("verification_workflow", .obj [("id", .str "wf-1")]),
        ("mfa_required", .bool true)]) ∧
    (Login 25 (sampleEnv workflowAndMfaHttp) emptyWorld "alice" "secret" "").map
        (fun r => (r.1, r.2.trace.map (Event.isRequestTo .POST PathfinderUserMachineURL))) =
      some (.error (.wrap "sheriff verification failed"
        (.wrap "failed to start sheriff verification" (.new "connection reset"))),
        [false, true]) :=
  ⟨rfl, rfl, rfl⟩

/-- C1 (code defect): with `$HOME` unset and a token endpoint that answers 200 with
a full set of tokens, `Login` returns the error of the failed save, yet the client,
which had no credential, now holds the new one: `SetAuth` runs before `saveToken`. -/
theorem Login_failed_save_leaves_credential_installed :
    emptyWorld.auth = none ∧
    (Login 0 homelessEnv emptyWorld "alice" "secret" "").map (fun r => (r.1, r.2.auth)) =
      some (.error (.wrap "failed to save token" (.new "could not determine home directory")),
        some { AccessToken := "acc-1"
               RefreshToken := "ref-1"
               TokenType := "Bearer"
               DeviceToken := sampleDeviceToken
               ExpiresIn := 86400
               IssuedAt := 0 }) :=
  ⟨rfl, rfl⟩

/-- C6 (as stated) fails: against a token endpoint that answers `expires_in = -1`
a fresh `Login` succeeds, but loading the identity from the credential store right
afterwards yields nothing, the stored credential being expired already. -/
theorem Login_negative_expiry_not_loadable :
    ∃ a w1, Login 0 (sampleEnv negativeExpiryHttp) emptyWorld "alice" "secret" "" =
        some (.ok a, w1) ∧
      (tryLoadStoredToken (sampleEnv negativeExpiryHttp) w1 "alice").1 = none :=
  ⟨_, _, rfl, rfl⟩

theorem saveToken_ok_inv (env : Env) (w : World) (username : String) (token a : Auth)
    (w2 : World) (h : saveToken env w username token = ((none, a), w2)) :
    getTokenFilePath env username ≠ "" ∧
    a = (if token.IssuedAt = 0 then { token with IssuedAt := w.now } else token) ∧
    w2.files (getTokenFilePath env username) = some { readable := true, data := .json a } ∧
    w2.now = w.now ∧ w2.trace = w.trace := by
  unfold saveToken at h
  simp only at h
  split at h
  · simp at h
  · rename_i hp
    split at h
    · simp only [Prod.mk.injEq, true_and] at h
      obtain ⟨ha, hw⟩ := h
      subst hw
      refine ⟨hp, ha.symm, ?_, rfl, rfl⟩
      simp [ha]
    · simp at h
    · simp at h

theorem loginRequest_fresh_returned (fuel : Nat) (env : Env) (w : World)
    (username password mfaCode : String) (result : Except GoError Auth) (w1 : World)
    (hFresh : (tryLoadStoredToken env w username).1 = none)
    (h : loginRequest fuel env w username password mfaCode = some (.returned result w1)) :
    ∃ e, result = .error e := by
  cases hd : generateDeviceToken env with
  | error e =>
    unfold loginRequest at h
    rcases hl : tryLoadStoredToken env w username with ⟨tok, w0⟩
    rw [hl] at hFresh h
    simp only at hFresh
    subst hFresh
    simp only [hd, Option.some.injEq, LoginStage.returned.injEq] at h
    exact ⟨_, h.1.symm⟩
  | ok d =>
    rw [loginRequest_fresh fuel env w username password mfaCode d hFresh hd] at h
    split at h
    · simp only [Option.some.injEq, LoginStage.returned.injEq] at h
      exact ⟨_, h.1.symm⟩
    · split at h
      · split at h
        · simp at h
        · simp only [Option.some.injEq, LoginStage.returned.injEq] at h
          exact ⟨_, h.1.symm⟩
        · split at h
          · simp only [Option.some.injEq, LoginStage.returned.injEq] at h
            exact ⟨_, h.1.symm⟩
          · simp at h
      · simp at h

/-- C6 (amended): when a fresh `Login` succeeds, the last action of the run is a
login POST whose payload carries the credential's device token, the token generated
for this attempt; the credential has the access token, refresh token, token type and
expires-in of the response to that POST; its issuance timestamp is the current time;
it is the client's active credential; and the identity's file holds it.  Loading the
identity at that moment yields it exactly when it is not already expired then (a
negative expires-in makes it expired at once). -/
theorem Login_fresh_success (fuel : Nat) (env : Env) (w : World)
    (username password mfaCode : String) (a : Auth) (w1 : World)
    (hFresh : (tryLoadStoredToken env w username).1 = none)
    (hOk : Login fuel env w username password mfaCode = some (.ok a, w1)) :
    ∃ pre t status data,
      w1.trace = w.trace ++ pre ++
        [Event.request t (loginPost username password mfaCode a.DeviceToken)
          (.response status data)] ∧
      generateDeviceToken env = .ok a.DeviceToken ∧
      a.AccessToken = GetStringD data "access_token" ∧
      a.RefreshToken = GetStringD data "refresh_token" ∧
      a.TokenType = GetStringD data "token_type" ∧
      a.ExpiresIn = GetIntD data "expires_in" ∧
      a.IssuedAt = w1.now ∧
      w1.auth = some a ∧
      w1.files (getTokenFilePath env username) = some { readable := true, data := .json a } ∧
      ((tryLoadStoredToken env w1 username).1 = some a ↔ a.IsExpired w1.now = false) := by
  unfold Login at hOk
  split at hOk
  · simp at hOk
  · rename_i result w2 hreq
    simp only [Option.some.injEq, Prod.mk.injEq] at hOk
    obtain ⟨e, he⟩ := loginRequest_fresh_returned fuel env w username password mfaCode
      result w2 hFresh hreq
    rw [he] at hOk
    exact absurd hOk.1 (by simp)
  · rename_i d resp w2 hreq
    simp only [Option.some.injEq] at hOk
    obtain ⟨_, hdev, _, _, pre, t, htr⟩ :=
      loginRequest_classify fuel env w username password mfaCode d resp w2 hreq
    unfold loginClassify at hOk
    split at hOk
    · simp at hOk
    · split at hOk
      · simp at hOk
      · split at hOk
        · split at hOk <;> simp at hOk
        · simp only at hOk
          split at hOk
          · simp at hOk
          · split at hOk
            · simp at hOk
            · rename_i a1 w3 hsave
              simp only [Prod.mk.injEq, Except.ok.injEq] at hOk
              obtain ⟨ha1, hw1⟩ := hOk
              subst ha1
              obtain ⟨hp, hval, hfile, hnow, htrace⟩ := saveToken_ok_inv env _ username _ a1 w3 hsave
              simp only [if_true] at hval
              have hfile1 : w1.files (getTokenFilePath env username) =
                  some { readable := true, data := .json a1 } := by
                rw [← hw1]
                exact hfile
              have hnow1 : w1.now = w2.now := by
                rw [← hw1]
                exact hnow
              refine ⟨pre, t, resp.StatusCode, resp.Data, ?_, ?_, ?_, ?_, ?_, ?_, ?_, ?_, hfile1, ?_⟩
              · rw [← hw1]
                show w3.trace = _
                rw [htrace]
                show w2.trace = _
                rw [htr, hval]
              · rw [hdev, hval]
              · rw [hval]
              · rw [hval]
              · rw [hval]
              · rw [hval]
              · rw [hnow1, hval]
                rfl
              · rw [← hw1]
                rfl
              · unfold tryLoadStoredToken
                simp only [hp, if_false, hfile1]
                cases hx : a1.IsExpired w1.now <;> simp

theorem Login_fresh_success_witness :
    ∃ pre t status data,
      freshWorld.trace = emptyWorld.trace ++ pre ++
        [Event.request t (loginPost "alice" "secret" "" freshToken.DeviceToken)
          (.response status data)] ∧
      generateDeviceToken (sampleEnv tokenHttp) = .ok freshToken.DeviceToken ∧
      freshToken.AccessToken = GetStringD data "access_token" ∧
      freshToken.RefreshToken = GetStringD data "refresh_token" ∧
      freshToken.TokenType = GetStringD data "token_type" ∧
      freshToken.ExpiresIn = GetIntD data "expires_in" ∧
      freshToken.IssuedAt = freshWorld.now ∧
      freshWorld.auth = some freshToken ∧
      freshWorld.files (getTokenFilePath (sampleEnv tokenHttp) "alice") =
        some { readable := true, data := .json freshToken } ∧
      ((tryLoadStoredToken (sampleEnv tokenHttp) freshWorld "alice").1 = some freshToken ↔
        freshToken.IsExpired freshWorld.now = false) :=
  Login_fresh_success 0 (sampleEnv tokenHttp) emptyWorld "alice" "secret" "" freshToken
    freshWorld rfl rfl

/-! ## The URLs of the verification are not the token endpoint -/

theorem ne_of_data_get_ne (s t : String) (i : Nat) (h : s.data[i]? ≠ t.data[i]?) : s ≠ t := by
  intro e
  exact h (by rw [e])

theorem SheriffInquiryURL_ne_status (machineID challengeID : String) :
    SheriffInquiryURL machineID ≠ SheriffChallengeStatusURL challengeID := by
  apply ne_of_data_get_ne _ _ 27
  simp only [SheriffInquiryURL, SheriffChallengeStatusURL, String.data_append, List.append_assoc]
  rw [List.getElem?_append_left (by decide), List.getElem?_append_left (by decide)]
  decide

theorem SheriffInquiryURL_ne_LoginURL (machineID : String) :
    SheriffInquiryURL machineID ≠ LoginURL := by
  apply ne_of_data_get_ne _ _ 26
  simp only [SheriffInquiryURL, String.data_append, List.append_assoc]
  rw [List.getElem?_append_left (by decide)]
  decide

theorem SheriffInquiryURL_ne_start (machineID : String) :
    SheriffInquiryURL machineID ≠ PathfinderUserMachineURL := by
  apply ne_of_data_get_ne _ _ 37
  simp only [SheriffInquiryURL, String.data_append, List.append_assoc]
  rw [List.getElem?_append_left (by decide)]
  decide

theorem VerificationAction_not_post_elsewhere (machineID url : String)
    (hurl : SheriffInquiryURL machineID ≠ url) (e : Event)
    (h : VerificationAction machineID e) : e.isRequestTo .POST url = false := by
  obtain ⟨cid, hp⟩ := h
  cases e with
  | sleep t d => rfl
  | request t req reply =>
    simp only [Event.isRequestTo, decide_eq_false_iff_not, not_and]
    intro hm hu
    rcases hp with ⟨hg, _⟩ | ⟨_, hi, _⟩
    · rw [hm] at hg
      exact absurd hg (by decide)
    · exact hurl (hi.symm.trans hu)

theorem countP_eq_zero_of_false {p : Event → Bool} {l : List Event}
    (h : ∀ e ∈ l, p e = false) : l.countP p = 0 := by
  rw [List.countP_eq_zero]
  intro e he
  rw [h e he]
  simp

/-- A run of the verification sends no login POST and at most one start POST. -/
theorem handleSheriffVerification_counts (fuel : Nat) (env : Env) (w : World)
    (deviceToken workflowID : String) (r : Option GoError) (w1 : World)
    (h : handleSheriffVerification fuel env w deviceToken workflowID = some (r, w1)) :
    w1.trace.countP (Event.isRequestTo .POST LoginURL) =
      w.trace.countP (Event.isRequestTo .POST LoginURL) ∧
    w1.trace.countP (Event.isRequestTo .POST PathfinderUserMachineURL) ≤
      w.trace.countP (Event.isRequestTo .POST PathfinderUserMachineURL) + 1 := by
  obtain ⟨_, _, _, start, rest, mid, ht, hs, hr⟩ :=
    handleSheriffVerification_shape fuel env w deviceToken workflowID r w1 h
  have hrest1 : rest.countP (Event.isRequestTo .POST LoginURL) = 0 :=
    countP_eq_zero_of_false (fun e he =>
      VerificationAction_not_post_elsewhere mid _ (SheriffInquiryURL_ne_LoginURL mid) e (hr e he))
  have hrest2 : rest.countP (Event.isRequestTo .POST PathfinderUserMachineURL) = 0 :=
    countP_eq_zero_of_false (fun e he =>
      VerificationAction_not_post_elsewhere mid _ (SheriffInquiryURL_ne_start mid) e (hr e he))
  rw [ht, List.countP_append, List.countP_append, List.countP_append, List.countP_append,
    hrest1, hrest2]
  rcases hs with hs | ⟨t, reply, hs⟩
  · subst hs
    simp
  · subst hs
    have h1 : (Event.request t (startPost deviceToken workflowID) reply).isRequestTo
        .POST LoginURL = false := by
      simp only [Event.isRequestTo, startPost, decide_eq_false_iff_not, not_and]
      intro _
      decide
    have h2 : (Event.request t (startPost deviceToken workflowID) reply).isRequestTo
        .POST PathfinderUserMachineURL = true := by
      simp [Event.isRequestTo, startPost]
    simp [List.countP_cons, h1, h2]

theorem loginPost_isRequestTo (t : Int) (username password mfaCode deviceToken : String)
    (reply : Reply) :
    (Event.request t (loginPost username password mfaCode deviceToken) reply).isRequestTo
      .POST LoginURL = true ∧
    (Event.request t (loginPost username password mfaCode deviceToken) reply).isRequestTo
      .POST PathfinderUserMachineURL = false := by
  constructor
  · simp [Event.isRequestTo, loginPost]
  · simp only [Event.isRequestTo, loginPost, decide_eq_false_iff_not, not_and]
    intro _
    decide

theorem workflowIDOf_parseResponse (status : Int) (data : Option Obj) (vw : Obj)
    (h : dataGet data "verification_workflow" = some (.obj vw)) :
    workflowIDOf (parseResponse status data) = GetString vw "id" := by
  unfold workflowIDOf
  show (match asObj (dataGet data "verification_workflow") with
    | none => ""
    | some verificationWorkflow => GetString verificationWorkflow "id") = _
  rw [h]
  rfl

/-- The first half of a fresh login whose first response carries a workflow id. -/
theorem loginRequest_with_workflow (fuel : Nat) (env : Env) (w : World)
    (username password mfaCode deviceToken : String) (status : Int) (data : Option Obj)
    (vw : Obj)
    (hFresh : (tryLoadStoredToken env w username).1 = none)
    (hDev : generateDeviceToken env = .ok deviceToken)
    (hUrl : env.urlError LoginURL = none)
    (hReply : env.http w.nreq (loginPost username password mfaCode deviceToken) =
      .response status data)
    (hWf : dataGet data "verification_workflow" = some (.obj vw))
    (hId : GetString vw "id" ≠ "") :
    loginRequest fuel env w username password mfaCode =
      match handleSheriffVerification fuel env
          (afterLoginPost env w username password mfaCode deviceToken) deviceToken
          (GetString vw "id") with
      | none => none
      | some (some err, w2) =>
        some (.returned (.error (.wrap "sheriff verification failed" err)) w2)
      | some (none, w2) =>
        match env.http w2.nreq (loginPost username password mfaCode deviceToken) with
        | .failure err =>
          some (.returned (.error (.wrap "login after verification failed" err))
            (roundTrip env w2 (loginPost username password mfaCode deviceToken)).2)
        | .response status2 data2 =>
          some (.classify deviceToken (parseResponse status2 data2)
            (roundTrip env w2 (loginPost username password mfaCode deviceToken)).2) := by
  obtain ⟨_, _, _, hq0, _, _⟩ := tryLoadStoredToken_frame env w username
  have hReply0 : env.http (tryLoadStoredToken env w username).2.nreq
      ⟨.POST, LoginURL, some (loginPayload username password mfaCode deviceToken), none⟩ =
      .response status data := by
    rw [hq0]
    exact hReply
  rw [loginRequest_fresh fuel env w username password mfaCode deviceToken hFresh hDev,
    Post_of_reply env _ LoginURL _ hUrl, hReply0]
  simp only
  rw [if_pos (by rw [workflowIDOf_parseResponse status data vw hWf]; exact hId),
    workflowIDOf_parseResponse status data vw hWf]
  show (match handleSheriffVerification fuel env
      (afterLoginPost env w username password mfaCode deviceToken) deviceToken
      (GetString vw "id") with
    | none => none
    | some (some err, w2) =>
      some (LoginStage.returned (.error (.wrap "sheriff verification failed" err)) w2)
    | some (none, w2) =>
      match Post env w2 LoginURL (loginPayload username password mfaCode deviceToken) false with
      | (.error err, w3) =>
        some (LoginStage.returned (.error (.wrap "login after verification failed" err)) w3)
      | (.ok resp2, w3) => some (LoginStage.classify deviceToken resp2 w3)) = _
  split
  · rfl
  · rfl
  · rename_i w2 _
    rw [Post_of_reply env w2 LoginURL _ hUrl]
    unfold loginPost
    cases env.http w2.nreq ⟨.POST, LoginURL,
      some (loginPayload username password mfaCode deviceToken), none⟩ <;> rfl

theorem afterLoginPost_frame (env : Env) (w : World)
    (username password mfaCode deviceToken : String) :
    (afterLoginPost env w username password mfaCode deviceToken).trace = w.trace ++
      [Event.request w.now (loginPost username password mfaCode deviceToken)
        (env.http w.nreq (loginPost username password mfaCode deviceToken))] ∧
    (afterLoginPost env w username password mfaCode deviceToken).auth = w.auth ∧
    NoFileWritten w (afterLoginPost env w username password mfaCode deviceToken) := by
  obtain ⟨ha0, ht0, hn0, hq0, _, hf0⟩ := tryLoadStoredToken_frame env w username
  refine ⟨?_, ha0, hf0⟩
  show (tryLoadStoredToken env w username).2.trace ++ [_] = _
  rw [ht0, hn0, hq0]

/-- What `Login` does when the verification it runs ends with an error. -/
theorem Login_of_failed_verification (fuel : Nat) (env : Env) (w : World)
    (username password mfaCode deviceToken : String) (status : Int) (data : Option Obj)
    (vw : Obj) (verr : GoError) (w2 : World)
    (hFresh : (tryLoadStoredToken env w username).1 = none)
    (hDev : generateDeviceToken env = .ok deviceToken)
    (hUrl : env.urlError LoginURL = none)
    (hReply : env.http w.nreq (loginPost username password mfaCode deviceToken) =
      .response status data)
    (hWf : dataGet data "verification_workflow" = some (.obj vw))
    (hId : GetString vw "id" ≠ "")
    (hVer : handleSheriffVerification fuel env
      (afterLoginPost env w username password mfaCode deviceToken) deviceToken
      (GetString vw "id") = some (some verr, w2)) :
    Login fuel env w username password mfaCode =
      some (.error (.wrap "sheriff verification failed" verr), w2) ∧
    w2.trace.countP (Event.isRequestTo .POST LoginURL) =
      w.trace.countP (Event.isRequestTo .POST LoginURL) + 1 ∧
    w2.trace.countP (Event.isRequestTo .POST PathfinderUserMachineURL) ≤
      w.trace.countP (Event.isRequestTo .POST PathfinderUserMachineURL) + 1 ∧
    w2.auth = w.auth ∧ NoFileWritten w w2 := by
  obtain ⟨ht1, ha1, hf1⟩ := afterLoginPost_frame env w username password mfaCode deviceToken
  obtain ⟨hvf, hva, _, _⟩ := handleSheriffVerification_shape fuel env _ _ _ _ _ hVer
  obtain ⟨hc1, hc2⟩ := handleSheriffVerification_counts fuel env _ _ _ _ _ hVer
  obtain ⟨hl1, hl2⟩ := loginPost_isRequestTo w.now username password mfaCode deviceToken
    (env.http w.nreq (loginPost username password mfaCode deviceToken))
  refine ⟨?_, ?_, ?_, hva.trans ha1, NoFileWritten_trans hf1 (NoFileWritten_of_files_eq hvf)⟩
  · unfold Login
    rw [loginRequest_with_workflow fuel env w username password mfaCode deviceToken status
      data vw hFresh hDev hUrl hReply hWf hId, hVer]
  · rw [hc1, ht1, List.countP_append]
    simp [List.countP_cons, hl1]
  · rw [ht1, List.countP_append] at hc2
    simp only [List.countP_cons, List.countP_nil, hl2] at hc2
    simpa using hc2

/-- C8: when the first login response carries a verification workflow with a
non-empty id and the verification ends with an error (failure or timeout), `Login`
returns an error that wraps it and stops there: over the whole run exactly one login
POST and at most one verification-start POST have been issued, the client's
credential is the one it had before the call, and no file has been created or
overwritten. -/
theorem Login_verification_failure (fuel : Nat) (env : Env) (w : World)
    (username password mfaCode deviceToken : String) (status : Int) (data : Option Obj)
    (vw : Obj) (verr : GoError) (w2 : World)
    (hFresh : (tryLoadStoredToken env w username).1 = none)
    (hDev : generateDeviceToken env = .ok deviceToken)
    (hUrl : env.urlError LoginURL = none)
    (hReply : env.http w.nreq (loginPost username password mfaCode deviceToken) =
      .response status data)
    (hWf : dataGet data "verification_workflow" = some (.obj vw))
    (hId : GetString vw "id" ≠ "")
    (hVer : handleSheriffVerification fuel env
      (afterLoginPost env w username password mfaCode deviceToken) deviceToken
      (GetString vw "id") = some (some verr, w2)) :
    Login fuel env w username password mfaCode =
      some (.error (.wrap "sheriff verification failed" verr), w2) ∧
    w2.trace.countP (Event.isRequestTo .POST LoginURL) =
      w.trace.countP (Event.isRequestTo .POST LoginURL) + 1 ∧
    w2.trace.countP (Event.isRequestTo .POST PathfinderUserMachineURL) ≤
      w.trace.countP (Event.isRequestTo .POST PathfinderUserMachineURL) + 1 ∧
    w2.auth = w.auth ∧ NoFileWritten w w2 :=
  Login_of_failed_verification fuel env w username password mfaCode deviceToken status data vw
    verr w2 hFresh hDev hUrl hReply hWf hId hVer

theorem Login_verification_failure_witness :
    Login 25 (sampleEnv deniedHttp) emptyWorld "alice" "secret" "" =
      some (.error (.wrap "sheriff verification failed"
        (.new "unexpected challenge status: denied")), verificationEnd deniedHttp) ∧
    (verificationEnd deniedHttp).trace.countP (Event.isRequestTo .POST LoginURL) =
      emptyWorld.trace.countP (Event.isRequestTo .POST LoginURL) + 1 ∧
    (verificationEnd deniedHttp).trace.countP (Event.isRequestTo .POST PathfinderUserMachineURL) ≤
      emptyWorld.trace.countP (Event.isRequestTo .POST PathfinderUserMachineURL) + 1 ∧
    (verificationEnd deniedHttp).auth = emptyWorld.auth ∧
    NoFileWritten emptyWorld (verificationEnd deniedHttp) :=
  Login_verification_failure 25 (sampleEnv deniedHttp) emptyWorld "alice" "secret" ""
    sampleDeviceToken 403 (some [("verification_workflow", .obj [("id", .str "wf-1")])])
    [("id", .str "wf-1")] (.new "unexpected challenge status: denied")
    (verificationEnd deniedHttp) rfl rfl rfl rfl rfl (by decide) rfl

/-- C2: when the first token-endpoint response, whatever its status code, carries a
`verification_workflow` object with a non-empty string id, `Login` runs the identity
verification with the generated device token and that id.  If the verification
fails, `Login` fails with the wrapped error.  If it succeeds, `Login` sends the same
login request (same payload, same device token) once more and nothing else, so that
the run holds exactly two login POSTs, and its result is what the second half of
`Login` makes of the reply to that second POST alone: the wrapped transport error, or
the classification of the second response. -/
theorem Login_retries_after_verification (fuel : Nat) (hfuel : 25 ≤ fuel) (env : Env)
    (w : World) (username password mfaCode deviceToken : String) (status : Int)
    (data : Option Obj) (vw : Obj)
    (hFresh : (tryLoadStoredToken env w username).1 = none)
    (hDev : generateDeviceToken env = .ok deviceToken)
    (hUrl : env.urlError LoginURL = none)
    (hReply : env.http w.nreq (loginPost username password mfaCode deviceToken) =
      .response status data)
    (hWf : dataGet data "verification_workflow" = some (.obj vw))
    (hId : GetString vw "id" ≠ "") :
    ∃ verr w2, handleSheriffVerification fuel env
        (afterLoginPost env w username password mfaCode deviceToken) deviceToken
        (GetString vw "id") = some (verr, w2) ∧
      (∀ e, verr = some e →
        Login fuel env w username password mfaCode =
          some (.error (.wrap "sheriff verification failed" e), w2)) ∧
      (verr = none →
        ∃ result w3, Login fuel env w username password mfaCode = some (result, w3) ∧
          w3.trace = w2.trace ++
            [Event.request w2.now (loginPost username password mfaCode deviceToken)
              (env.http w2.nreq (loginPost username password mfaCode deviceToken))] ∧
          w3.trace.countP (Event.isRequestTo .POST LoginURL) =
            w.trace.countP (Event.isRequestTo .POST LoginURL) + 2 ∧
          match env.http w2.nreq (loginPost username password mfaCode deviceToken) with
          | .failure err =>
            result = .error (.wrap "login after verification failed" err)
          | .response status2 data2 =>
            (result, w3) = loginClassify env
              (roundTrip env w2 (loginPost username password mfaCode deviceToken)).2
              username deviceToken (parseResponse status2 data2)) := by
  obtain ⟨⟨verr, w2⟩, hVer⟩ := handleSheriffVerification_total fuel hfuel env
    (afterLoginPost env w username password mfaCode deviceToken) deviceToken (GetString vw "id")
  have hreq := loginRequest_with_workflow fuel env w username password mfaCode deviceToken
    status data vw hFresh hDev hUrl hReply hWf hId
  rw [hVer] at hreq
  refine ⟨verr, w2, hVer, ?_, ?_⟩
  · intro e he
    subst he
    unfold Login
    rw [hreq]
  · intro hnone
    subst hnone
    simp only at hreq
    obtain ⟨ht1, _, _⟩ := afterLoginPost_frame env w username password mfaCode deviceToken
    obtain ⟨hc1, _⟩ := handleSheriffVerification_counts fuel env _ _ _ _ _ hVer
    have hcount : ∀ reply : Reply, (w2.trace ++
        [Event.request w2.now (loginPost username password mfaCode deviceToken) reply]).countP
        (Event.isRequestTo .POST LoginURL) =
        w.trace.countP (Event.isRequestTo .POST LoginURL) + 2 := by
      intro reply
      rw [List.countP_append, hc1, ht1, List.countP_append]
      simp [List.countP_cons, (loginPost_isRequestTo _ username password mfaCode deviceToken _).1]
    cases hrep : env.http w2.nreq (loginPost username password mfaCode deviceToken) with
    | failure err =>
      rw [hrep] at hreq
      refine ⟨.error (.wrap "login after verification failed" err),
        (roundTrip env w2 (loginPost username password mfaCode deviceToken)).2, ?_, ?_, ?_, rfl⟩
      · unfold Login
        rw [hreq]
      · show w2.trace ++ [_] = _
        rw [hrep]
      · show (w2.trace ++ [_]).countP _ = _
        exact hcount _
    | response status2 data2 =>
      rw [hrep] at hreq
      obtain ⟨hct, _, _⟩ := loginClassify_frame env
        (roundTrip env w2 (loginPost username password mfaCode deviceToken)).2 username
        deviceToken (parseResponse status2 data2)
      refine ⟨(loginClassify env
          (roundTrip env w2 (loginPost username password mfaCode deviceToken)).2 username
          deviceToken (parseResponse status2 data2)).1, (loginClassify env
          (roundTrip env w2 (loginPost username password mfaCode deviceToken)).2 username
          deviceToken (parseResponse status2 data2)).2, ?_, ?_, ?_, rfl⟩
      · unfold Login
        rw [hreq]
      · rw [hct]
        show w2.trace ++ [_] = _
        rw [hrep]
      · rw [hct]
        show (w2.trace ++ [_]).countP _ = _
        exact hcount _

/-! ## The challenge loop in detail -/

theorem Get_of_reply (env : Env) (w : World) (url : String)
    (hUrl : env.urlError url = none) :
    Get env w url false =
      ((match env.http w.nreq ⟨.GET, url, none, none⟩ with
        | .failure e => .error e
        | .response status data => .ok (parseResponse status data)),
        (roundTrip env w ⟨.GET, url, none, none⟩).2) := by
  unfold Get
  rcases doRequest_cases env w .GET url none with ⟨⟨e, he⟩, _⟩ | ⟨_, h2, h1⟩
  · rw [hUrl] at he
    exact absurd he (by simp)
  · exact Prod.ext h1 h2

theorem Get_of_urlError (env : Env) (w : World) (url : String) (e : GoError)
    (hUrl : env.urlError url = some e) :
    Get env w url false = (.error (.wrap "create request" e), w) := by
  unfold Get doRequest
  rw [hUrl]

theorem approves_response_some (status : Int) (d : Obj) :
    (Reply.response status (some d)).approves =
      match asObj (Obj.get d "type_context") with
      | none => false
      | some typeContext => decide (GetString typeContext "result" = "workflow_status_approved") := by
  simp only [Reply.approves]
  cases h : Obj.get d "type_context" with
  | none => simp [asObj]
  | some v =>
    cases v with
    | obj tc =>
      simp only [asObj]
      unfold GetString
      cases h2 : Obj.get tc "result" with
      | none => simp [h2]
      | some v2 => cases v2 <;> simp [h2]
    | _ => simp [asObj]

/-- The continuation step in terms of the transport's reply. -/
theorem completeVerification_eq (env : Env) (w : World) (inquiryURL : String)
    (hUrl : env.urlError inquiryURL = none) :
    completeVerification env w inquiryURL =
      ((match env.http w.nreq ⟨.POST, inquiryURL, some continuePayload, none⟩ with
        | .failure e => some (.wrap "failed to complete sheriff verification" e)
        | .response status data =>
          if (Reply.response status data).approves = true then none
          else some (.new "workflow approval failed after validation")),
        (roundTrip env w ⟨.POST, inquiryURL, some continuePayload, none⟩).2) := by
  unfold completeVerification
  rw [Post_of_reply env w inquiryURL continuePayload hUrl]
  cases env.http w.nreq ⟨.POST, inquiryURL, some continuePayload, none⟩ with
  | failure e => rfl
  | response status data =>
    cases data with
    | none => rfl
    | some d =>
      show (match asObj (Obj.get d "type_context") with
        | none => (some (GoError.new "workflow approval failed after validation"),
            (roundTrip env w ⟨.POST, inquiryURL, some continuePayload, none⟩).2)
        | some typeContext =>
          if GetString typeContext "result" = "workflow_status_approved" then
            (none, (roundTrip env w ⟨.POST, inquiryURL, some continuePayload, none⟩).2)
          else (some (GoError.new "workflow approval failed after validation"),
            (roundTrip env w ⟨.POST, inquiryURL, some continuePayload, none⟩).2)) =
        ((if (Reply.response status (some d)).approves = true then none
          else some (GoError.new "workflow approval failed after validation")),
          (roundTrip env w ⟨.POST, inquiryURL, some continuePayload, none⟩).2)
      rw [approves_response_some]
      cases asObj (Obj.get d "type_context") with
      | none => simp
      | some tc =>
        by_cases hres : GetString tc "result" = "workflow_status_approved" <;> simp [hres]

theorem completeVerification_spec (env : Env) (w : World) (inquiryURL : String)
    (hUrl : env.urlError inquiryURL = none) :
    ∃ reply,
      (completeVerification env w inquiryURL).2.trace = w.trace ++
        [Event.request w.now ⟨.POST, inquiryURL, some continuePayload, none⟩ reply] ∧
      ((completeVerification env w inquiryURL).1 = none ↔ reply.approves = true) ∧
      (reply.approves = false →
        (completeVerification env w inquiryURL).1 =
          some (.new "workflow approval failed after validation") ∨
        ∃ e, reply = .failure e ∧ (completeVerification env w inquiryURL).1 =
          some (.wrap "failed to complete sheriff verification" e)) := by
  refine ⟨env.http w.nreq ⟨.POST, inquiryURL, some continuePayload, none⟩, ?_⟩
  rw [completeVerification_eq env w inquiryURL hUrl]
  refine ⟨rfl, ?_, ?_⟩
  · cases env.http w.nreq ⟨.POST, inquiryURL, some continuePayload, none⟩ with
    | failure e => simp [Reply.approves]
    | response status data =>
      by_cases h : (Reply.response status data).approves = true <;> simp [h]
  · intro hna
    cases hrep : env.http w.nreq ⟨.POST, inquiryURL, some continuePayload, none⟩ with
    | failure e => exact Or.inr ⟨e, rfl, rfl⟩
    | response status data =>
      rw [hrep] at hna
      left
      simp [hna]

/-- Shape of a run of the challenge loop, given that requests to the inquiry URL can
be created: a series of sleeps and polls that did not return `validated`, then
either nothing more (the loop ended with an error), or a poll that returned
`validated` followed by the continuation POST, whose reply decides the result. -/
theorem challengeLoop_trace (env : Env) (statusURL inquiryURL : String) (startTime : Int)
    (hUrl : env.urlError inquiryURL = none) :
    ∀ (fuel : Nat) (w : World) (r : Option GoError) (w1 : World),
    challengeLoop fuel env statusURL inquiryURL startTime w = some (r, w1) →
    ∃ quiet tail, w1.trace = w.trace ++ quiet ++ tail ∧ (∀ e ∈ quiet, QuietPoll statusURL e) ∧
      ((tail = [] ∧ r ≠ none) ∨
        ∃ t reply c, tail = [Event.request t ⟨.GET, statusURL, none, none⟩ reply, c] ∧
          reply.challengeStatus = some "validated" ∧ c.IsContinuationTo inquiryURL ∧
          (r = none ↔ c.approved = true) ∧
          (c.approved = false →
            r = some (.new "workflow approval failed after validation") ∨
            ∃ e, c.reply? = some (.failure e) ∧
              r = some (.wrap "failed to complete sheriff verification" e))) := by
  intro fuel
  induction fuel with
  | zero => intro w r w1 h; simp [challengeLoop] at h
  | succ n ih =>
    intro w r w1 h
    have step : ∀ (w2 : World) (new : List Event), w2.trace = w.trace ++ new →
        (∀ e ∈ new, QuietPoll statusURL e) →
        challengeLoop n env statusURL inquiryURL startTime w2 = some (r, w1) →
        ∃ quiet tail, w1.trace = w.trace ++ quiet ++ tail ∧
          (∀ e ∈ quiet, QuietPoll statusURL e) ∧
          ((tail = [] ∧ r ≠ none) ∨
            ∃ t reply c, tail = [Event.request t ⟨.GET, statusURL, none, none⟩ reply, c] ∧
              reply.challengeStatus = some "validated" ∧ c.IsContinuationTo inquiryURL ∧
              (r = none ↔ c.approved = true) ∧
              (c.approved = false →
                r = some (.new "workflow approval failed after validation") ∨
                ∃ e, c.reply? = some (.failure e) ∧
                  r = some (.wrap "failed to complete sheriff verification" e))) := by
      intro w2 new hnew hq hloop
      obtain ⟨quiet, tail, ht, hqq, hcase⟩ := ih w2 r w1 hloop
      refine ⟨new ++ quiet, tail, ?_, ?_, hcase⟩
      · rw [ht, hnew]
        simp only [List.append_assoc]
      · intro e he
        rcases List.mem_append.mp he with h1 | h1
        · exact hq e h1
        · exact hqq e h1
    unfold challengeLoop at h
    split at h
    · cases hu : env.urlError statusURL with
      | some e =>
        rw [Get_of_urlError env w statusURL e hu] at h
        simp only at h
        exact step _ [Event.sleep w.now (5 * Second)] rfl
          (by intro e he; rw [List.mem_singleton] at he; subst he; trivial) h
      | none =>
        rw [Get_of_reply env w statusURL hu] at h
        cases hrep : env.http w.nreq ⟨.GET, statusURL, none, none⟩ with
        | failure e =>
          rw [hrep] at h
          simp only at h
          refine step _ [Event.request w.now ⟨.GET, statusURL, none, none⟩ (.failure e),
            Event.sleep (roundTrip env w ⟨.GET, statusURL, none, none⟩).2.now (5 * Second)]
            ?_ ?_ h
          · show (w.trace ++ [_]) ++ [_] = _
            rw [hrep]
            simp
          · intro e he
            simp only [List.mem_cons, List.mem_singleton, List.not_mem_nil, or_false] at he
            rcases he with he | he
            · subst he
              exact ⟨rfl, rfl, by simp [Reply.challengeStatus]⟩
            · subst he
              trivial
        | response status data =>
          rw [hrep] at h
          simp only at h
          cases data with
          | none =>
            simp only [parseResponse] at h
            refine step _ [Event.request w.now ⟨.GET, statusURL, none, none⟩
              (.response status none),
              Event.sleep (roundTrip env w ⟨.GET, statusURL, none, none⟩).2.now (5 * Second)]
              ?_ ?_ h
            · show (w.trace ++ [_]) ++ [_] = _
              rw [hrep]
              simp
            · intro e he
              simp only [List.mem_cons, List.mem_singleton, List.not_mem_nil, or_false] at he
              rcases he with he | he
              · subst he
                exact ⟨rfl, rfl, by simp [Reply.challengeStatus]⟩
              · subst he
                trivial
          | some d =>
            simp only [parseResponse] at h
            split at h
            · rename_i hval
              simp only [Option.some.injEq] at h
              obtain ⟨reply2, hct, hiff, hfail⟩ := completeVerification_spec env
                (roundTrip env w ⟨.GET, statusURL, none, none⟩).2 inquiryURL hUrl
              rw [h] at hct hiff hfail
              simp only at hct hiff hfail
              refine ⟨[], [Event.request w.now ⟨.GET, statusURL, none, none⟩
                (.response status (some d)), Event.request
                (roundTrip env w ⟨.GET, statusURL, none, none⟩).2.now
                ⟨.POST, inquiryURL, some continuePayload, none⟩ reply2], ?_, by simp, ?_⟩
              · rw [hct]
                show (w.trace ++ [_]) ++ [_] = _
                rw [hrep]
                simp
              · right
                refine ⟨_, _, _, rfl, ?_, ⟨rfl, rfl, rfl⟩, hiff, ?_⟩
                · simp [Reply.challengeStatus, hval]
                · intro hna
                  rcases hfail hna with h1 | ⟨e, he, h1⟩
                  · exact Or.inl h1
                  · exact Or.inr ⟨e, by rw [← he]; rfl, h1⟩
            · rename_i hval
              split at h
              · refine step _ [Event.request w.now ⟨.GET, statusURL, none, none⟩
                  (.response status (some d)),
                  Event.sleep (roundTrip env w ⟨.GET, statusURL, none, none⟩).2.now
                    (15 * Second)] ?_ ?_ h
                · show (w.trace ++ [_]) ++ [_] = _
                  rw [hrep]
                  simp
                · intro e he
                  simp only [List.mem_cons, List.mem_singleton, List.not_mem_nil, or_false] at he
                  rcases he with he | he
                  · subst he
                    exact ⟨rfl, rfl, by simp [Reply.challengeStatus, hval]⟩
                  · subst he
                    trivial
              · simp only [Option.some.injEq, Prod.mk.injEq] at h
                refine ⟨[Event.request w.now ⟨.GET, statusURL, none, none⟩
                  (.response status (some d))], [], ?_, ?_, Or.inl ⟨rfl, ?_⟩⟩
                · rw [← h.2]
                  show w.trace ++ [_] = _
                  rw [hrep]
                  simp
                · intro e he
                  rw [List.mem_singleton] at he
                  subst he
                  exact ⟨rfl, rfl, by simp [Reply.challengeStatus, hval]⟩
                · rw [← h.1]
                  simp
    · simp only [Option.some.injEq, Prod.mk.injEq] at h
      refine ⟨[], [], ?_, by simp, Or.inl ⟨rfl, ?_⟩⟩
      · rw [← h.2]
        simp
      · rw [← h.1]
        simp

/-! ## Recognising the actions of a run -/

theorem isChallengeStatusURL_status (challengeID : String) :
    isChallengeStatusURL (SheriffChallengeStatusURL challengeID) = true := by
  unfold isChallengeStatusURL SheriffChallengeStatusURL
  simp only [String.data_append, List.append_assoc, Bool.and_eq_true]
  constructor
  · rw [List.isPrefixOf_iff_prefix]
    exact List.prefix_append _ _
  · have hlen : "https://api.robinhood.com/push/".data.length = 31 := by decide
    rw [List.drop_left' hlen, List.isSuffixOf_iff_suffix]
    exact List.suffix_append _ _

theorem isChallengeStatusURL_inquiry (machineID : String) :
    isChallengeStatusURL (SheriffInquiryURL machineID) = false := by
  unfold isChallengeStatusURL SheriffInquiryURL
  simp only [String.data_append, List.append_assoc, Bool.and_eq_false_imp]
  intro h
  exfalso
  rw [List.isPrefixOf_iff_prefix, List.prefix_iff_eq_take] at h
  have h27 := congrArg (fun l => l[27]?) h
  simp only at h27
  rw [List.getElem?_take_of_lt (by decide), List.getElem?_append_left (by decide)] at h27
  revert h27
  decide

theorem OpeningAction_facts (machineID : String) (e : Event)
    (h : OpeningAction (SheriffInquiryURL machineID) e) :
    e.isStatusPoll = false ∧ (∀ s, e.isStatusPollWith s = false) ∧
    (e.isGet = true → e.isRequestTo .GET (SheriffInquiryURL machineID) = true) ∧
    (e.isPost = true → e.isRequestTo .POST PathfinderUserMachineURL = true) := by
  cases e with
  | sleep t d => simp [Event.isStatusPoll, Event.isStatusPollWith, Event.isGet, Event.isPost]
  | request t req reply =>
    rcases h with ⟨hm, hu⟩ | ⟨hm, hu⟩
    · simp [Event.isStatusPoll, Event.isStatusPollWith, Event.isGet, Event.isPost,
        Event.isRequestTo, hm, hu]
    · simp [Event.isStatusPoll, Event.isStatusPollWith, Event.isGet, Event.isPost,
        Event.isRequestTo, hm, hu, isChallengeStatusURL_inquiry]

theorem QuietPoll_facts (challengeID : String) (e : Event)
    (h : QuietPoll (SheriffChallengeStatusURL challengeID) e) :
    e.isStatusPollWith "validated" = false ∧ (e.isGet = true → e.isStatusPoll = true) ∧
    e.isPost = false := by
  cases e with
  | sleep t d => simp [Event.isStatusPollWith, Event.isGet, Event.isPost]
  | request t req reply =>
    obtain ⟨hm, hu, hs⟩ := h
    simp [Event.isStatusPoll, Event.isStatusPollWith, Event.isGet, Event.isPost, hm, hu,
      isChallengeStatusURL_status, hs]

theorem IsContinuationTo_facts (inquiryURL : String) (e : Event)
    (h : e.IsContinuationTo inquiryURL) :
    (∀ s, e.isStatusPollWith s = false) ∧ e.isGet = false ∧ e.isStatusPoll = false := by
  cases e with
  | sleep t d => exact absurd h (by simp [Event.IsContinuationTo])
  | request t req reply =>
    obtain ⟨hm, _, _⟩ := h
    simp [Event.isStatusPoll, Event.isStatusPollWith, Event.isGet, hm]

theorem validated_poll_facts (t : Int) (challengeID : String) (reply : Reply)
    (h : reply.challengeStatus = some "validated") :
    (Event.request t ⟨.GET, SheriffChallengeStatusURL challengeID, none, none⟩
      reply).isStatusPollWith "validated" = true ∧
    (Event.request t ⟨.GET, SheriffChallengeStatusURL challengeID, none, none⟩
      reply).isStatusPoll = true := by
  simp [Event.isStatusPoll, Event.isStatusPollWith, isChallengeStatusURL_status, h]

/-- In a list that ends with `a, b`, an element with a property that neither `b` nor
any element before `a` has can only be `a`. -/
theorem split_unique {α : Type} (P : α → Prop) (a b p : α) (post : List α) :
    ∀ (l pre : List α), l ++ [a, b] = pre ++ p :: post → (∀ x ∈ l, ¬ P x) → ¬ P b → P p →
    pre = l ∧ p = a ∧ post = [b] := by
  intro l
  induction l with
  | nil =>
    intro pre h _ hb hp
    cases pre with
    | nil =>
      simp only [List.nil_append, List.cons.injEq] at h
      exact ⟨rfl, h.1.symm, h.2.symm⟩
    | cons x pre1 =>
      cases pre1 with
      | nil =>
        simp only [List.nil_append, List.cons_append, List.cons.injEq] at h
        obtain ⟨_, hbp, _⟩ := h
        rw [← hbp] at hp
        exact absurd hp hb
      | cons y pre2 =>
        have hlen := congrArg List.length h
        simp at hlen
  | cons x l ih =>
    intro pre h hl hb hp
    cases pre with
    | nil =>
      simp only [List.cons_append, List.nil_append, List.cons.injEq] at h
      rw [← h.1] at hp
      exact absurd hp (hl x (List.mem_cons_self _ _))
    | cons y pre1 =>
      simp only [List.cons_append, List.cons.injEq] at h
      obtain ⟨hxy, hrest⟩ := h
      obtain ⟨h1, h2, h3⟩ := ih pre1 hrest
        (fun z hz => hl z (List.mem_cons_of_mem _ hz)) hb hp
      exact ⟨by rw [hxy, h1], h2, h3⟩

theorem inquiryLoop_trace (env : Env) (inquiryURL : String) (deadline : Int) :
    ∀ (fuel : Nat) (w : World) (d : Option Obj) (w1 : World),
    inquiryLoop fuel env inquiryURL deadline w = some (d, w1) →
    ∃ evs, w1.trace = w.trace ++ evs ∧ (∀ e ∈ evs, OpeningAction inquiryURL e) ∧
      (d ≠ none → env.urlError inquiryURL = none) := by
  intro fuel
  induction fuel with
  | zero => intro w d w1 h; simp [inquiryLoop] at h
  | succ n ih =>
    intro w d w1 h
    have step : ∀ (w2 : World) (new : List Event), w2.trace = w.trace ++ new →
        (∀ e ∈ new, OpeningAction inquiryURL e) →
        inquiryLoop n env inquiryURL deadline w2 = some (d, w1) →
        ∃ evs, w1.trace = w.trace ++ evs ∧ (∀ e ∈ evs, OpeningAction inquiryURL e) ∧
          (d ≠ none → env.urlError inquiryURL = none) := by
      intro w2 new hnew hq hloop
      obtain ⟨evs, ht, hqq, hu⟩ := ih w2 d w1 hloop
      refine ⟨new ++ evs, ?_, ?_, hu⟩
      · rw [ht, hnew]
        simp only [List.append_assoc]
      · intro e he
        rcases List.mem_append.mp he with h1 | h1
        · exact hq e h1
        · exact hqq e h1
    have hpair : ∀ (reply : Reply) (t : Int) (dd : Int), ∀ e ∈
        [Event.request w.now ⟨.GET, inquiryURL, none, none⟩ reply, Event.sleep t dd],
        OpeningAction inquiryURL e := by
      intro reply t dd e he
      simp only [List.mem_cons, List.mem_singleton, List.not_mem_nil, or_false] at he
      rcases he with he | he
      · subst he
        exact Or.inr ⟨rfl, rfl⟩
      · subst he
        trivial
    unfold inquiryLoop at h
    split at h
    · rcases Option.eq_none_or_eq_some (env.urlError inquiryURL) with hu | ⟨e, hu⟩
      · rw [Get_of_reply env w inquiryURL hu] at h
        cases hrep : env.http w.nreq ⟨.GET, inquiryURL, none, none⟩ with
        | failure e =>
          rw [hrep] at h
          simp only at h
          refine step _ _ ?_ (hpair (.failure e)
            (roundTrip env w ⟨.GET, inquiryURL, none, none⟩).2.now (4 * Second)) h
          show (w.trace ++ [_]) ++ [_] = _
          rw [hrep]
          simp
        | response status data =>
          rw [hrep] at h
          simp only at h
          cases data with
          | none =>
            simp only [parseResponse] at h
            refine step _ _ ?_ (hpair (.response status none)
              (roundTrip env w ⟨.GET, inquiryURL, none, none⟩).2.now (4 * Second)) h
            show (w.trace ++ [_]) ++ [_] = _
            rw [hrep]
            simp
          | some dd =>
            simp only [parseResponse, Option.some.injEq, Prod.mk.injEq] at h
            refine ⟨[Event.request w.now ⟨.GET, inquiryURL, none, none⟩
              (.response status (some dd))], ?_, ?_, fun _ => hu⟩
            · rw [← h.2]
              show w.trace ++ [_] = _
              rw [hrep]
            · intro e he
              rw [List.mem_singleton] at he
              subst he
              exact Or.inr ⟨rfl, rfl⟩
      · rw [Get_of_urlError env w inquiryURL e hu] at h
        simp only at h
        exact step _ [Event.sleep w.now (4 * Second)] rfl
          (by intro e he; rw [List.mem_singleton] at he; subst he; trivial) h
    · simp only [Option.some.injEq, Prod.mk.injEq] at h
      refine ⟨[], ?_, by simp, ?_⟩
      · rw [← h.2]
        simp
      · rw [← h.1]
        simp

theorem Post_of_urlError (env : Env) (w : World) (url : String) (body : Value) (e : GoError)
    (hUrl : env.urlError url = some e) :
    Post env w url body false = (.error (.wrap "create request" e), w) := by
  unfold Post doRequest
  rw [hUrl]

/-- A run of the verification consists of opening actions (the start POST, inquiry
GETs, sleeps) after which it either has failed, or runs the challenge loop for a
challenge id, entered at the instant the opening ended. -/
theorem handleSheriffVerification_decompose (fuel : Nat) (env : Env) (w : World)
    (deviceToken workflowID : String) (r : Option GoError) (w1 : World)
    (h : handleSheriffVerification fuel env w deviceToken workflowID = some (r, w1)) :
    ∃ machineID opening w2, w2.trace = w.trace ++ opening ∧
      (∀ e ∈ opening, OpeningAction (SheriffInquiryURL machineID) e) ∧
      ((r ≠ none ∧ w1 = w2) ∨
        ∃ challengeID, env.urlError (SheriffInquiryURL machineID) = none ∧
          challengeLoop fuel env (SheriffChallengeStatusURL challengeID)
            (SheriffInquiryURL machineID) w2.now w2 = some (r, w1)) := by
  have early : ∀ (machineID : String) (opening : List Event) (w2 : World) (err : GoError),
      w2.trace = w.trace ++ opening →
      (∀ e ∈ opening, OpeningAction (SheriffInquiryURL machineID) e) →
      some (some err, w2) = some (r, w1) →
      ∃ machineID opening w2, w2.trace = w.trace ++ opening ∧
        (∀ e ∈ opening, OpeningAction (SheriffInquiryURL machineID) e) ∧
        ((r ≠ none ∧ w1 = w2) ∨
          ∃ challengeID, env.urlError (SheriffInquiryURL machineID) = none ∧
            challengeLoop fuel env (SheriffChallengeStatusURL challengeID)
              (SheriffInquiryURL machineID) w2.now w2 = some (r, w1)) := by
    intro machineID opening w2 err ht ho hx
    simp only [Option.some.injEq, Prod.mk.injEq] at hx
    refine ⟨machineID, opening, w2, ht, ho, Or.inl ⟨?_, hx.2.symm⟩⟩
    rw [← hx.1]
    simp
  have hstartEv : ∀ (machineID : String) (reply : Reply), ∀ e ∈
      [Event.request w.now ⟨.POST, PathfinderUserMachineURL,
        some (machinePayload deviceToken workflowID), none⟩ reply],
      OpeningAction (SheriffInquiryURL machineID) e := by
    intro machineID reply e he
    rw [List.mem_singleton] at he
    subst he
    exact Or.inl ⟨rfl, rfl⟩
  unfold handleSheriffVerification at h
  rcases Option.eq_none_or_eq_some (env.urlError PathfinderUserMachineURL) with hu | ⟨e, hu⟩
  · rw [Post_of_reply env w _ _ hu] at h
    cases hrep : env.http w.nreq ⟨.POST, PathfinderUserMachineURL,
        some (machinePayload deviceToken workflowID), none⟩ with
    | failure e =>
      rw [hrep] at h
      simp only at h
      exact early "" _ _ _ rfl (hstartEv "" _) h
    | response status data =>
      rw [hrep] at h
      simp only at h
      cases data with
      | none =>
        simp only [parseResponse] at h
        exact early "" _ _ _ rfl (hstartEv "" _) h
      | some d =>
        simp only [parseResponse] at h
        split at h
        · exact early "" _ _ _ rfl (hstartEv "" _) h
        · split at h
          · simp at h
          · rename_i inquiryData w3 hloop
            obtain ⟨evs, ht3, ho3, hu3⟩ := inquiryLoop_trace env _ _ fuel _ inquiryData w3 hloop
            have ht : w3.trace = w.trace ++
                ([Event.request w.now ⟨.POST, PathfinderUserMachineURL,
                  some (machinePayload deviceToken workflowID), none⟩
                  (env.http w.nreq ⟨.POST, PathfinderUserMachineURL,
                    some (machinePayload deviceToken workflowID), none⟩)] ++ evs) := by
              rw [ht3]
              show (w.trace ++ [_]) ++ evs = _
              simp
            have ho : ∀ e ∈ ([Event.request w.now ⟨.POST, PathfinderUserMachineURL,
                  some (machinePayload deviceToken workflowID), none⟩
                  (env.http w.nreq ⟨.POST, PathfinderUserMachineURL,
                    some (machinePayload deviceToken workflowID), none⟩)] ++ evs),
                OpeningAction (SheriffInquiryURL (GetString d "id")) e := by
              intro e he
              rcases List.mem_append.mp he with h1 | h1
              · exact hstartEv _ _ e h1
              · exact ho3 e h1
            unfold resolveChallenge at h
            split at h
            · exact early _ _ _ _ ht ho h
            · rename_i idata
              split at h
              · exact early _ _ _ _ ht ho h
              · split at h
                · exact early _ _ _ _ ht ho h
                · simp only at h
                  split at h
                  · exact early _ _ _ _ ht ho h
                  · exact ⟨_, _, w3, ht, ho, Or.inr ⟨_, hu3 (by simp), h⟩⟩
  · rw [Post_of_urlError env w _ _ e hu] at h
    simp only at h
    exact early "" [] w _ (by simp) (by simp) h

/-- C9: with a sufficient iteration budget `handleSheriffVerification` returns, and
for the actions `evs` of the run and the machine id whose inquiry URL its inquiry
GETs use: it returns success (`nil`) if and only if the run ends with a
challenge-status poll that returned `validated` followed by the continuation POST
(sequence 0, user input `continue`) to that same inquiry URL whose reply carries
`type_context.result = workflow_status_approved`.  Moreover every poll that
returned `validated` is followed by exactly one more action, that continuation
POST, so no further poll is made; the result is success exactly when its reply
approves, and otherwise it is the approval-failure error, or the wrapped transport
error when the POST itself failed. -/
theorem handleSheriffVerification_success_iff (fuel : Nat) (hfuel : 25 ≤ fuel) (env : Env)
    (w : World) (deviceToken workflowID : String) :
    ∃ r w1 evs machineID,
      handleSheriffVerification fuel env w deviceToken workflowID = some (r, w1) ∧
      w1.trace = w.trace ++ evs ∧
      (∀ e ∈ evs, e.isGet = true →
        e.isStatusPoll = true ∨ e.isRequestTo .GET (SheriffInquiryURL machineID) = true) ∧
      (r = none ↔ ∃ pre p c, evs = pre ++ [p, c] ∧ p.isStatusPollWith "validated" = true ∧
        c.IsContinuationTo (SheriffInquiryURL machineID) ∧ c.approved = true) ∧
      (∀ pre p post, evs = pre ++ p :: post → p.isStatusPollWith "validated" = true →
        ∃ c, post = [c] ∧ c.IsContinuationTo (SheriffInquiryURL machineID) ∧
          (r = none ↔ c.approved = true) ∧
          (c.approved = false →
            r = some (.new "workflow approval failed after validation") ∨
            ∃ e, c.reply? = some (.failure e) ∧
              r = some (.wrap "failed to complete sheriff verification" e))) := by
  obtain ⟨⟨r, w1⟩, h⟩ := handleSheriffVerification_total fuel hfuel env w deviceToken workflowID
  obtain ⟨mid, opening, w2, ht2, ho, hcase⟩ :=
    handleSheriffVerification_decompose fuel env w deviceToken workflowID r w1 h
  have hquietOnly : ∀ (evs : List Event), w1.trace = w.trace ++ evs → r ≠ none →
      (∀ e ∈ evs, OpeningAction (SheriffInquiryURL mid) e ∨
        ∃ cid, QuietPoll (SheriffChallengeStatusURL cid) e) →
      ∃ r w1 evs machineID,
        handleSheriffVerification fuel env w deviceToken workflowID = some (r, w1) ∧
        w1.trace = w.trace ++ evs ∧
        (∀ e ∈ evs, e.isGet = true →
          e.isStatusPoll = true ∨ e.isRequestTo .GET (SheriffInquiryURL machineID) = true) ∧
        (r = none ↔ ∃ pre p c, evs = pre ++ [p, c] ∧ p.isStatusPollWith "validated" = true ∧
          c.IsContinuationTo (SheriffInquiryURL machineID) ∧ c.approved = true) ∧
        (∀ pre p post, evs = pre ++ p :: post → p.isStatusPollWith "validated" = true →
          ∃ c, post = [c] ∧ c.IsContinuationTo (SheriffInquiryURL machineID) ∧
            (r = none ↔ c.approved = true) ∧
            (c.approved = false →
              r = some (.new "workflow approval failed after validation") ∨
              ∃ e, c.reply? = some (.failure e) ∧
                r = some (.wrap "failed to complete sheriff verification" e))) := by
    intro evs ht hr hall
    have hnv : ∀ e ∈ evs, ¬ (e.isStatusPollWith "validated" = true) := by
      intro e he
      rcases hall e he with h1 | ⟨cid, h1⟩
      · rw [(OpeningAction_facts mid e h1).2.1 "validated"]
        simp
      · rw [(QuietPoll_facts cid e h1).1]
        simp
    refine ⟨r, w1, evs, mid, h, ht, ?_, ?_, ?_⟩
    · intro e he hg
      rcases hall e he with h1 | ⟨cid, h1⟩
      · exact Or.inr ((OpeningAction_facts mid e h1).2.2.1 hg)
      · exact Or.inl ((QuietPoll_facts cid e h1).2.1 hg)
    · constructor
      · intro hn
        exact absurd hn hr
      · rintro ⟨pre, p, c, hevs, hp, _, _⟩
        exact absurd hp (hnv p (by rw [hevs]; simp))
    · intro pre p post hevs hp
      exact absurd hp (hnv p (by rw [hevs]; simp))
  rcases hcase with ⟨hr, hw⟩ | ⟨cid, hu, hloop⟩
  · exact hquietOnly opening (by rw [hw, ht2]) hr (fun e he => Or.inl (ho e he))
  · obtain ⟨quiet, tail, ht1, hq, htail⟩ := challengeLoop_trace env _ _ _ hu fuel w2 r w1 hloop
    have hall : ∀ e ∈ opening ++ quiet, OpeningAction (SheriffInquiryURL mid) e ∨
        ∃ cid, QuietPoll (SheriffChallengeStatusURL cid) e := by
      intro e he
      rcases List.mem_append.mp he with h1 | h1
      · exact Or.inl (ho e h1)
      · exact Or.inr ⟨cid, hq e h1⟩
    rcases htail with ⟨hnil, hr⟩ | ⟨t, reply, c0, htl, hval, hcont, hiff, hfail⟩
    · exact hquietOnly (opening ++ quiet) (by rw [ht1, ht2, hnil]; simp) hr hall
    · have hnv : ∀ e ∈ opening ++ quiet, ¬ (e.isStatusPollWith "validated" = true) := by
        intro e he
        rcases hall e he with h1 | ⟨cid1, h1⟩
        · rw [(OpeningAction_facts mid e h1).2.1 "validated"]
          simp
        · rw [(QuietPoll_facts cid1 e h1).1]
          simp
      have hc0 : ¬ (c0.isStatusPollWith "validated" = true) := by
        rw [(IsContinuationTo_facts _ c0 hcont).1 "validated"]
        simp
      obtain ⟨hp0, hp0s⟩ := validated_poll_facts t cid reply hval
      have hevs : w1.trace = w.trace ++ (opening ++ quiet ++
          [Event.request t ⟨.GET, SheriffChallengeStatusURL cid, none, none⟩ reply, c0]) := by
        rw [ht1, ht2, htl]
        simp only [List.append_assoc]
      refine ⟨r, w1, _, mid, h, hevs, ?_, ?_, ?_⟩
      · intro e he hg
        rcases List.mem_append.mp he with h1 | h1
        · rcases hall e h1 with h2 | ⟨cid1, h2⟩
          · exact Or.inr ((OpeningAction_facts mid e h2).2.2.1 hg)
          · exact Or.inl ((QuietPoll_facts cid1 e h2).2.1 hg)
        · simp only [List.mem_cons, List.mem_singleton, List.not_mem_nil, or_false] at h1
          rcases h1 with h1 | h1
          · subst h1
            exact Or.inl hp0s
          · subst h1
            rw [(IsContinuationTo_facts _ e hcont).2.1] at hg
            exact absurd hg (by simp)
      · constructor
        · intro hn
          exact ⟨opening ++ quiet, _, c0, rfl, hp0, hcont, hiff.mp hn⟩
        · rintro ⟨pre, p, c, hsplit, hp, _, hca⟩
          obtain ⟨_, _, hpost⟩ := split_unique (fun e => e.isStatusPollWith "validated" = true)
            _ c0 p [c] (opening ++ quiet) pre hsplit hnv hc0 hp
          simp only [List.cons.injEq, and_true] at hpost
          rw [hpost] at hca
          exact hiff.mpr hca
      · intro pre p post hsplit hp
        obtain ⟨_, _, hpost⟩ := split_unique (fun e => e.isStatusPollWith "validated" = true)
          _ c0 p post (opening ++ quiet) pre hsplit hnv hc0 hp
        exact ⟨c0, hpost, hcont, hiff, hfail⟩

/-- The challenge loop when every poll of the status URL is sent and returns
`issued`: it ends with the timeout error after at most `n` polls when at most
`15 * n` seconds of the two minutes remain; its actions are sleeps and polls, each
poll started less than two minutes after `startTime`. -/
theorem challengeLoop_issued (env : Env) (statusURL inquiryURL : String) (startTime : Int)
    (hUrl : env.urlError statusURL = none)
    (hIssued : ∀ n, (env.http n ⟨.GET, statusURL, none, none⟩).challengeStatus = some "issued") :
    ∀ (fuel : Nat) (w : World) (n : Nat) (r : Option GoError) (w1 : World),
    startTime ≤ w.now →
    2 * (60 * Second) - (w.now - startTime) ≤ 15 * Second * (n : Int) →
    challengeLoop fuel env statusURL inquiryURL startTime w = some (r, w1) →
    r = some (.new "sheriff verification timeout") ∧
    ∃ evs, w1.trace = w.trace ++ evs ∧ evs.countP Event.isGet ≤ n ∧
      ∀ e ∈ evs, (∃ t d, e = Event.sleep t d) ∨
        ∃ t reply, e = Event.request t ⟨.GET, statusURL, none, none⟩ reply ∧
          startTime ≤ t ∧ t - startTime < 2 * (60 * Second) := by
  intro fuel
  induction fuel with
  | zero => intro w n r w1 _ _ h; simp [challengeLoop] at h
  | succ k ih =>
    intro w n r w1 hstart hrem h
    have hs : (0 : Int) < Second := by decide
    unfold challengeLoop at h
    split at h
    · rename_i helapsed
      rw [Get_of_reply env w statusURL hUrl] at h
      have hi := hIssued w.nreq
      cases hrep : env.http w.nreq ⟨.GET, statusURL, none, none⟩ with
      | failure e =>
        rw [hrep] at hi
        simp [Reply.challengeStatus] at hi
      | response status data =>
        rw [hrep] at hi h
        cases data with
        | none => simp [Reply.challengeStatus] at hi
        | some d =>
          simp only [Reply.challengeStatus, Option.some.injEq] at hi
          simp only [parseResponse, hi] at h
          rw [if_neg (by decide), if_pos trivial] at h
          obtain ⟨m, hm⟩ : ∃ m, n = m + 1 := by
            refine ⟨n - 1, ?_⟩
            have : (0 : Int) < (n : Int) := by
              by_contra hneg
              have : (n : Int) ≤ 0 := by omega
              nlinarith
            omega
          have hnow : w.now + 15 * Second ≤
              (sleep env (roundTrip env w ⟨.GET, statusURL, none, none⟩).2 (15 * Second)).now := by
            show w.now + 15 * Second ≤ w.now + (env.latency w.nreq : Int) + 15 * Second +
              (env.oversleep _ : Int)
            have h1 : (0 : Int) ≤ (env.latency w.nreq : Int) := Int.ofNat_nonneg _
            have h2 : (0 : Int) ≤ (env.oversleep
              (roundTrip env w ⟨.GET, statusURL, none, none⟩).2.nsleep : Int) := Int.ofNat_nonneg _
            omega
          obtain ⟨hr, evs, ht, hc, hall⟩ := ih _ m r w1 (by omega)
            (by subst hm; push_cast at hrem; nlinarith) h
          refine ⟨hr, [Event.request w.now ⟨.GET, statusURL, none, none⟩
            (.response status (some d)),
            Event.sleep (roundTrip env w ⟨.GET, statusURL, none, none⟩).2.now (15 * Second)]
            ++ evs, ?_, ?_, ?_⟩
          · rw [ht]
            show ((w.trace ++ [_]) ++ [_]) ++ evs = _
            rw [hrep]
            simp
          · rw [List.countP_append]
            simp only [List.countP_cons, List.countP_nil, Event.isGet]
            simp
            omega
          · intro e he
            rcases List.mem_append.mp he with h1 | h1
            · simp only [List.mem_cons, List.mem_singleton, List.not_mem_nil, or_false] at h1
              rcases h1 with h1 | h1
              · exact Or.inr ⟨_, _, h1, hstart, helapsed⟩
              · exact Or.inl ⟨_, _, h1⟩
            · exact hall e h1
    · simp only [Option.some.injEq, Prod.mk.injEq] at h
      refine ⟨h.1.symm, [], ?_, by simp, by simp⟩
      rw [← h.2]
      simp

/-- C10: suppose the first login response carries a verification workflow and every
challenge-status poll is sent and returns `issued`.  Then, sleeps advancing the clock
by at least their duration, the verification returns an error and its actions `evs`
satisfy: at most 8 challenge-status polls; any two polls start less than two minutes
apart, so none starts two minutes or more after the first, which starts on entering
the challenge loop; no continuation POST to any inquiry URL; and if a poll was made
at all (the challenge loop was reached) the error is the timeout error.  `Login`
fails with that error wrapped, the client's credential is the one it had before the
call, and no file has been created or overwritten. -/
theorem Login_times_out_while_issued (fuel : Nat) (hfuel : 25 ≤ fuel) (env : Env) (w : World)
    (username password mfaCode deviceToken : String) (status : Int) (data : Option Obj)
    (vw : Obj)
    (hFresh : (tryLoadStoredToken env w username).1 = none)
    (hDev : generateDeviceToken env = .ok deviceToken)
    (hUrl : env.urlError LoginURL = none)
    (hReply : env.http w.nreq (loginPost username password mfaCode deviceToken) =
      .response status data)
    (hWf : dataGet data "verification_workflow" = some (.obj vw))
    (hId : GetString vw "id" ≠ "")
    (hStatusUrl : ∀ challengeID, env.urlError (SheriffChallengeStatusURL challengeID) = none)
    (hIssued : ∀ n challengeID,
      (env.http n ⟨.GET, SheriffChallengeStatusURL challengeID, none, none⟩).challengeStatus =
        some "issued") :
    ∃ verr w2 evs,
      handleSheriffVerification fuel env
        (afterLoginPost env w username password mfaCode deviceToken) deviceToken
        (GetString vw "id") = some (some verr, w2) ∧
      w2.trace = (afterLoginPost env w username password mfaCode deviceToken).trace ++ evs ∧
      evs.countP Event.isStatusPoll ≤ 8 ∧
      (∀ p ∈ evs, ∀ q ∈ evs, p.isStatusPoll = true → q.isStatusPoll = true →
        q.time - p.time < 2 * (60 * Second)) ∧
      (∀ e ∈ evs, ∀ machineID, ¬ e.IsContinuationTo (SheriffInquiryURL machineID)) ∧
      (evs.countP Event.isStatusPoll ≠ 0 → verr = .new "sheriff verification timeout") ∧
      Login fuel env w username password mfaCode =
        some (.error (.wrap "sheriff verification failed" verr), w2) ∧
      w2.auth = w.auth ∧ NoFileWritten w w2 := by
  obtain ⟨⟨r, w2⟩, h⟩ := handleSheriffVerification_total fuel hfuel env
    (afterLoginPost env w username password mfaCode deviceToken) deviceToken (GetString vw "id")
  obtain ⟨mid, opening, w3, ht3, ho, hcase⟩ :=
    handleSheriffVerification_decompose fuel env _ deviceToken _ r w2 h
  have hopenCont : ∀ e ∈ opening, ∀ machineID,
      ¬ e.IsContinuationTo (SheriffInquiryURL machineID) := by
    intro e he machineID hc
    cases e with
    | sleep t d => exact hc
    | request t req reply =>
      obtain ⟨hm, hu, _⟩ := hc
      rcases ho _ he with ⟨_, hu2⟩ | ⟨hm2, _⟩
      · exact SheriffInquiryURL_ne_start machineID (hu.symm.trans hu2)
      · rw [hm] at hm2
        exact absurd hm2 (by decide)
  have hopenPoll : ∀ e ∈ opening, e.isStatusPoll = false :=
    fun e he => (OpeningAction_facts mid e (ho e he)).1
  have finish : ∀ (verr : GoError) (evs : List Event), r = some verr →
      w2.trace = (afterLoginPost env w username password mfaCode deviceToken).trace ++ evs →
      evs.countP Event.isStatusPoll ≤ 8 →
      (∀ p ∈ evs, ∀ q ∈ evs, p.isStatusPoll = true → q.isStatusPoll = true →
        q.time - p.time < 2 * (60 * Second)) →
      (∀ e ∈ evs, ∀ machineID, ¬ e.IsContinuationTo (SheriffInquiryURL machineID)) →
      (evs.countP Event.isStatusPoll ≠ 0 → verr = .new "sheriff verification timeout") →
      ∃ verr w2 evs,
        handleSheriffVerification fuel env
          (afterLoginPost env w username password mfaCode deviceToken) deviceToken
          (GetString vw "id") = some (some verr, w2) ∧
        w2.trace = (afterLoginPost env w username password mfaCode deviceToken).trace ++ evs ∧
        evs.countP Event.isStatusPoll ≤ 8 ∧
        (∀ p ∈ evs, ∀ q ∈ evs, p.isStatusPoll = true → q.isStatusPoll = true →
          q.time - p.time < 2 * (60 * Second)) ∧
        (∀ e ∈ evs, ∀ machineID, ¬ e.IsContinuationTo (SheriffInquiryURL machineID)) ∧
        (evs.countP Event.isStatusPoll ≠ 0 → verr = .new "sheriff verification timeout") ∧
        Login fuel env w username password mfaCode =
          some (.error (.wrap "sheriff verification failed" verr), w2) ∧
        w2.auth = w.auth ∧ NoFileWritten w w2 := by
    intro verr evs hr ht hc htime hcont hto
    rw [hr] at h
    obtain ⟨hL, _, _, ha, hf⟩ := Login_of_failed_verification fuel env w username password
      mfaCode deviceToken status data vw verr w2 hFresh hDev hUrl hReply hWf hId h
    exact ⟨verr, w2, evs, h, ht, hc, htime, hcont, hto, hL, ha, hf⟩
  rcases hcase with ⟨hr, hw⟩ | ⟨cid, _, hloop⟩
  · obtain ⟨verr, hverr⟩ : ∃ verr, r = some verr := by
      cases r with
      | none => exact absurd rfl hr
      | some e => exact ⟨e, rfl⟩
    have hzero : opening.countP Event.isStatusPoll = 0 := countP_eq_zero_of_false hopenPoll
    refine finish verr opening hverr (by rw [hw, ht3]) (by rw [hzero]; omega) ?_ hopenCont
      (fun hne => absurd hzero hne)
    intro p hp q _ hpp _
    rw [hopenPoll p hp] at hpp
    exact absurd hpp (by simp)
  · obtain ⟨hr, evs, ht, hc, hall⟩ := challengeLoop_issued env _ _ w3.now (hStatusUrl cid)
      (fun n => hIssued n cid) fuel w3 8 r w2 (le_refl _)
      (by have hs : (0 : Int) < Second := by decide
          push_cast
          nlinarith) hloop
    have hloopPoll : ∀ e ∈ evs, e.isStatusPoll = e.isGet := by
      intro e he
      rcases hall e he with ⟨t, d, rfl⟩ | ⟨t, reply, rfl, _, _⟩
      · rfl
      · simp [Event.isStatusPoll, Event.isGet, isChallengeStatusURL_status]
    have hcount : (opening ++ evs).countP Event.isStatusPoll ≤ 8 := by
      rw [List.countP_append, countP_eq_zero_of_false hopenPoll, Nat.zero_add,
        List.countP_congr (fun e he => by rw [hloopPoll e he])]
      exact hc
    have hwindow : ∀ p ∈ opening ++ evs, p.isStatusPoll = true →
        w3.now ≤ p.time ∧ p.time - w3.now < 2 * (60 * Second) := by
      intro p hp hpp
      rcases List.mem_append.mp hp with h1 | h1
      · rw [hopenPoll p h1] at hpp
        exact absurd hpp (by simp)
      · rcases hall p h1 with ⟨t, d, rfl⟩ | ⟨t, reply, rfl, h2, h3⟩
        · exact absurd hpp (by simp [Event.isStatusPoll])
        · exact ⟨h2, h3⟩
    refine finish _ (opening ++ evs) hr (by rw [ht, ht3, List.append_assoc]) hcount ?_ ?_
      (fun _ => rfl)
    · intro p hp q hq hpp hqq
      have h1 := hwindow p hp hpp
      have h2 := hwindow q hq hqq
      omega
    · intro e he machineID hcnt
      rcases List.mem_append.mp he with h1 | h1
      · exact hopenCont e h1 machineID hcnt
      · rcases hall e h1 with ⟨t, d, rfl⟩ | ⟨t, reply, rfl, _, _⟩
        · exact hcnt
        · exact Method.noConfusion hcnt.1

theorem issuedHttp_status (n : Nat) (challengeID : String) :
    (issuedHttp n ⟨.GET, SheriffChallengeStatusURL challengeID, none, none⟩).challengeStatus =
      some "issued" := by
  have hne : SheriffChallengeStatusURL challengeID ≠ SheriffInquiryURL "m-1" :=
    fun h => SheriffInquiryURL_ne_status "m-1" challengeID h.symm
  simp only [issuedHttp, hne, if_false]
  rfl

theorem Login_times_out_while_issued_witness :
    ∃ verr w2 evs,
      handleSheriffVerification 25 (sampleEnv issuedHttp)
        (afterLoginPost (sampleEnv issuedHttp) emptyWorld "alice" "secret" "" sampleDeviceToken)
        sampleDeviceToken (GetString [("id", .str "wf-1")] "id") = some (some verr, w2) ∧
      w2.trace = (afterLoginPost (sampleEnv issuedHttp) emptyWorld "alice" "secret" ""
        sampleDeviceToken).trace ++ evs ∧
      evs.countP Event.isStatusPoll ≤ 8 ∧
      (∀ p ∈ evs, ∀ q ∈ evs, p.isStatusPoll = true → q.isStatusPoll = true →
        q.time - p.time < 2 * (60 * Second)) ∧
      (∀ e ∈ evs, ∀ machineID, ¬ e.IsContinuationTo (SheriffInquiryURL machineID)) ∧
      (evs.countP Event.isStatusPoll ≠ 0 → verr = .new "sheriff verification timeout") ∧
      Login 25 (sampleEnv issuedHttp) emptyWorld "alice" "secret" "" =
        some (.error (.wrap "sheriff verification failed" verr), w2) ∧
      w2.auth = emptyWorld.auth ∧ NoFileWritten emptyWorld w2 :=
  Login_times_out_while_issued 25 (by decide) (sampleEnv issuedHttp) emptyWorld "alice" "secret"
    "" sampleDeviceToken 403 (some [("verification_workflow", .obj [("id", .str "wf-1")])])
    [("id", .str "wf-1")] rfl rfl rfl rfl rfl (by decide) (fun _ => rfl) issuedHttp_status

/-- The run of `issuedHttp`: eight polls, then the timeout, wrapped by `Login`. -/
theorem Login_issued_scenario :
    (Login 25 (sampleEnv issuedHttp) emptyWorld "alice" "secret" "").map
        (fun r => (r.1, r.2.trace.countP Event.isStatusPoll, r.2.trace.countP Event.isPost,
          r.2.auth)) =
      some (.error (.wrap "sheriff verification failed" (.new "sheriff verification timeout")),
        8, 2, none) := by
  rfl

theorem Login_retries_after_verification_witness :
    ∃ verr w2, handleSheriffVerification 25 (sampleEnv scenarioHttp)
        (afterLoginPost (sampleEnv scenarioHttp) emptyWorld "alice" "secret" "" sampleDeviceToken)
        sampleDeviceToken (GetString [("id", .str "wf-1")] "id") = some (verr, w2) ∧
      (∀ e, verr = some e →
        Login 25 (sampleEnv scenarioHttp) emptyWorld "alice" "secret" "" =
          some (.error (.wrap "sheriff verification failed" e), w2)) ∧
      (verr = none →
        ∃ result w3, Login 25 (sampleEnv scenarioHttp) emptyWorld "alice" "secret" "" =
            some (result, w3) ∧
          w3.trace = w2.trace ++
            [Event.request w2.now (loginPost "alice" "secret" "" sampleDeviceToken)
              ((sampleEnv scenarioHttp).http w2.nreq
                (loginPost "alice" "secret" "" sampleDeviceToken))] ∧
          w3.trace.countP (Event.isRequestTo .POST LoginURL) =
            emptyWorld.trace.countP (Event.isRequestTo .POST LoginURL) + 2 ∧
          match (sampleEnv scenarioHttp).http w2.nreq
              (loginPost "alice" "secret" "" sampleDeviceToken) with
          | .failure err =>
            result = .error (.wrap "login after verification failed" err)
          | .response status2 data2 =>
            (result, w3) = loginClassify (sampleEnv scenarioHttp)
              (roundTrip (sampleEnv scenarioHttp) w2
                (loginPost "alice" "secret" "" sampleDeviceToken)).2
              "alice" sampleDeviceToken (parseResponse status2 data2)) :=
  Login_retries_after_verification 25 (by decide) (sampleEnv scenarioHttp) emptyWorld "alice"
    "secret" "" sampleDeviceToken 403
    (some [("verification_workflow", .obj [("id", .str "wf-1")])]) [("id", .str "wf-1")]
    rfl rfl rfl rfl rfl (by decide)

theorem handleSheriffVerification_success_iff_witness :
    ∃ r w1 evs machineID,
      handleSheriffVerification 25 (sampleEnv scenarioHttp)
        (afterLoginPost (sampleEnv scenarioHttp) emptyWorld "alice" "secret" "" sampleDeviceToken)
        sampleDeviceToken "wf-1" = some (r, w1) ∧
      w1.trace = (afterLoginPost (sampleEnv scenarioHttp) emptyWorld "alice" "secret" ""
        sampleDeviceToken).trace ++ evs ∧
      (∀ e ∈ evs, e.isGet = true →
        e.isStatusPoll = true ∨ e.isRequestTo .GET (SheriffInquiryURL machineID) = true) ∧
      (r = none ↔ ∃ pre p c, evs = pre ++ [p, c] ∧ p.isStatusPollWith "validated" = true ∧
        c.IsContinuationTo (SheriffInquiryURL machineID) ∧ c.approved = true) ∧
      (∀ pre p post, evs = pre ++ p :: post → p.isStatusPollWith "validated" = true →
        ∃ c, post = [c] ∧ c.IsContinuationTo (SheriffInquiryURL machineID) ∧
          (r = none ↔ c.approved = true) ∧
          (c.approved = false →
            r = some (.new "workflow approval failed after validation") ∨
            ∃ e, c.reply? = some (.failure e) ∧
              r = some (.wrap "failed to complete sheriff verification" e))) :=
  handleSheriffVerification_success_iff 25 (by decide) (sampleEnv scenarioHttp)
    (afterLoginPost (sampleEnv scenarioHttp) emptyWorld "alice" "secret" "" sampleDeviceToken)
    sampleDeviceToken "wf-1"

/-- The verification scenario end to end: status `issued` once, then `validated`,
the continuation approved; `Login` succeeds with the tokens of the retried POST,
having sent two login POSTs, and the verification itself returns success with a
validated poll and an approved continuation as its last two actions. -/
theorem Login_verification_scenario :
    (Login 25 (sampleEnv scenarioHttp) emptyWorld "alice" "secret" "").map
        (fun r => (r.1, r.2.trace.countP (Event.isRequestTo .POST LoginURL),
          r.2.trace.map (fun e => (e.isStatusPollWith "validated", e.approved)))) =
      some (.ok { AccessToken := "acc-1"
                  RefreshToken := "ref-1"
                  TokenType := "Bearer"
                  DeviceToken := sampleDeviceToken
                  ExpiresIn := 86400
                  IssuedAt := 63900000015007000000 },
        2, [(false, false), (false, false), (false, false), (false, false), (false, false),
          (true, false), (false, true), (false, false)]) := by
  rfl

/-- When the first half of `Login` returns an error, the client's credential is the
one it had before the call and no file has been created or overwritten. -/
theorem loginRequest_returned_error_frame (fuel : Nat) (env : Env) (w : World)
    (username password mfaCode : String) (e : GoError) (w1 : World)
    (h : loginRequest fuel env w username password mfaCode = some (.returned (.error e) w1)) :
    w1.auth = w.auth ∧ NoFileWritten w w1 := by
  have hfr := tryLoadStoredToken_frame env w username
  rcases hl : tryLoadStoredToken env w username with ⟨tok, w0⟩
  rw [hl] at hfr
  simp only at hfr
  obtain ⟨ha0, _, _, _, _, hn0⟩ := hfr
  cases tok with
  | some token =>
    unfold loginRequest at h
    rw [hl] at h
    simp at h
  | none =>
    cases hd : generateDeviceToken env with
    | error e1 =>
      unfold loginRequest at h
      rw [hl] at h
      simp only [hd, Option.some.injEq, LoginStage.returned.injEq] at h
      rw [← h.2]
      exact ⟨ha0, hn0⟩
    | ok d =>
      rw [loginRequest_fresh fuel env w username password mfaCode d (by rw [hl]) hd, hl] at h
      simp only at h
      have hf1 := Post_frame env w0 LoginURL (loginPayload username password mfaCode d)
      split at h
      · rename_i err w2 hp1
        rw [hp1] at hf1
        simp only [Option.some.injEq, LoginStage.returned.injEq] at h
        rw [← h.2]
        exact ⟨hf1.2.1.trans ha0, NoFileWritten_trans hn0 (NoFileWritten_of_files_eq hf1.1)⟩
      · rename_i resp1 w2 hp1
        rw [hp1] at hf1
        simp only at hf1
        split at h
        · split at h
          · simp at h
          · rename_i err w3 hv
            obtain ⟨hvf, hva, _, _⟩ := handleSheriffVerification_shape fuel env w2 d _ _ w3 hv
            simp only [Option.some.injEq, LoginStage.returned.injEq] at h
            rw [← h.2]
            exact ⟨hva.trans (hf1.2.1.trans ha0),
              NoFileWritten_trans hn0 (NoFileWritten_of_files_eq (by rw [hvf, hf1.1]))⟩
          · rename_i w3 hv
            obtain ⟨hvf, hva, _, _⟩ := handleSheriffVerification_shape fuel env w2 d _ _ w3 hv
            have hf2 := Post_frame env w3 LoginURL (loginPayload username password mfaCode d)
            split at h
            · rename_i err w4 hp2
              rw [hp2] at hf2
              simp only [Option.some.injEq, LoginStage.returned.injEq] at h
              rw [← h.2]
              exact ⟨hf2.2.1.trans (hva.trans (hf1.2.1.trans ha0)),
                NoFileWritten_trans hn0 (NoFileWritten_of_files_eq (by rw [hf2.1, hvf, hf1.1]))⟩
            · simp at h
        · simp at h

/-- Every error path of `Login` but one leaves the client's credential as it was and
creates or overwrites no file.  The exception is the failed save: there the tokens
of the final response have passed all checks and `saveToken` has returned an error,
after `SetAuth`. -/
theorem Login_error_paths (fuel : Nat) (env : Env) (w : World)
    (username password mfaCode : String) (e : GoError) (w1 : World)
    (h : Login fuel env w username password mfaCode = some (.error e, w1)) :
    (w1.auth = w.auth ∧ NoFileWritten w w1) ∨
    ∃ deviceToken resp w2 inner,
      loginRequest fuel env w username password mfaCode =
        some (.classify deviceToken resp w2) ∧
      GetStringD resp.Data "access_token" ≠ "" ∧
      e = .wrap "failed to save token" inner := by
  unfold Login at h
  split at h
  · simp at h
  · rename_i result w2 hreq
    simp only [Option.some.injEq, Prod.mk.injEq] at h
    obtain ⟨hres, hw⟩ := h
    subst hres hw
    exact Or.inl (loginRequest_returned_error_frame fuel env w username password mfaCode e _ hreq)
  · rename_i d resp w2 hreq
    simp only [Option.some.injEq] at h
    obtain ⟨_, _, ha, hn, _⟩ :=
      loginRequest_classify fuel env w username password mfaCode d resp w2 hreq
    have same : ∀ (x : Except GoError Auth), (x, w2) = (Except.error e, w1) →
        w1.auth = w.auth ∧ NoFileWritten w w1 := by
      intro x hx
      simp only [Prod.mk.injEq] at hx
      rw [← hx.2]
      exact ⟨ha, hn⟩
    unfold loginClassify at h
    split at h
    · exact Or.inl (same _ h)
    · split at h
      · exact Or.inl (same _ h)
      · split at h
        · split at h <;> exact Or.inl (same _ h)
        · simp only at h
          split at h
          · exact Or.inl (same _ h)
          · rename_i htok
            split at h
            · rename_i err a1 w3 _
              simp only [Prod.mk.injEq, Except.error.injEq] at h
              exact Or.inr ⟨d, resp, w2, err, hreq, htok, h.1.symm⟩
            · simp at h

/-! ## Expiry -/

theorem wrapInt64_of_range (x : Int) (h1 : -(2 ^ 63) ≤ x) (h2 : x < 2 ^ 63) :
    wrapInt64 x = x := by
  unfold wrapInt64
  rw [Int.emod_eq_of_lt (by omega) (by omega)]
  omega

/-- C11 (amended): for every credential with nonzero `ExpiresIn` whose `ExpiresIn`
seconds fit a 64-bit count of nanoseconds, and every current time `now`,
`IsExpired` is true if and only if `now` is strictly later than
`IssuedAt + ExpiresIn` seconds; at the instant `IssuedAt + ExpiresIn` itself the
credential is not yet expired. -/
theorem IsExpired_iff_strictly_after (a : Auth) (now : Int)
    (hNonzero : a.ExpiresIn ≠ 0)
    (hLow : -(2 ^ 63) ≤ a.ExpiresIn * Second) (hHigh : a.ExpiresIn * Second < 2 ^ 63) :
    (a.IsExpired now = true ↔ a.IssuedAt + a.ExpiresIn * Second < now) ∧
    a.IsExpired (a.IssuedAt + a.ExpiresIn * Second) = false := by
  unfold Auth.IsExpired
  simp only [hNonzero, if_false, wrapInt64_of_range _ hLow hHigh, decide_eq_true_eq,
    decide_eq_false_iff_not, lt_self_iff_false, not_false_eq_true, and_self]

theorem IsExpired_iff_strictly_after_witness :
    (storedToken.IsExpired 63900000000000000000 = true ↔
      storedToken.IssuedAt + storedToken.ExpiresIn * Second < 63900000000000000000) ∧
    storedToken.IsExpired (storedToken.IssuedAt + storedToken.ExpiresIn * Second) = false :=
  IsExpired_iff_strictly_after storedToken 63900000000000000000 (by decide) (by decide)
    (by decide)

/-- C11 (as stated) fails: at the exact instant `IssuedAt + ExpiresIn` seconds the
credential with `ExpiresIn = 1` is reported as not expired. -/
theorem IsExpired_false_at_expiry_instant :
    oneSecondToken.ExpiresIn ≠ 0 ∧
    oneSecondToken.IssuedAt + oneSecondToken.ExpiresIn * Second ≤ 63900000001000000000 ∧
    oneSecondToken.IsExpired 63900000001000000000 = false := by
  decide

/-- C12 (code defect): for `ExpiresIn = 9223372037` the `int64` product
`ExpiresIn * time.Second` wraps to a negative duration, so one nanosecond after it
was issued the credential is reported expired although `now` is not later than
`IssuedAt + ExpiresIn` seconds. -/
theorem IsExpired_wraps_for_large_expiry :
    centuriesToken.ExpiresIn * Second ≥ 2 ^ 63 ∧
    wrapInt64 (centuriesToken.ExpiresIn * Second) = -9223372036709551616 ∧
    ¬ (centuriesToken.IssuedAt + centuriesToken.ExpiresIn * Second <
      centuriesToken.IssuedAt + 1) ∧
    centuriesToken.IsExpired (centuriesToken.IssuedAt + 1) = true := by
  decide

/-! ## The credential store -/

/-- C13 (amended): when `saveToken` succeeds for an identity and a credential,
whatever was stored for the identity before, the saved credential equals the given
one in access token, refresh token, token type, device token and expires-in, and its
issued-at is the given one when that was set and the time of the save when it was
unset.  A later `tryLoadStoredToken` of the identity that finds the saved file
returns that credential if it is not expired at the time of the load, and returns
absent if it is. -/
theorem saveToken_then_load (env : Env) (w : World) (username : String) (cred a : Auth)
    (w1 w2 : World)
    (hSave : saveToken env w username cred = ((none, a), w1))
    (hFile : w2.files (getTokenFilePath env username) =
      w1.files (getTokenFilePath env username)) :
    a.AccessToken = cred.AccessToken ∧ a.RefreshToken = cred.RefreshToken ∧
    a.TokenType = cred.TokenType ∧ a.DeviceToken = cred.DeviceToken ∧
    a.ExpiresIn = cred.ExpiresIn ∧
    (cred.IssuedAt ≠ 0 → a.IssuedAt = cred.IssuedAt) ∧
    (cred.IssuedAt = 0 → a.IssuedAt = w.now) ∧
    (a.IsExpired w2.now = false → tryLoadStoredToken env w2 username = (some a, w2)) ∧
    (a.IsExpired w2.now = true → (tryLoadStoredToken env w2 username).1 = none) := by
  obtain ⟨hp, hval, hfile, _, _⟩ := saveToken_ok_inv env w username cred a w1 hSave
  have htok := saveToken_token env w username cred
  rw [hSave] at htok
  simp only at htok
  obtain ⟨h1, h2, h3, h4, h5⟩ := htok
  rw [← hFile] at hfile
  refine ⟨h1, h2, h3, h4, h5, ?_, ?_, ?_, ?_⟩
  · intro h0
    rw [hval, if_neg h0]
  · intro h0
    rw [hval, if_pos h0]
  · intro hne
    unfold tryLoadStoredToken
    simp [hp, hfile, hne]
  · intro hex
    unfold tryLoadStoredToken
    simp [hp, hfile, hex]

theorem saveToken_then_load_witness :
    storedToken.AccessToken = storedToken.AccessToken ∧
    storedToken.RefreshToken = storedToken.RefreshToken ∧
    storedToken.TokenType = storedToken.TokenType ∧
    storedToken.DeviceToken = storedToken.DeviceToken ∧
    storedToken.ExpiresIn = storedToken.ExpiresIn ∧
    (storedToken.IssuedAt ≠ 0 → storedToken.IssuedAt = storedToken.IssuedAt) ∧
    (storedToken.IssuedAt = 0 → storedToken.IssuedAt = emptyWorld.now) ∧
    (storedToken.IsExpired storedWorld.now = false →
      tryLoadStoredToken (sampleEnv tokenHttp) storedWorld "alice" =
        (some storedToken, storedWorld)) ∧
    (storedToken.IsExpired storedWorld.now = true →
      (tryLoadStoredToken (sampleEnv tokenHttp) storedWorld "alice").1 = none) :=
  saveToken_then_load (sampleEnv tokenHttp) emptyWorld "alice" storedToken storedToken
    (saveToken (sampleEnv tokenHttp) emptyWorld "alice" storedToken).2 storedWorld rfl
    (by decide)

/-- C13 (as stated) fails: saving a credential that lived one second and was issued
two seconds ago succeeds, but the load that follows returns absent. -/
theorem saveToken_then_load_expired :
    ∃ a w1, saveToken (sampleEnv tokenHttp) staleWorld "alice" oneSecondToken =
        ((none, a), w1) ∧
      (tryLoadStoredToken (sampleEnv tokenHttp) w1 "alice").1 = none :=
  ⟨_, _, rfl, by decide⟩

/-- C14 (amended): for an identity whose persisted credential is expired at load
time, `tryLoadStoredToken` returns absent and every other path of the store is
unchanged, so the files of all identities that resolve to another path are
unchanged; if the removal of the file succeeds (its error is ignored), no file is
left at the identity's path.  For a persisted credential that is not expired the
load returns it and leaves the world, the file included, as it is. -/
theorem tryLoadStoredToken_expired_removes (env : Env) (w : World) (username : String)
    (token : Auth)
    (hHome : env.HOME ≠ "")
    (hFile : w.files (getTokenFilePath env username) =
      some { readable := true, data := .json token }) :
    (token.IsExpired w.now = true →
      (tryLoadStoredToken env w username).1 = none ∧
      (env.removeOk (getTokenFilePath env username) = true →
        (tryLoadStoredToken env w username).2.files (getTokenFilePath env username) = none) ∧
      (∀ p, p ≠ getTokenFilePath env username →
        (tryLoadStoredToken env w username).2.files p = w.files p) ∧
      (∀ other, getTokenFilePath env other ≠ getTokenFilePath env username →
        (tryLoadStoredToken env w username).2.files (getTokenFilePath env other) =
          w.files (getTokenFilePath env other))) ∧
    (token.IsExpired w.now = false →
      tryLoadStoredToken env w username = (some token, w)) := by
  have hp := getTokenFilePath_ne_empty env username hHome
  constructor
  · intro hex
    have hload : tryLoadStoredToken env w username =
        (none, removeFile env w (getTokenFilePath env username)) := by
      unfold tryLoadStoredToken
      simp [hp, hFile, hex]
    rw [hload]
    have hother : ∀ p, p ≠ getTokenFilePath env username →
        (removeFile env w (getTokenFilePath env username)).files p = w.files p := by
      intro p hne
      unfold removeFile
      split
      · simp [hne]
      · rfl
    refine ⟨rfl, ?_, hother, fun other hne => hother _ hne⟩
    intro hrm
    unfold removeFile
    simp [hrm]
  · intro hne
    exact tryLoadStoredToken_hit env w username token hHome hFile hne

theorem tryLoadStoredToken_expired_removes_witness :
    (oneSecondToken.IsExpired staleWorld.now = true →
      (tryLoadStoredToken offlineEnv staleWorld "alice").1 = none ∧
      (offlineEnv.removeOk (getTokenFilePath offlineEnv "alice") = true →
        (tryLoadStoredToken offlineEnv staleWorld "alice").2.files
          (getTokenFilePath offlineEnv "alice") = none) ∧
      (∀ p, p ≠ getTokenFilePath offlineEnv "alice" →
        (tryLoadStoredToken offlineEnv staleWorld "alice").2.files p = staleWorld.files p) ∧
      (∀ other, getTokenFilePath offlineEnv other ≠ getTokenFilePath offlineEnv "alice" →
        (tryLoadStoredToken offlineEnv staleWorld "alice").2.files
          (getTokenFilePath offlineEnv other) =
          staleWorld.files (getTokenFilePath offlineEnv other))) ∧
    (oneSecondToken.IsExpired staleWorld.now = false →
      tryLoadStoredToken offlineEnv staleWorld "alice" = (some oneSecondToken, staleWorld)) :=
  tryLoadStoredToken_expired_removes offlineEnv staleWorld "alice" oneSecondToken
    (by decide) (by decide)

/-- C14 (as stated) fails: the persisted credential of `alice` is expired at load
time and the load returns absent, but `os.Remove` fails, its error is ignored, and
the file is still there afterwards. -/
theorem tryLoadStoredToken_expired_file_remains :
    oneSecondToken.IsExpired staleWorld.now = true ∧
    (tryLoadStoredToken stickyEnv staleWorld "alice").1 = none ∧
    (tryLoadStoredToken stickyEnv staleWorld "alice").2.files
        (getTokenFilePath stickyEnv "alice") =
      some { readable := true, data := .json oneSecondToken } := by
  decide

/-! ## Login returns, and what follows an unusable token file -/

theorem loginRequest_total (fuel : Nat) (hfuel : 25 ≤ fuel) (env : Env) (w : World)
    (username password mfaCode : String) :
    ∃ s, loginRequest fuel env w username password mfaCode = some s := by
  unfold loginRequest
  split
  · exact ⟨_, rfl⟩
  · split
    · exact ⟨_, rfl⟩
    · simp only
      split
      · exact ⟨_, rfl⟩
      · rename_i deviceToken _ _ resp w1 _
        split
        · obtain ⟨⟨verr, w2⟩, hv⟩ := handleSheriffVerification_total fuel hfuel env w1
            deviceToken (workflowIDOf resp)
          rw [hv]
          cases verr with
          | some e => exact ⟨_, rfl⟩
          | none =>
            simp only
            split <;> exact ⟨_, rfl⟩
        · exact ⟨_, rfl⟩

/-- With an iteration budget of 25 or more, `Login` returns. -/
theorem Login_total (fuel : Nat) (hfuel : 25 ≤ fuel) (env : Env) (w : World)
    (username password mfaCode : String) :
    ∃ result w1, Login fuel env w username password mfaCode = some (result, w1) := by
  obtain ⟨s, hs⟩ := loginRequest_total fuel hfuel env w username password mfaCode
  unfold Login
  rw [hs]
  cases s with
  | returned result w1 => exact ⟨result, w1, rfl⟩
  | classify d resp w1 => exact ⟨_, _, rfl⟩

theorem Post_trace_extends (env : Env) (w : World) (url : String) (body : Value) :
    ∃ evs, (Post env w url body false).2.trace = w.trace ++ evs := by
  rcases doRequest_trace env w .POST url (some body) with h | h
  · exact ⟨[], by simpa [Post] using h⟩
  · exact ⟨_, h⟩

/-- In a fresh login whose login request can be created, the first action is the
login POST carrying the generated device token; everything else comes after it. -/
theorem Login_fresh_first_action (fuel : Nat) (env : Env) (w : World)
    (username password mfaCode deviceToken : String) (result : Except GoError Auth)
    (w1 : World)
    (hFresh : tryLoadStoredToken env w username = (none, w))
    (hDev : generateDeviceToken env = .ok deviceToken)
    (hUrl : env.urlError LoginURL = none)
    (h : Login fuel env w username password mfaCode = some (result, w1)) :
    ∃ rest, w1.trace = w.trace ++
      Event.request w.now (loginPost username password mfaCode deviceToken)
        (env.http w.nreq (loginPost username password mfaCode deviceToken)) :: rest := by
  have hfr : (tryLoadStoredToken env w username).1 = none := by rw [hFresh]
  have hreq := loginRequest_fresh fuel env w username password mfaCode deviceToken hfr hDev
  rw [hFresh, Post_of_reply env w LoginURL _ hUrl] at hreq
  have hW : (roundTrip env w ⟨.POST, LoginURL,
      some (loginPayload username password mfaCode deviceToken), none⟩).2.trace =
      w.trace ++ [Event.request w.now (loginPost username password mfaCode deviceToken)
        (env.http w.nreq (loginPost username password mfaCode deviceToken))] := rfl
  have fin : ∀ (w2 : World) (evs : List Event),
      w2.trace = (roundTrip env w ⟨.POST, LoginURL,
        some (loginPayload username password mfaCode deviceToken), none⟩).2.trace ++ evs →
      ∃ rest, w2.trace = w.trace ++
        Event.request w.now (loginPost username password mfaCode deviceToken)
          (env.http w.nreq (loginPost username password mfaCode deviceToken)) :: rest := by
    intro w2 evs ht
    exact ⟨evs, by rw [ht, hW]; simp⟩
  unfold Login at h
  rw [hreq] at h
  cases hrep : env.http w.nreq ⟨.POST, LoginURL,
      some (loginPayload username password mfaCode deviceToken), none⟩ with
  | failure e =>
    rw [hrep] at h
    simp only [Option.some.injEq, Prod.mk.injEq] at h
    exact fin w1 [] (by rw [← h.2]; simp)
  | response status data =>
    rw [hrep] at h
    simp only at h
    split at h
    · simp at h
    · rename_i res w2 hst
      simp only [Option.some.injEq, Prod.mk.injEq] at h
      rw [← h.2]
      split at hst
      · split at hst
        · simp at hst
        · rename_i err w3 hv
          obtain ⟨_, _, _, start, rest, _, ht, _, _⟩ :=
            handleSheriffVerification_shape fuel env _ _ _ _ _ hv
          simp only [Option.some.injEq, LoginStage.returned.injEq] at hst
          rw [← hst.2]
          exact fin w3 (start ++ rest) (by rw [ht, List.append_assoc])
        · rename_i w3 hv
          obtain ⟨_, _, _, start, rest, _, ht, _, _⟩ :=
            handleSheriffVerification_shape fuel env _ _ _ _ _ hv
          obtain ⟨evs, hpt⟩ := Post_trace_extends env w3 LoginURL
            (loginPayload username password mfaCode deviceToken)
          split at hst
          · rename_i err w4 hp
            rw [hp] at hpt
            simp only [Option.some.injEq, LoginStage.returned.injEq] at hst
            rw [← hst.2]
            exact fin w4 (start ++ rest ++ evs) (by rw [hpt, ht]; simp)
          · simp at hst
      · simp at hst
    · rename_i d resp w2 hst
      simp only [Option.some.injEq] at h
      have hct := (loginClassify_frame env w2 username d resp).1
      rw [h] at hct
      simp only at hct
      split at hst
      · split at hst
        · simp at hst
        · simp at hst
        · rename_i w3 hv
          obtain ⟨_, _, _, start, rest, _, ht, _, _⟩ :=
            handleSheriffVerification_shape fuel env _ _ _ _ _ hv
          obtain ⟨evs, hpt⟩ := Post_trace_extends env w3 LoginURL
            (loginPayload username password mfaCode deviceToken)
          split at hst
          · simp at hst
          · rename_i resp2 w4 hp
            rw [hp] at hpt
            simp only [Option.some.injEq, LoginStage.classify.injEq] at hst
            obtain ⟨_, _, hw⟩ := hst
            exact fin w1 (start ++ rest ++ evs) (by rw [hct, ← hw, hpt, ht]; simp)
      · simp only [Option.some.injEq, LoginStage.classify.injEq] at hst
        obtain ⟨_, _, hw⟩ := hst
        exact fin w1 [] (by rw [hct, ← hw]; simp)

/-- C15: for an identity whose credential file is missing, unreadable, or does not
decode as a credential, `tryLoadStoredToken` returns absent and changes nothing (it
has no error to report), and `Login` falls through to a fresh login: it returns, it
fails with the device-token error exactly if the random source fails, and otherwise
its first action is the login POST to the token endpoint carrying the freshly
generated device token. -/
theorem Login_falls_through_on_unusable_file (fuel : Nat) (hfuel : 25 ≤ fuel) (env : Env)
    (w : World) (username password mfaCode : String)
    (hBad : w.files (getTokenFilePath env username) = none ∨
      ∃ f, w.files (getTokenFilePath env username) = some f ∧
        (f.readable = false ∨ f.data = .garbage)) :
    tryLoadStoredToken env w username = (none, w) ∧
    (∃ result w1, Login fuel env w username password mfaCode = some (result, w1)) ∧
    (∀ e, env.randError = some e →
      Login fuel env w username password mfaCode =
        some (.error (.wrap "generate device token" e), w)) ∧
    (env.randError = none → env.urlError LoginURL = none →
      ∀ result w1, Login fuel env w username password mfaCode = some (result, w1) →
      ∃ rest, w1.trace = w.trace ++
        Event.request w.now
          (loginPost username password mfaCode (formatDeviceToken (randomBytes env)))
          (env.http w.nreq
            (loginPost username password mfaCode (formatDeviceToken (randomBytes env)))) ::
          rest) := by
  have hload : tryLoadStoredToken env w username = (none, w) := by
    unfold tryLoadStoredToken
    simp only
    split
    · rfl
    · rcases hBad with h | ⟨f, hf, hr | hg⟩
      · rw [h]
      · rw [hf]
        simp [hr]
      · rw [hf]
        simp only
        split
        · rfl
        · rw [hg]
  refine ⟨hload, Login_total fuel hfuel env w username password mfaCode, ?_, ?_⟩
  · intro e he
    unfold Login loginRequest
    rw [hload]
    simp [generateDeviceToken, he]
  · intro hr hUrl result w1 h
    exact Login_fresh_first_action fuel env w username password mfaCode _ result w1 hload
      (by simp [generateDeviceToken, hr]) hUrl h

theorem Login_falls_through_on_unusable_file_witness :
    tryLoadStoredToken (sampleEnv tokenHttp) garbledWorld "alice" = (none, garbledWorld) ∧
    (∃ result w1, Login 25 (sampleEnv tokenHttp) garbledWorld "alice" "secret" "" =
      some (result, w1)) ∧
    (∀ e, (sampleEnv tokenHttp).randError = some e →
      Login 25 (sampleEnv tokenHttp) garbledWorld "alice" "secret" "" =
        some (.error (.wrap "generate device token" e), garbledWorld)) ∧
    ((sampleEnv tokenHttp).randError = none → (sampleEnv tokenHttp).urlError LoginURL = none →
      ∀ result w1, Login 25 (sampleEnv tokenHttp) garbledWorld "alice" "secret" "" =
        some (result, w1) →
      ∃ rest, w1.trace = garbledWorld.trace ++
        Event.request garbledWorld.now
          (loginPost "alice" "secret" "" (formatDeviceToken (randomBytes (sampleEnv tokenHttp))))
          ((sampleEnv tokenHttp).http garbledWorld.nreq
            (loginPost "alice" "secret" ""
              (formatDeviceToken (randomBytes (sampleEnv tokenHttp))))) :: rest) :=
  Login_falls_through_on_unusable_file 25 (by decide) (sampleEnv tokenHttp) garbledWorld
    "alice" "secret" "" (Or.inr ⟨_, rfl, Or.inr rfl⟩)

/-! ## Logout -/

theorem removeFile_removeFile (env : Env) (w : World) (filePath : String) :
    removeFile env (removeFile env w filePath) filePath = removeFile env w filePath := by
  unfold removeFile
  cases h : env.removeOk filePath with
  | true =>
    simp only [if_true]
    congr 1
    funext p
    by_cases hp : p = filePath <;> simp [hp]
  | false => simp

/-- C16 (amended): for every identity and every store state, after `Logout` the
client has no credential, so `IsAuthenticated` is false, and nothing has been sent;
every path of the store other than the identity's is unchanged, so the files of all
identities that resolve to another path are unchanged; if the home directory is
known and the removal succeeds (its error is ignored), the store holds no file at
the identity's path; when no file existed the store is unchanged; and a second
`Logout` changes nothing further. -/
theorem Logout_effects (env : Env) (w : World) (username : String) :
    IsAuthenticated (Logout env w username) = false ∧
    (Logout env w username).auth = none ∧
    (Logout env w username).trace = w.trace ∧
    (getTokenFilePath env username ≠ "" →
      env.removeOk (getTokenFilePath env username) = true →
      (Logout env w username).files (getTokenFilePath env username) = none) ∧
    (∀ p, p ≠ getTokenFilePath env username → (Logout env w username).files p = w.files p) ∧
    (∀ other, getTokenFilePath env other ≠ getTokenFilePath env username →
      (Logout env w username).files (getTokenFilePath env other) =
        w.files (getTokenFilePath env other)) ∧
    (w.files (getTokenFilePath env username) = none →
      (Logout env w username).files = w.files) ∧
    Logout env (Logout env w username) username = Logout env w username := by
  have hother : ∀ p, p ≠ getTokenFilePath env username →
      (Logout env w username).files p = w.files p := by
    intro p hne
    unfold Logout SetAuth deleteToken removeFile
    simp only
    split
    · split
      · simp [hne]
      · rfl
    · rfl
  refine ⟨rfl, rfl, ?_, ?_, hother, fun other hne => hother _ hne, ?_, ?_⟩
  · unfold Logout SetAuth deleteToken removeFile
    simp only
    split
    · split <;> rfl
    · rfl
  · intro hp hrm
    unfold Logout SetAuth deleteToken removeFile
    simp [hp, hrm]
  · intro hnone
    funext p
    by_cases hp : p = getTokenFilePath env username
    · rw [hp, hnone]
      unfold Logout SetAuth deleteToken removeFile
      simp only
      split
      · split
        · show (if getTokenFilePath env username = getTokenFilePath env username then none
            else w.files (getTokenFilePath env username)) = none
          rw [if_pos rfl]
        · exact hnone
      · exact hnone
    · exact hother p hp
  · unfold Logout SetAuth deleteToken removeFile
    by_cases hp : getTokenFilePath env username = ""
    · simp [hp]
    · cases hr : env.removeOk (getTokenFilePath env username) with
      | false => simp [hp, hr]
      | true =>
        simp only [ne_eq, hp, not_false_eq_true, if_true, hr, World.mk.injEq, and_true, true_and]
        funext p
        by_cases hq : p = getTokenFilePath env username <;> simp [hq]

theorem Logout_effects_witness :
    IsAuthenticated (Logout offlineEnv storedWorld "alice") = false ∧
    (Logout offlineEnv storedWorld "alice").auth = none ∧
    (Logout offlineEnv storedWorld "alice").trace = storedWorld.trace ∧
    (getTokenFilePath offlineEnv "alice" ≠ "" →
      offlineEnv.removeOk (getTokenFilePath offlineEnv "alice") = true →
      (Logout offlineEnv storedWorld "alice").files (getTokenFilePath offlineEnv "alice") =
        none) ∧
    (∀ p, p ≠ getTokenFilePath offlineEnv "alice" →
      (Logout offlineEnv storedWorld "alice").files p = storedWorld.files p) ∧
    (∀ other, getTokenFilePath offlineEnv other ≠ getTokenFilePath offlineEnv "alice" →
      (Logout offlineEnv storedWorld "alice").files (getTokenFilePath offlineEnv other) =
        storedWorld.files (getTokenFilePath offlineEnv other)) ∧
    (storedWorld.files (getTokenFilePath offlineEnv "alice") = none →
      (Logout offlineEnv storedWorld "alice").files = storedWorld.files) ∧
    Logout offlineEnv (Logout offlineEnv storedWorld "alice") "alice" =
      Logout offlineEnv storedWorld "alice" :=
  Logout_effects offlineEnv storedWorld "alice"

/-- C16 (as stated) fails: `os.Remove` fails, `deleteToken` ignores the error, and
after `Logout` the store still holds the file of the identity. -/
theorem Logout_file_remains :
    IsAuthenticated (Logout stickyEnv storedWorld "alice") = false ∧
    (Logout stickyEnv storedWorld "alice").files (getTokenFilePath stickyEnv "alice") =
      some { readable := true, data := .json storedToken } := by
  decide

/-! ## The device token -/

theorem hexDigit_isLowerHex : ∀ n : Fin 16, isLowerHex (hexDigit n.val) = true := by
  decide

theorem hexChars_length (bs : List Nat) : (hexChars bs).length = 2 * bs.length := by
  induction bs with
  | nil => rfl
  | cons b bs ih =>
    simp only [hexChars, List.length_cons, ih]
    omega

theorem hexChars_isLowerHex (bs : List Nat) : ∀ c ∈ hexChars bs, isLowerHex c = true := by
  induction bs with
  | nil => intro c hc; simp [hexChars] at hc
  | cons b bs ih =>
    intro c hc
    simp only [hexChars, List.mem_cons] at hc
    rcases hc with h | h | h
    · rw [h]
      exact hexDigit_isLowerHex ⟨b / 16 % 16, Nat.mod_lt _ (by decide)⟩
    · rw [h]
      exact hexDigit_isLowerHex ⟨b % 16, Nat.mod_lt _ (by decide)⟩
    · exact ih c h

theorem randomBytes_length (env : Env) : (randomBytes env).length = 16 := by
  simp [randomBytes]

theorem randomBytes_congr (env env2 : Env)
    (h : ∀ i, i < 16 → env.randByte i % 256 = env2.randByte i % 256) :
    randomBytes env2 = randomBytes env := by
  unfold randomBytes
  apply List.map_congr_left
  intro i hi
  rw [List.mem_range] at hi
  exact (h i hi).symm

/-- C18: `generateDeviceToken` returns an error exactly when the random source
fails, and it is that error.  Otherwise the token is `formatDeviceToken` of the 16
bytes drawn, and nothing else: five groups of 8, 4, 4, 4 and 12 characters separated
by hyphens, 36 characters in all, every character of a group a lowercase hexadecimal
digit; two environments that deliver the same 16 bytes yield the same token. -/
theorem generateDeviceToken_shape (env : Env) :
    (∀ e, generateDeviceToken env = .error e ↔ env.randError = some e) ∧
    (env.randError = none →
      generateDeviceToken env = .ok (formatDeviceToken (randomBytes env)) ∧
      ∃ g1 g2 g3 g4 g5 : List Char,
        formatDeviceToken (randomBytes env) =
          String.mk (g1 ++ '-' :: g2 ++ '-' :: g3 ++ '-' :: g4 ++ '-' :: g5) ∧
        g1.length = 8 ∧ g2.length = 4 ∧ g3.length = 4 ∧ g4.length = 4 ∧ g5.length = 12 ∧
        (∀ c ∈ g1 ++ g2 ++ g3 ++ g4 ++ g5, isLowerHex c = true) ∧
        (formatDeviceToken (randomBytes env)).length = 36) ∧
    (∀ env2 : Env, env.randError = none → env2.randError = none →
      (∀ i, i < 16 → env.randByte i % 256 = env2.randByte i % 256) →
      generateDeviceToken env2 = generateDeviceToken env) := by
  have hlen := randomBytes_length env
  refine ⟨?_, ?_, ?_⟩
  · intro e
    unfold generateDeviceToken
    cases env.randError with
    | none => simp
    | some e1 => simp
  · intro hr
    refine ⟨by simp [generateDeviceToken, hr], ?_⟩
    refine ⟨hexChars ((randomBytes env).take 4), hexChars (((randomBytes env).drop 4).take 2),
      hexChars (((randomBytes env).drop 6).take 2), hexChars (((randomBytes env).drop 8).take 2),
      hexChars (((randomBytes env).drop 10).take 6), rfl, ?_, ?_, ?_, ?_, ?_, ?_, ?_⟩
    · rw [hexChars_length, List.length_take, hlen]; rfl
    · rw [hexChars_length, List.length_take, List.length_drop, hlen]; rfl
    · rw [hexChars_length, List.length_take, List.length_drop, hlen]; rfl
    · rw [hexChars_length, List.length_take, List.length_drop, hlen]; rfl
    · rw [hexChars_length, List.length_take, List.length_drop, hlen]; rfl
    · intro c hc
      simp only [List.mem_append] at hc
      rcases hc with (((h | h) | h) | h) | h <;> exact hexChars_isLowerHex _ c h
    · unfold formatDeviceToken
      simp only [String.length, List.length_append, List.length_cons, hexChars_length,
        List.length_take, List.length_drop, hlen]
      rfl
  · intro env2 h1 h2 hb
    simp only [generateDeviceToken, h1, h2, randomBytes_congr env env2 hb]

theorem generateDeviceToken_shape_witness :
    generateDeviceToken (sampleEnv tokenHttp) = .ok (formatDeviceToken
        (randomBytes (sampleEnv tokenHttp))) ∧
    ∃ g1 g2 g3 g4 g5 : List Char,
      formatDeviceToken (randomBytes (sampleEnv tokenHttp)) =
        String.mk (g1 ++ '-' :: g2 ++ '-' :: g3 ++ '-' :: g4 ++ '-' :: g5) ∧
      g1.length = 8 ∧ g2.length = 4 ∧ g3.length = 4 ∧ g4.length = 4 ∧ g5.length = 12 ∧
      (∀ c ∈ g1 ++ g2 ++ g3 ++ g4 ++ g5, isLowerHex c = true) ∧
      (formatDeviceToken (randomBytes (sampleEnv tokenHttp))).length = 36 :=
  (generateDeviceToken_shape (sampleEnv tokenHttp)).2.1 rfl

/-- The token drawn in `sampleEnv` and the failure of `offlineEnv`. -/
theorem generateDeviceToken_examples :
    generateDeviceToken (sampleEnv tokenHttp) = .ok "00010203-0405-0607-0809-0a0b0c0d0e0f" ∧
    generateDeviceToken offlineEnv = .error (.new "entropy source unavailable") :=
  ⟨rfl, rfl⟩

/-! ## Authenticated requests -/

/-- With a body that marshals, the full `doRequest` is `doRequest`; `Post` of a body
that may fail to marshal and `Get` with parameters are instances of it. -/
theorem doRequestWithMarshal_instances (env : Env) (w : World) (url : String) (a : Bool) :
    (∀ (method : Method) (body : Option Value),
      doRequestWithMarshal env w method url (body.map Except.ok) a =
        doRequest env w method url body a) ∧
    (∀ payload : Body, PostBody env w url payload a =
      doRequestWithMarshal env w .POST url (some payload.marshal) a) ∧
    (∀ params, GetWith env w url params a =
      doRequestWithMarshal env w .GET (BuildURL url params) none a) := by
  refine ⟨?_, ?_, ?_⟩
  · intro method body
    cases body <;> rfl
  · intro payload
    unfold PostBody doRequestWithMarshal Post
    cases payload.marshal <;> rfl
  · intro params
    rfl

/-- C19 (amended): `IsAuthenticated` is true exactly when a credential is set and its
access token is non-empty.  On a client that is not authenticated, a request issued
with `authenticated = true` sends nothing, whatever the method, the URL and the body,
also a body that does not marshal.  For every URL that `http.NewRequestWithContext`
accepts and every body that `json.Marshal` accepts (a nil body included) it returns
`ErrNotAuthenticated`, through `doRequest`, `Get` without and with parameters and
`Post` alike; for a body that does not marshal it returns the wrapped marshal
error. -/
theorem doRequest_requires_authentication (env : Env) (w : World) (method : Method)
    (url : String) (body : Option Value) :
    (IsAuthenticated w = true ↔ ∃ a, w.auth = some a ∧ a.AccessToken ≠ "") ∧
    (IsAuthenticated w = false → (doRequest env w method url body true).2 = w) ∧
    (IsAuthenticated w = false → env.urlError url = none →
      doRequest env w method url body true = (.error ErrNotAuthenticated, w) ∧
      Get env w url true = (.error ErrNotAuthenticated, w) ∧
      ∀ payload, Post env w url payload true = (.error ErrNotAuthenticated, w)) ∧
    (IsAuthenticated w = false → ∀ marshalled : Option (Except GoError Value),
      (doRequestWithMarshal env w method url marshalled true).2 = w ∧
      (∀ e, marshalled = some (.error e) →
        doRequestWithMarshal env w method url marshalled true =
          (.error (.wrap "marshal body" e), w)) ∧
      (env.urlError url = none → (∀ e, marshalled ≠ some (.error e)) →
        doRequestWithMarshal env w method url marshalled true =
          (.error ErrNotAuthenticated, w))) ∧
    (IsAuthenticated w = false → ∀ payload : Body,
      (PostBody env w url payload true).2 = w ∧
      (∀ e, payload.marshal = .error e →
        PostBody env w url payload true = (.error (.wrap "marshal body" e), w)) ∧
      (env.urlError url = none → ∀ v, payload.marshal = .ok v →
        PostBody env w url payload true = (.error ErrNotAuthenticated, w))) ∧
    (IsAuthenticated w = false → ∀ params,
      (GetWith env w url params true).2 = w ∧
      (env.urlError (BuildURL url params) = none →
        GetWith env w url params true = (.error ErrNotAuthenticated, w))) := by
  have hmain : ∀ (u : String) (m : Method) (b : Option Value), IsAuthenticated w = false →
      env.urlError u = none →
      doRequest env w m u b true = (.error ErrNotAuthenticated, w) := by
    intro u m b hna hu
    unfold doRequest
    rw [hu]
    simp [hna]
  have hframe : ∀ (u : String) (m : Method) (b : Option Value), IsAuthenticated w = false →
      (doRequest env w m u b true).2 = w := by
    intro u m b hna
    unfold doRequest
    cases env.urlError u with
    | some e => rfl
    | none => simp [hna]
  refine ⟨?_, ?_, ?_, ?_, ?_, ?_⟩
  · unfold IsAuthenticated
    cases w.auth with
    | none => simp
    | some a => simp
  · intro hna
    exact hframe url method body hna
  · intro hna hu
    exact ⟨hmain url method body hna hu, hmain url .GET none hna hu,
      fun payload => hmain url .POST (some payload) hna hu⟩
  · intro hna marshalled
    refine ⟨?_, ?_, ?_⟩
    · unfold doRequestWithMarshal
      split
      · rfl
      · exact hframe url method _ hna
      · exact hframe url method _ hna
    · intro e he
      rw [he]
      rfl
    · intro hu hok
      unfold doRequestWithMarshal
      split
      · rename_i e
        exact absurd rfl (hok e)
      · exact hmain url method _ hna hu
      · exact hmain url method _ hna hu
  · intro hna payload
    refine ⟨?_, ?_, ?_⟩
    · unfold PostBody Post
      split
      · rfl
      · exact hframe url .POST _ hna
    · intro e he
      unfold PostBody
      rw [he]
    · intro hu v hv
      unfold PostBody Post
      rw [hv]
      exact hmain url .POST (some v) hna hu
  · intro hna params
    exact ⟨hframe (BuildURL url params) .GET none hna,
      fun hu => hmain (BuildURL url params) .GET none hna hu⟩

theorem doRequest_requires_authentication_witness :
    doRequest offlineEnv emptyWorld .GET "https://api.robinhood.com/accounts/" none true =
      (.error ErrNotAuthenticated, emptyWorld) ∧
    Get offlineEnv emptyWorld "https://api.robinhood.com/accounts/" true =
      (.error ErrNotAuthenticated, emptyWorld) ∧
    ∀ payload, Post offlineEnv emptyWorld "https://api.robinhood.com/accounts/" payload true =
      (.error ErrNotAuthenticated, emptyWorld) :=
  (doRequest_requires_authentication offlineEnv emptyWorld .GET
    "https://api.robinhood.com/accounts/" none).2.2.1 rfl rfl

/-- C19 (as stated) fails: on a client without credential, an authenticated GET of a
URL that `http.NewRequestWithContext` rejects returns the request-creation error,
not `ErrNotAuthenticated`, because the request is created before the check; and an
authenticated POST of a transfer payload whose amount is NaN returns the marshal
error, because the body is marshalled before both. -/
theorem Get_invalid_url_not_ErrNotAuthenticated :
    IsAuthenticated emptyWorld = false ∧
    (Get strictUrlEnv emptyWorld "http://a b.example/" true).1 =
      .error (.wrap "create request" (.new "invalid character in host name")) ∧
    (Get strictUrlEnv emptyWorld "http://a b.example/" true).1 ≠ .error ErrNotAuthenticated ∧
    (PostBody offlineEnv emptyWorld BankTransfersURL
        (transferPayload .nan "deposit" "https://api.robinhood.com/ach/relationships/r-1/"
          "00010203-0405-4607-8809-0a0b0c0d0e0f") true).1 =
      .error (.wrap "marshal body" (.new "json: unsupported value: NaN")) ∧
    (PostBody offlineEnv emptyWorld BankTransfersURL
        (transferPayload .nan "deposit" "https://api.robinhood.com/ach/relationships/r-1/"
          "00010203-0405-4607-8809-0a0b0c0d0e0f") true).1 ≠ .error ErrNotAuthenticated :=
  ⟨rfl, rfl, (by intro h; cases h), rfl, (by intro h; cases h)⟩

/-! ## Cancellation -/

theorem CancelledFrom_mono (env : Env) (n m : Nat) (h : CancelledFrom env n) (hnm : n ≤ m) :
    CancelledFrom env m :=
  fun k req hk => h k req (le_trans hnm hk)

theorem Get_cancelled (env : Env) (w : World) (url : String)
    (hUrl : env.urlError url = none) (hCancel : CancelledFrom env w.nreq) :
    ∃ e, Get env w url false =
      (.error e,
        { w with
          now := w.now + (env.latency w.nreq : Int)
          nreq := w.nreq + 1
          trace := w.trace ++ [Event.request w.now ⟨.GET, url, none, none⟩ (.failure e)] }) := by
  obtain ⟨e, he⟩ := hCancel w.nreq ⟨.GET, url, none, none⟩ le_rfl
  refine ⟨e, ?_⟩
  rw [Get_of_reply env w url hUrl]
  simp only [roundTrip, he]

theorem inquiryLoop_cancelled (env : Env) (inquiryURL : String) (deadline : Int)
    (hUrl : env.urlError inquiryURL = none) :
    ∀ (fuel : Nat) (w : World), CancelledFrom env w.nreq →
    ∀ r w1, inquiryLoop fuel env inquiryURL deadline w = some (r, w1) →
      r = none ∧ deadline ≤ w1.now ∧
      ∃ evs, w1.trace = w.trace ++ evs ∧ failedPolling inquiryURL (4 * Second) evs = true ∧
        (w.now < deadline → evs ≠ []) := by
  intro fuel
  induction fuel with
  | zero =>
    intro w _ r w1 h
    simp [inquiryLoop] at h
  | succ n ih =>
    intro w hc r w1 h
    by_cases hlt : w.now < deadline
    · obtain ⟨e, he⟩ := Get_cancelled env w inquiryURL hUrl hc
      simp only [inquiryLoop, hlt, if_true, he] at h
      obtain ⟨hr, hd, evs, ht, hp, _⟩ := ih _ (CancelledFrom_mono env _ _ hc (by
        show w.nreq ≤ w.nreq + 1
        omega)) r w1 h
      refine ⟨hr, hd, Event.request w.now ⟨.GET, inquiryURL, none, none⟩ (.failure e) ::
        Event.sleep (w.now + (env.latency w.nreq : Int)) (4 * Second) :: evs, ?_, ?_, ?_⟩
      · rw [ht]
        simp [sleep]
      · simp [failedPolling, hp]
      · intro _ hnil
        cases hnil
    · simp only [inquiryLoop, hlt, if_false, Option.some.injEq, Prod.mk.injEq] at h
      obtain ⟨hr, hw⟩ := h
      subst hw
      exact ⟨hr.symm, not_lt.mp hlt, [], by simp, rfl, fun h => absurd h hlt⟩

theorem challengeLoop_cancelled (env : Env) (statusURL inquiryURL : String) (startTime : Int)
    (hUrl : env.urlError statusURL = none) :
    ∀ (fuel : Nat) (w : World), CancelledFrom env w.nreq →
    ∀ r w1, challengeLoop fuel env statusURL inquiryURL startTime w = some (r, w1) →
      r = some (.new "sheriff verification timeout") ∧ 2 * (60 * Second) ≤ w1.now - startTime ∧
      ∃ evs, w1.trace = w.trace ++ evs ∧ failedPolling statusURL (5 * Second) evs = true ∧
        (w.now - startTime < 2 * (60 * Second) → evs ≠ []) := by
  intro fuel
  induction fuel with
  | zero =>
    intro w _ r w1 h
    simp [challengeLoop] at h
  | succ n ih =>
    intro w hc r w1 h
    by_cases hlt : w.now - startTime < 2 * (60 * Second)
    · obtain ⟨e, he⟩ := Get_cancelled env w statusURL hUrl hc
      simp only [challengeLoop, hlt, if_true, he] at h
      obtain ⟨hr, hd, evs, ht, hp, _⟩ := ih _ (CancelledFrom_mono env _ _ hc (by
        show w.nreq ≤ w.nreq + 1
        omega)) r w1 h
      refine ⟨hr, hd, Event.request w.now ⟨.GET, statusURL, none, none⟩ (.failure e) ::
        Event.sleep (w.now + (env.latency w.nreq : Int)) (5 * Second) :: evs, ?_, ?_, ?_⟩
      · rw [ht]
        simp [sleep]
      · simp [failedPolling, hp]
      · intro _ hnil
        cases hnil
    · simp only [challengeLoop, hlt, if_false, Option.some.injEq, Prod.mk.injEq] at h
      obtain ⟨hr, hw⟩ := h
      subst hw
      exact ⟨hr.symm, not_lt.mp hlt, [], by simp, rfl, fun h => absurd h hlt⟩

theorem cancelledHttp_cancelled : CancelledFrom (sampleEnv cancelledHttp) 4 := by
  intro k req hk
  obtain ⟨n, rfl⟩ : ∃ n, k = n + 4 := ⟨k - 4, by omega⟩
  exact ⟨_, rfl⟩

/-- C20 (amended): once the caller's context is cancelled, every request fails and
`handleSheriffVerification` behaves as follows.  Cancelled before its first request,
it returns the wrapped start error without any wait.  Cancelled in the inquiry wait,
it does not abort: it goes on with a failed GET of the inquiry URL followed by a
4-second sleep, at least once if the 20-second deadline is not yet reached, until the
deadline has passed, and then fails with the inquiry timeout error.  Cancelled in the
challenge loop, it goes on with a failed GET of the status URL followed by a 5-second
sleep, at least once if the 2-minute budget is not yet used up, until the budget is
used up, and then fails with the verification timeout error; there is no further
15-second wait and no continuation POST. -/
theorem handleSheriffVerification_after_cancellation (env : Env) (w : World)
    (hCancel : CancelledFrom env w.nreq) :
    (∀ (fuel : Nat) (deviceToken workflowID : String), ∃ err w1,
      handleSheriffVerification fuel env w deviceToken workflowID =
        some (some (.wrap "failed to start sheriff verification" err), w1) ∧
      w1.nsleep = w.nsleep ∧ w1.files = w.files ∧ w1.auth = w.auth) ∧
    (∀ (fuel : Nat) (inquiryURL : String) (deadline : Int),
      env.urlError inquiryURL = none → deadline - w.now ≤ 4 * Second * (fuel : Int) →
      ∃ w1 evs, inquiryLoop (fuel + 1) env inquiryURL deadline w = some (none, w1) ∧
        resolveChallenge (fuel + 1) env w1 inquiryURL none =
          some (some (.new "unable to get inquiry data within timeout"), w1) ∧
        deadline ≤ w1.now ∧ w1.trace = w.trace ++ evs ∧
        failedPolling inquiryURL (4 * Second) evs = true ∧
        (w.now < deadline → evs ≠ [])) ∧
    (∀ (fuel : Nat) (statusURL inquiryURL : String) (startTime : Int),
      env.urlError statusURL = none →
      2 * (60 * Second) - (w.now - startTime) ≤ 5 * Second * (fuel : Int) →
      ∃ w1 evs, challengeLoop (fuel + 1) env statusURL inquiryURL startTime w =
          some (some (.new "sheriff verification timeout"), w1) ∧
        2 * (60 * Second) ≤ w1.now - startTime ∧ w1.trace = w.trace ++ evs ∧
        failedPolling statusURL (5 * Second) evs = true ∧
        (w.now - startTime < 2 * (60 * Second) → evs ≠ [])) := by
  refine ⟨?_, ?_, ?_⟩
  · intro fuel deviceToken workflowID
    unfold handleSheriffVerification
    rcases Option.eq_none_or_eq_some (env.urlError PathfinderUserMachineURL) with hu | ⟨e, hu⟩
    · obtain ⟨e, he⟩ := hCancel w.nreq
        ⟨.POST, PathfinderUserMachineURL, some (machinePayload deviceToken workflowID), none⟩
        le_rfl
      rw [Post_of_reply env w _ _ hu]
      simp only [he]
      exact ⟨e, _, rfl, rfl, rfl, rfl⟩
    · rw [Post_of_urlError env w _ _ e hu]
      exact ⟨_, _, rfl, rfl, rfl, rfl⟩
  · intro fuel inquiryURL deadline hUrl hFuel
    obtain ⟨⟨r, w1⟩, hr⟩ := inquiryLoop_total env inquiryURL deadline fuel w hFuel
    obtain ⟨hnone, hd, evs, ht, hp, hne⟩ :=
      inquiryLoop_cancelled env inquiryURL deadline hUrl (fuel + 1) w hCancel r w1 hr
    subst hnone
    exact ⟨w1, evs, hr, rfl, hd, ht, hp, hne⟩
  · intro fuel statusURL inquiryURL startTime hUrl hFuel
    obtain ⟨⟨r, w1⟩, hr⟩ := challengeLoop_total env statusURL inquiryURL startTime fuel w hFuel
    obtain ⟨hnone, hd, evs, ht, hp, hne⟩ :=
      challengeLoop_cancelled env statusURL inquiryURL startTime hUrl (fuel + 1) w hCancel r w1 hr
    subst hnone
    exact ⟨w1, evs, hr, hd, ht, hp, hne⟩

theorem handleSheriffVerification_after_cancellation_witness :
    CancelledFrom (sampleEnv cancelledHttp) cancelledWorld.nreq ∧
    ∃ w1 evs, challengeLoop (24 + 1) (sampleEnv cancelledHttp) (SheriffChallengeStatusURL "c-1")
        (SheriffInquiryURL "m-1") cancelledWorld.now cancelledWorld =
          some (some (.new "sheriff verification timeout"), w1) ∧
      2 * (60 * Second) ≤ w1.now - cancelledWorld.now ∧ w1.trace = cancelledWorld.trace ++ evs ∧
      failedPolling (SheriffChallengeStatusURL "c-1") (5 * Second) evs = true ∧
      (cancelledWorld.now - cancelledWorld.now < 2 * (60 * Second) → evs ≠ []) :=
  ⟨cancelledHttp_cancelled,
    (handleSheriffVerification_after_cancellation (sampleEnv cancelledHttp) cancelledWorld
      cancelledHttp_cancelled).2.2 24 (SheriffChallengeStatusURL "c-1") (SheriffInquiryURL "m-1")
      cancelledWorld.now rfl (by decide)⟩

/-- C20 (as stated) fails: in the run of `cancelledHttp` the context is cancelled
after the fourth request, while the challenge is pending.  The verification does not
return then: it completes the 15-second wait and makes 21 further polls, each failing
and each followed by a 5-second sleep, and returns the timeout error 120.021 seconds
after the last response. -/
theorem handleSheriffVerification_polls_after_cancellation :
    CancelledFrom (sampleEnv cancelledHttp) cancelledWorld.nreq ∧
    handleSheriffVerification 25 (sampleEnv cancelledHttp)
        (afterLoginPost (sampleEnv cancelledHttp) emptyWorld "alice" "secret" "" sampleDeviceToken)
        sampleDeviceToken "wf-1" =
      some (some (.new "sheriff verification timeout"), verificationEnd cancelledHttp) ∧
    (verificationEnd cancelledHttp).trace.take cancelledWorld.trace.length =
      cancelledWorld.trace ∧
    failedPolling (SheriffChallengeStatusURL "c-1") (5 * Second)
      ((verificationEnd cancelledHttp).trace.drop (cancelledWorld.trace.length + 1)) = true ∧
    ((verificationEnd cancelledHttp).trace.drop cancelledWorld.trace.length).countP
      Event.isFailedRequest = 21 ∧
    ((verificationEnd cancelledHttp).trace.drop cancelledWorld.trace.length).countP
      (Event.isSleepOf (5 * Second)) = 21 ∧
    ((verificationEnd cancelledHttp).trace.drop cancelledWorld.trace.length).countP
      (Event.isSleepOf (15 * Second)) = 1 ∧
    (verificationEnd cancelledHttp).now - cancelledWorld.now = 120021000000 :=
  ⟨cancelledHttp_cancelled, rfl, rfl, rfl, rfl, rfl, rfl, rfl⟩

/-! ## The token file path -/

theorem splitSlash_ne_nil (l : List Char) : splitSlash l ≠ [] := by
  cases l with
  | nil => simp [splitSlash]
  | cons c cs =>
    simp only [splitSlash]
    split
    · simp
    · split <;> simp

theorem splitSlash_cons_slash (cs : List Char) :
    splitSlash ('/' :: cs) = [] :: splitSlash cs := by
  simp [splitSlash]

theorem splitSlash_cons_other (c : Char) (cs x : List Char) (xs : List (List Char))
    (hc : c ≠ '/') (hs : splitSlash cs = x :: xs) :
    splitSlash (c :: cs) = (c :: x) :: xs := by
  simp [splitSlash, hc, hs]

theorem joinSlash_cons_cons (x y : List Char) (rest : List (List Char)) :
    joinSlash (x :: y :: rest) = x ++ '/' :: joinSlash (y :: rest) := rfl

theorem splitSlash_append_slash (a b : List Char) :
    splitSlash (a ++ '/' :: b) = splitSlash a ++ splitSlash b := by
  induction a with
  | nil => simp [splitSlash]
  | cons c a ih =>
    rw [List.cons_append]
    by_cases hc : c = '/'
    · subst hc
      rw [splitSlash_cons_slash, splitSlash_cons_slash, ih, List.cons_append]
    · rcases hs : splitSlash a with _ | ⟨x, xs⟩
      · exact absurd hs (splitSlash_ne_nil a)
      · rw [splitSlash_cons_other c a x xs hc hs,
          splitSlash_cons_other c (a ++ '/' :: b) x (xs ++ splitSlash b) hc (by rw [ih, hs]; rfl)]
        rfl

theorem splitSlash_of_no_slash (b : List Char) (h : '/' ∉ b) : splitSlash b = [b] := by
  induction b with
  | nil => rfl
  | cons c b ih =>
    have hc : c ≠ '/' := fun e => h (by simp [e])
    have hb : '/' ∉ b := fun e => h (List.mem_cons_of_mem _ e)
    simp only [splitSlash, hc, if_false, ih hb]

theorem splitSlash_no_slash (l : List Char) : ∀ comp ∈ splitSlash l, '/' ∉ comp := by
  induction l with
  | nil => intro comp h; simp [splitSlash] at h; simp [h]
  | cons c l ih =>
    intro comp h
    simp only [splitSlash] at h
    split at h
    · rcases List.mem_cons.mp h with h1 | h1
      · simp [h1]
      · exact ih comp h1
    · rename_i hc
      rcases hs : splitSlash l with _ | ⟨x, xs⟩
      · exact absurd hs (splitSlash_ne_nil l)
      · rw [hs] at h ih
        rcases List.mem_cons.mp h with h1 | h1
        · rw [h1]
          intro hm
          rcases List.mem_cons.mp hm with h2 | h2
          · exact hc h2.symm
          · exact ih x (List.mem_cons_self _ _) h2
        · exact ih comp (List.mem_cons_of_mem _ h1)

theorem joinSlash_append_singleton (K : List (List Char)) (y : List Char) (hK : K ≠ []) :
    joinSlash (K ++ [y]) = joinSlash K ++ '/' :: y := by
  induction K with
  | nil => exact absurd rfl hK
  | cons x rest ih =>
    cases rest with
    | nil => simp [joinSlash]
    | cons z r =>
      have h := ih (by simp)
      rw [List.cons_append, List.cons_append, joinSlash_cons_cons, joinSlash_cons_cons,
        ← List.cons_append, h, List.append_assoc]
      rfl

theorem splitSlash_joinSlash (K : List (List Char)) (hK : K ≠ [])
    (hNo : ∀ comp ∈ K, '/' ∉ comp) : splitSlash (joinSlash K) = K := by
  induction K with
  | nil => exact absurd rfl hK
  | cons x rest ih =>
    cases rest with
    | nil => exact splitSlash_of_no_slash x (hNo x (List.mem_cons_self _ _))
    | cons z r =>
      rw [joinSlash_cons_cons, splitSlash_append_slash,
        splitSlash_of_no_slash x (hNo x (List.mem_cons_self _ _)),
        ih (by simp) (fun comp h => hNo comp (List.mem_cons_of_mem _ h))]
      rfl

theorem CleanStack_cleanStep (rooted : Bool) (stack : List (List Char)) (comp : List Char)
    (hs : CleanStack rooted stack) (hc : '/' ∉ comp) :
    CleanStack rooted (cleanStep rooted stack comp) := by
  unfold cleanStep
  split
  · exact hs
  · rename_i h1
    have hne : comp ≠ [] := fun e => h1 (Or.inl e)
    have hnd : comp ≠ ['.'] := fun e => h1 (Or.inr e)
    split
    · rename_i h2
      cases stack with
      | nil =>
        cases rooted with
        | true => exact hs
        | false =>
          simp only [Bool.false_eq_true, if_false]
          exact ⟨hne, hnd, hc, fun _ => ⟨rfl, by simp⟩, trivial⟩
      | cons top rest =>
        simp only
        split
        · rename_i h3
          exact ⟨hne, hnd, hc, fun _ => ⟨(hs.2.2.2.1 h3).1, by simp [h3]⟩, hs⟩
        · exact hs.2.2.2.2
    · rename_i h2
      exact ⟨hne, hnd, hc, fun e => absurd e h2, hs⟩

theorem CleanStack_foldl (rooted : Bool) (comps : List (List Char)) :
    ∀ stack, CleanStack rooted stack → (∀ comp ∈ comps, '/' ∉ comp) →
    CleanStack rooted (comps.foldl (cleanStep rooted) stack) := by
  induction comps with
  | nil => intro stack hs _; exact hs
  | cons c cs ih =>
    intro stack hs hc
    simp only [List.foldl_cons]
    exact ih _ (CleanStack_cleanStep rooted stack c hs (hc c (List.mem_cons_self _ _)))
      (fun comp h => hc comp (List.mem_cons_of_mem _ h))

theorem CleanStack_no_slash (rooted : Bool) :
    ∀ stack, CleanStack rooted stack → ∀ comp ∈ stack, comp ≠ [] ∧ '/' ∉ comp := by
  intro stack
  induction stack with
  | nil => intro _ comp h; simp at h
  | cons c cs ih =>
    intro hs comp h
    rcases List.mem_cons.mp h with h1 | h1
    · rw [h1]
      exact ⟨hs.1, hs.2.2.1⟩
    · exact ih hs.2.2.2.2 comp h1

/-- Cleaning the components of a clean stack, first component first, rebuilds it. -/
theorem foldl_cleanStep_reverse (rooted : Bool) :
    ∀ stack, CleanStack rooted stack →
    stack.reverse.foldl (cleanStep rooted) [] = stack := by
  intro stack
  induction stack with
  | nil => intro _; rfl
  | cons c rest ih =>
    intro hs
    rw [List.reverse_cons, List.foldl_append, ih hs.2.2.2.2]
    simp only [List.foldl_cons, List.foldl_nil]
    unfold cleanStep
    have h1 : ¬ (c = [] ∨ c = ['.']) := fun h => h.elim hs.1 hs.2.1
    rw [if_neg h1]
    split
    · rename_i h2
      obtain ⟨hr, htop⟩ := hs.2.2.2.1 h2
      cases rest with
      | nil => simp [hr]
      | cons top r =>
        have : top = ['.', '.'] := htop top (by simp)
        simp [this]
    · rfl

theorem cleanStep_push (rooted : Bool) (stack : List (List Char)) (comp : List Char)
    (h1 : comp ≠ []) (h2 : comp ≠ ['.']) (h3 : comp ≠ ['.', '.']) :
    cleanStep rooted stack comp = comp :: stack := by
  unfold cleanStep
  rw [if_neg (fun h => h.elim h1 h2), if_neg h3]

theorem joinSlash_append_singleton_ne_nil (K : List (List Char)) (y : List Char) (hy : y ≠ []) :
    joinSlash (K ++ [y]) ≠ [] := by
  by_cases hK : K = []
  · subst hK
    exact hy
  · rw [joinSlash_append_singleton K y hK]
    simp

/-- The stack that cleaning a path leaves. -/
theorem CleanStack_of_path (rooted : Bool) (H : List Char) :
    CleanStack rooted ((splitSlash H).foldl (cleanStep rooted) []) :=
  CleanStack_foldl rooted (splitSlash H) [] trivial (splitSlash_no_slash H)

/-- Cleaning a non-empty path followed by a separator and an ordinary component
keeps that component as the last one. -/
theorem filepathClean_append_component (H f : List Char) (hH : H ≠ [])
    (h1 : f ≠ []) (h2 : f ≠ ['.']) (h3 : f ≠ ['.', '.']) (h4 : '/' ∉ f) :
    filepathClean (String.mk (H ++ '/' :: f)) =
      String.mk ((if decide (H.head? = some '/') = true then ['/'] else []) ++
        joinSlash (((splitSlash H).foldl
          (cleanStep (decide (H.head? = some '/'))) []).reverse ++ [f])) := by
  have hhead : (H ++ '/' :: f).head? = H.head? := by
    cases H with
    | nil => exact absurd rfl hH
    | cons c cs => rfl
  unfold filepathClean
  simp only [hhead, splitSlash_append_slash, splitSlash_of_no_slash f h4, List.foldl_append,
    List.foldl_cons, List.foldl_nil, cleanStep_push _ _ f h1 h2 h3, List.reverse_cons]
  rw [if_neg]
  intro h
  have := joinSlash_append_singleton_ne_nil
    ((splitSlash H).foldl (cleanStep (decide (H.head? = some '/'))) []).reverse f h1
  rw [List.append_eq_nil] at h
  exact this h.2

/-- A cleaned path that ends in an ordinary component reads back, component by
component, as the stack it was built from. -/
theorem clean_output_reads_back (rooted : Bool) (stack : List (List Char))
    (hs : CleanStack rooted stack) (hne : stack ≠ []) :
    decide (((if rooted = true then ['/'] else []) ++ joinSlash stack.reverse).head? = some '/')
      = rooted ∧
    (splitSlash ((if rooted = true then ['/'] else []) ++ joinSlash stack.reverse)).foldl
      (cleanStep rooted) [] = stack := by
  have hK : stack.reverse ≠ [] := by simpa using hne
  have hNo : ∀ comp ∈ stack.reverse, comp ≠ [] ∧ '/' ∉ comp := fun comp h =>
    CleanStack_no_slash rooted stack hs comp (List.mem_reverse.mp h)
  have hsplit := splitSlash_joinSlash stack.reverse hK (fun comp h => (hNo comp h).2)
  cases rooted with
  | true =>
    refine ⟨by simp, ?_⟩
    simp only [if_true, List.singleton_append, splitSlash_cons_slash, hsplit, List.foldl_cons]
    have : cleanStep true [] [] = [] := by simp [cleanStep]
    rw [this]
    exact foldl_cleanStep_reverse true stack hs
  | false =>
    simp only [Bool.false_eq_true, if_false, List.nil_append, hsplit]
    refine ⟨?_, foldl_cleanStep_reverse false stack hs⟩
    rcases hr : stack.reverse with _ | ⟨c, rest⟩
    · exact absurd hr hK
    · have hc := hNo c (by rw [hr]; exact List.mem_cons_self _ _)
      rcases c with _ | ⟨x, cs⟩
      · exact absurd rfl hc.1
      · have hx : x ≠ '/' := fun e => hc.2 (by simp [e])
        cases rest with
        | nil => simp [joinSlash, hx]
        | cons z r => simp [joinSlash, hx]

theorem filepathJoin_pair (a b : String) (ha : a ≠ "") :
    filepathJoin [a, b] = filepathClean (String.mk (a.data ++ '/' :: b.data)) := by
  have h : String.intercalate "/" [a, b] = String.mk (a.data ++ '/' :: b.data) := by
    apply String.ext
    simp [String.intercalate, String.intercalate.go, String.data_append]
  simp only [filepathJoin, ha, if_false, h]

theorem String_data_ne_nil (a : String) (ha : a ≠ "") : a.data ≠ [] := by
  intro h
  apply ha
  cases a
  simp only at h
  rw [h]

/-- Joining a file name to a directory that was itself obtained by joining an
ordinary component to a non-empty path appends the separator and the name. -/
theorem filepathJoin_dir_file (home : String) (hHome : home ≠ "") (d f : List Char)
    (d1 : d ≠ []) (d2 : d ≠ ['.']) (d3 : d ≠ ['.', '.']) (d4 : '/' ∉ d)
    (f1 : f ≠ []) (f2 : f ≠ ['.']) (f3 : f ≠ ['.', '.']) (f4 : '/' ∉ f) :
    filepathJoin [filepathJoin [home, String.mk d], String.mk f] =
      String.mk ((filepathJoin [home, String.mk d]).data ++ '/' :: f) := by
  have hH := String_data_ne_nil home hHome
  have hdir := filepathJoin_pair_ne_empty home (String.mk d) hHome
  rw [filepathJoin_pair _ _ hdir]
  have hd : filepathJoin [home, String.mk d] = _ :=
    (filepathJoin_pair home (String.mk d) hHome).trans
      (filepathClean_append_component home.data d hH d1 d2 d3 d4)
  rw [hd]
  have hs : CleanStack (decide (home.data.head? = some '/'))
      (d :: (splitSlash home.data).foldl (cleanStep (decide (home.data.head? = some '/'))) []) :=
    ⟨d1, d2, d4, fun e => absurd e d3, CleanStack_of_path _ _⟩
  obtain ⟨hroot, hfold⟩ := clean_output_reads_back _ _ hs (by simp)
  rw [List.reverse_cons] at hroot hfold
  have hne : (if decide (home.data.head? = some '/') = true then ['/'] else []) ++
      joinSlash (((splitSlash home.data).foldl
        (cleanStep (decide (home.data.head? = some '/'))) []).reverse ++ [d]) ≠ [] := by
    intro h
    rw [List.append_eq_nil] at h
    exact joinSlash_append_singleton_ne_nil _ d d1 h.2
  rw [filepathClean_append_component _ f hne f1 f2 f3 f4, hroot, hfold, List.reverse_cons,
    joinSlash_append_singleton _ f (by simp), List.append_assoc]

theorem tokenFileName_data (username : String) :
    (tokenFileName username).data = "robinhood_".data ++ (username.data ++ ".json".data) := by
  simp [tokenFileName, String.data_append]

theorem tokenFileName_component (username : String) (h : '/' ∉ username.data) :
    (tokenFileName username).data ≠ [] ∧ (tokenFileName username).data ≠ ['.'] ∧
    (tokenFileName username).data ≠ ['.', '.'] ∧ '/' ∉ (tokenFileName username).data := by
  rw [tokenFileName_data]
  refine ⟨by simp, ?_, ?_, ?_⟩
  · intro e
    have := congrArg List.length e
    simp at this
  · intro e
    have := congrArg List.length e
    simp at this
  · intro hm
    rcases List.mem_append.mp hm with h1 | h1
    · revert h1
      decide
    · rcases List.mem_append.mp h1 with h2 | h2
      · exact h h2
      · revert h2
        decide

/-- C17 (amended): with a home directory, for every identity that contains no path
separator, the path on which `saveToken`, `tryLoadStoredToken` and `deleteToken`
operate is the tokens directory, a separator, and the file name
`robinhood_<identity>.json`, which contains no separator: a file directly inside the
tokens directory; and two such identities that resolve to the same path are equal. -/
theorem getTokenFilePath_of_plain_identity (env : Env) (hHome : env.HOME ≠ "") :
    (∀ username : String, '/' ∉ username.data →
      getTokenFilePath env username =
        filepathJoin [env.HOME, ".tokens"] ++ "/" ++ tokenFileName username ∧
      '/' ∉ (tokenFileName username).data) ∧
    (∀ u v : String, '/' ∉ u.data → '/' ∉ v.data →
      getTokenFilePath env u = getTokenFilePath env v → u = v) := by
  have hpath : ∀ username : String, '/' ∉ username.data →
      getTokenFilePath env username =
        filepathJoin [env.HOME, ".tokens"] ++ "/" ++ tokenFileName username := by
    intro username hu
    obtain ⟨n1, n2, n3, n4⟩ := tokenFileName_component username hu
    have h := filepathJoin_dir_file env.HOME hHome ".tokens".data (tokenFileName username).data
      (by decide) (by decide) (by decide) (by decide) n1 n2 n3 n4
    simp only [getTokenFilePath, hHome, if_false]
    exact h.trans (by
      apply String.ext
      simp [String.data_append])
  refine ⟨fun username hu => ⟨hpath username hu, (tokenFileName_component username hu).2.2.2⟩, ?_⟩
  intro u v hu hv h
  rw [hpath u hu, hpath v hv] at h
  have hd := congrArg String.data h
  simp only [String.data_append, tokenFileName_data, List.append_assoc] at hd
  have h1 := List.append_cancel_left (List.append_cancel_left (List.append_cancel_left hd))
  exact String.ext (List.append_cancel_right h1)

theorem getTokenFilePath_of_plain_identity_witness :
    getTokenFilePath (sampleEnv tokenHttp) "alice" =
        filepathJoin [(sampleEnv tokenHttp).HOME, ".tokens"] ++ "/" ++ tokenFileName "alice" ∧
      '/' ∉ (tokenFileName "alice").data :=
  (getTokenFilePath_of_plain_identity (sampleEnv tokenHttp) (by decide)).1 "alice" (by decide)

/-- C17 (as stated) fails: the identity is not sanitised.  The identity
`x/../robinhood_b` resolves to the file of the identity `b`, and the identity
`x/../../../etc/passwd` resolves to a path outside the tokens directory
`/home/alice/.tokens`; a plain identity resolves to a file directly inside it. -/
theorem getTokenFilePath_not_confined :
    "x/../robinhood_b" ≠ "b" ∧
    getTokenFilePath (sampleEnv tokenHttp) "x/../robinhood_b" =
      getTokenFilePath (sampleEnv tokenHttp) "b" ∧
    getTokenFilePath (sampleEnv tokenHttp) "b" = "/home/alice/.tokens/robinhood_b.json" ∧
    getTokenFilePath (sampleEnv tokenHttp) "x/../../../etc/passwd" = "/home/etc/passwd.json" ∧
    filepathJoin [(sampleEnv tokenHttp).HOME, ".tokens"] = "/home/alice/.tokens" := by
  decide

/-! ## Pagination -/

/-- What `doRequest` does, by cases, for either value of `authenticated`. -/
theorem doRequest_eq (env : Env) (w : World) (m : Method) (url : String) (body : Option Value)
    (a : Bool) :
    doRequest env w m url body a =
      match env.urlError url with
      | some e => (.error (.wrap "create request" e), w)
      | none =>
        if (a && !IsAuthenticated w) = true then (.error ErrNotAuthenticated, w)
        else
          ((match env.http w.nreq
              ⟨m, url, body, if a = true then some (authorizationHeader w) else none⟩ with
            | .failure e => .error e
            | .response status data => .ok (parseResponse status data)),
            (roundTrip env w
              ⟨m, url, body, if a = true then some (authorizationHeader w) else none⟩).2) := by
  unfold doRequest
  cases hu : env.urlError url with
  | some e => rfl
  | none =>
    simp only
    by_cases ha : (a && !IsAuthenticated w) = true
    · rw [if_pos ha, if_pos ha]
    · rw [if_neg ha, if_neg ha]
      simp only [roundTrip]
      cases env.http w.nreq
        ⟨m, url, body, if a = true then some (authorizationHeader w) else none⟩ <;> rfl

theorem doRequest_ok_inv (env : Env) (w : World) (m : Method) (url : String)
    (body : Option Value) (a : Bool) (resp : Response) (w1 : World)
    (h : doRequest env w m url body a = (.ok resp, w1)) :
    env.urlError url = none ∧ (a = true → IsAuthenticated w = true) ∧
    ∃ status data,
      env.http w.nreq ⟨m, url, body, if a = true then some (authorizationHeader w) else none⟩ =
        .response status data ∧
      resp = parseResponse status data ∧
      w1 = { w with
        now := w.now + (env.latency w.nreq : Int)
        nreq := w.nreq + 1
        trace := w.trace ++ [Event.request w.now
          ⟨m, url, body, if a = true then some (authorizationHeader w) else none⟩
          (.response status data)] } := by
  rw [doRequest_eq] at h
  split at h
  · simp at h
  · rename_i hu
    split at h
    · simp at h
    · rename_i ha
      refine ⟨hu, ?_, ?_⟩
      · intro hat
        cases hw : IsAuthenticated w with
        | true => rfl
        | false => simp [hat, hw] at ha
      · simp only [Prod.mk.injEq] at h
        obtain ⟨h1, h2⟩ := h
        split at h1
        · simp at h1
        · rename_i status data hr
          simp only [Except.ok.injEq] at h1
          refine ⟨status, data, hr, h1.symm, ?_⟩
          rw [← h2]
          simp only [roundTrip, hr]

theorem VisitsPages_nil (env : Env) (a : Bool) (w : World) (url : String) :
    VisitsPages env a w url [] ↔ url = "" := by
  simp [VisitsPages]

theorem VisitsPages_cons (env : Env) (a : Bool) (w : World) (url : String) (page : Response)
    (rest : List Response) :
    VisitsPages env a w url (page :: rest) ↔
      url ≠ "" ∧ (Get env w url a).1 = .ok page ∧
        VisitsPages env a (Get env w url a).2 (nextPageURL page) rest := by
  simp [VisitsPages]

theorem nextURL_eq_nextPageURL (resp : Response) :
    (match asString (dataGet resp.Data "next") with
      | some next => if next ≠ "" then next else ""
      | none => "") = nextPageURL resp := by
  unfold nextPageURL
  cases asString (dataGet resp.Data "next") with
  | none => rfl
  | some next =>
    by_cases h : next = ""
    · simp [h]
    · simp [h]

theorem fetchPages_succ_of_ok (fuel : Nat) (env : Env) (w : World) (url : String) (a : Bool)
    (acc : List Obj) (page : Response) (hu : url ≠ "") (hg : (Get env w url a).1 = .ok page) :
    fetchPages (fuel + 1) env w url a acc =
      fetchPages fuel env (Get env w url a).2 (nextPageURL page) a (acc ++ page.Results) := by
  have hp : Get env w url a = (.ok page, (Get env w url a).2) := Prod.ext hg rfl
  rw [fetchPages, if_pos hu]
  rw [hp]
  simp only [nextURL_eq_nextPageURL]

theorem fetchPages_visits (env : Env) (a : Bool) :
    ∀ (pages : List Response) (w : World) (url : String) (fuel : Nat) (acc : List Obj),
    VisitsPages env a w url pages → pages.length + 1 ≤ fuel →
    ∃ w1 evs, fetchPages fuel env w url a acc =
        some (.ok (acc ++ (pages.map Response.Results).flatten), w1) ∧
      w1.trace = w.trace ++ evs ∧ PageFetches url pages evs ∧
      w1.nreq = w.nreq + pages.length ∧ w1.auth = w.auth ∧ w1.files = w.files := by
  intro pages
  induction pages with
  | nil =>
    intro w url fuel acc hv hf
    obtain ⟨n, rfl⟩ : ∃ n, fuel = n + 1 := ⟨fuel - 1, by simp at hf; omega⟩
    rw [VisitsPages_nil] at hv
    refine ⟨w, [], ?_, by simp, ?_, rfl, rfl, rfl⟩
    · simp [fetchPages, hv]
    · simp [PageFetches]
  | cons page rest ih =>
    intro w url fuel acc hv hf
    obtain ⟨n, rfl⟩ : ∃ n, fuel = n + 1 := ⟨fuel - 1, by simp at hf; omega⟩
    rw [VisitsPages_cons] at hv
    obtain ⟨hu, hg, hrest⟩ := hv
    have hp : doRequest env w .GET url none a = (.ok page, (Get env w url a).2) :=
      Prod.ext hg rfl
    obtain ⟨_, _, status, data, hr, hpage, hw1⟩ := doRequest_ok_inv env w .GET url none a _ _ hp
    obtain ⟨w2, evs, hres, htr, hpf, hn, hauth, hfiles⟩ :=
      ih (Get env w url a).2 (nextPageURL page) n (acc ++ page.Results) hrest
        (by simp at hf; omega)
    refine ⟨w2, Event.request w.now
      ⟨.GET, url, none, if a = true then some (authorizationHeader w) else none⟩
      (.response status data) :: evs, ?_, ?_, ?_, ?_, ?_, ?_⟩
    · rw [fetchPages_succ_of_ok n env w url a acc page hu hg, hres]
      simp
    · rw [htr, hw1]
      simp
    · exact ⟨⟨_, _, _, _, rfl, hpage⟩, hpf⟩
    · rw [hn, hw1]
      simp only [List.length_cons]
      omega
    · rw [hauth, hw1]
    · rw [hfiles, hw1]

theorem fetchPages_until_error (env : Env) (a : Bool) (err : GoError) :
    ∀ (pages : List Response) (w : World) (url : String) (fuel : Nat) (acc : List Obj),
    VisitsUntilError env a w url pages err → pages.length + 1 ≤ fuel →
    ∃ w1, fetchPages fuel env w url a acc = some (.error err, w1) := by
  intro pages
  induction pages with
  | nil =>
    intro w url fuel acc hv hf
    obtain ⟨n, rfl⟩ : ∃ n, fuel = n + 1 := ⟨fuel - 1, by simp at hf; omega⟩
    obtain ⟨hu, hg⟩ : url ≠ "" ∧ (Get env w url a).1 = .error err := by
      simpa [VisitsUntilError] using hv
    have hp : Get env w url a = (.error err, (Get env w url a).2) := Prod.ext hg rfl
    refine ⟨(Get env w url a).2, ?_⟩
    rw [fetchPages, if_pos hu, hp]
  | cons page rest ih =>
    intro w url fuel acc hv hf
    obtain ⟨n, rfl⟩ : ∃ n, fuel = n + 1 := ⟨fuel - 1, by simp at hf; omega⟩
    obtain ⟨hu, hg, hrest⟩ : url ≠ "" ∧ (Get env w url a).1 = .ok page ∧
        VisitsUntilError env a (Get env w url a).2 (nextPageURL page) rest err := by
      simpa [VisitsUntilError] using hv
    rw [fetchPages_succ_of_ok n env w url a acc page hu hg]
    exact ih _ _ n _ hrest (by simp at hf; omega)

theorem PageFetches_length : ∀ (pages : List Response) (url : String) (evs : List Event),
    PageFetches url pages evs → evs.length = pages.length := by
  intro pages
  induction pages with
  | nil =>
    intro url evs h
    have : evs = [] := by simpa [PageFetches] using h
    subst this
    exact rfl
  | cons page rest ih =>
    intro url evs h
    cases evs with
    | nil => simp [PageFetches] at h
    | cons e evs =>
      have h2 : PageFetches (nextPageURL page) rest evs := by
        simp only [PageFetches] at h
        exact h.2
      simp [ih _ _ h2]

/-- C21: if following `next` from `initialURL` visits the pages `pages`, every GET
succeeding and the last page being the first one whose `next` is absent, not a string
or empty, then `FetchAllPages` (with an iteration budget above the number of pages)
returns the concatenation of the pages' results, each the JSON-object elements of the
page's `results` array as `parseResponse` collects them, having issued exactly one
GET per page, in order; and if a GET fails after some pages, it returns that error
and no results. -/
theorem FetchAllPages_all_pages (env : Env) (w : World) (initialURL : String)
    (authenticated : Bool) (pages : List Response) (fuel : Nat)
    (hFuel : pages.length + 1 ≤ fuel) :
    (VisitsPages env authenticated w initialURL pages →
      ∃ w1 evs, FetchAllPages fuel env w initialURL authenticated =
          some (.ok (pages.map Response.Results).flatten, w1) ∧
        w1.trace = w.trace ++ evs ∧ evs.length = pages.length ∧
        PageFetches initialURL pages evs ∧ w1.nreq = w.nreq + pages.length) ∧
    (∀ err, VisitsUntilError env authenticated w initialURL pages err →
      ∃ w1, FetchAllPages fuel env w initialURL authenticated = some (.error err, w1)) := by
  refine ⟨?_, ?_⟩
  · intro hv
    obtain ⟨w1, evs, hres, htr, hpf, hn, _, _⟩ :=
      fetchPages_visits env authenticated pages w initialURL fuel [] hv hFuel
    exact ⟨w1, evs, by simpa [FetchAllPages] using hres, htr,
      PageFetches_length pages initialURL evs hpf, hpf, hn⟩
  · intro err hv
    exact fetchPages_until_error env authenticated err pages w initialURL fuel [] hv hFuel

theorem FetchAllPages_all_pages_witness :
    ∃ w1 evs, FetchAllPages 3 (sampleEnv pagedHttp) emptyWorld "https://api.robinhood.com/page1"
          false =
        some (.ok ([parseResponse 200 (some firstPageBody),
          parseResponse 200 (some secondPageBody)].map Response.Results).flatten, w1) ∧
      w1.trace = emptyWorld.trace ++ evs ∧
      evs.length = [parseResponse 200 (some firstPageBody),
          parseResponse 200 (some secondPageBody)].length ∧
      PageFetches "https://api.robinhood.com/page1" [parseResponse 200 (some firstPageBody),
          parseResponse 200 (some secondPageBody)] evs ∧
      w1.nreq = emptyWorld.nreq + [parseResponse 200 (some firstPageBody),
          parseResponse 200 (some secondPageBody)].length :=
  (FetchAllPages_all_pages (sampleEnv pagedHttp) emptyWorld "https://api.robinhood.com/page1"
    false [parseResponse 200 (some firstPageBody), parseResponse 200 (some secondPageBody)] 3
    (by decide)).1 ⟨by decide, rfl, by decide, rfl, rfl⟩

/-- The run of `pagedHttp` and of `brokenPagedHttp` from the first page: three
results from two GETs, and the error of the second GET without results. -/
theorem FetchAllPages_examples :
    (FetchAllPages 3 (sampleEnv pagedHttp) emptyWorld "https://api.robinhood.com/page1"
        false).map (fun r => (r.1.toOption.map (List.map (fun m => GetString m "quantity")),
          r.2.trace.map Event.url?)) =
      some (some ["0.0000", "3.0000", "7.0000"],
        [some "https://api.robinhood.com/page1", some "https://api.robinhood.com/page2"]) ∧
    (FetchAllPages 3 (sampleEnv brokenPagedHttp) emptyWorld "https://api.robinhood.com/page1"
        false).map (fun r => (r.1.toOption.map List.length, r.2.trace.map Event.url?)) =
      some (none,
        [some "https://api.robinhood.com/page1", some "https://api.robinhood.com/page2"]) ∧
    (FetchAllPages 3 (sampleEnv pagedHttp) emptyWorld "" false).map
        (fun r => (r.1.toOption.map List.length, r.2.trace.length)) = some (some 0, 0) :=
  ⟨rfl, rfl, rfl⟩

/-! ## Open positions -/

/-- On an authenticated client `GetOpenStockPosition` is `FetchAllPages` of the
positions URL, with the account number as its only query parameter when one is given
and is not empty, followed by the conversion of the results. -/
theorem GetOpenStockPosition_url (fuel : Nat) (env : Env) (w : World)
    (accountNumber : Option String) (hAuth : IsAuthenticated w = true) :
    GetOpenStockPosition fuel env w accountNumber =
      (FetchAllPages fuel env w
        (match accountNumber with
          | some n => if n = "" then PositionsURL else PositionsURL ++ "?account_number=" ++ n
          | none => PositionsURL) true).map
        (fun r => (r.1.map (List.map positionOf), r.2)) := by
  have hurl : (match accountNumber with
      | some n => BuildURL PositionsURL [("account_number", n)]
      | none => PositionsURL) =
      (match accountNumber with
      | some n => if n = "" then PositionsURL else PositionsURL ++ "?account_number=" ++ n
      | none => PositionsURL) := by
    cases accountNumber with
    | none => rfl
    | some n =>
      by_cases hn : n = ""
      · simp [BuildURL, hn]
      · have e : "?" ++ ("account_number" ++ ("=" ++ n)) = "?account_number=" ++ n := by
          apply String.ext
          simp [String.data_append]
        simp [BuildURL, hn, String.intercalate, String.intercalate.go, String.append_assoc, e]
  simp only [GetOpenStockPosition, hAuth, Bool.not_true, Bool.false_eq_true, if_false, hurl]
  rcases h : FetchAllPages fuel env w _ true with _ | ⟨r, w1⟩
  · rfl
  · cases r <;> rfl

/-- C22 (code defect): on an authenticated client, `GetOpenStockPosition` without an
account number fetches the positions URL without any query, with the account number
`5QR123` it fetches the URL with `account_number=5QR123` only, and with an empty
account number again the bare URL: `nonzero=true` is never sent, and the positions
returned include one with quantity `0.0000`. -/
theorem GetOpenStockPosition_omits_nonzero :
    IsAuthenticated authedWorld = true ∧
    (GetOpenStockPosition 3 (sampleEnv pagedHttp) authedWorld none).map
        (fun r => (r.1.toOption.map (List.map Position.Quantity), r.2.trace.map Event.url?)) =
      some (some ["0.0000", "3.0000", "7.0000"],
        [some "https://api.robinhood.com/positions/", some "https://api.robinhood.com/page2"]) ∧
    (GetOpenStockPosition 3 (sampleEnv pagedHttp) authedWorld (some "5QR123")).map
        (fun r => (r.1.toOption.map (List.map Position.Quantity), r.2.trace.map Event.url?)) =
      some (some ["0.0000", "3.0000", "7.0000"],
        [some "https://api.robinhood.com/positions/?account_number=5QR123",
          some "https://api.robinhood.com/page2"]) ∧
    (GetOpenStockPosition 3 (sampleEnv pagedHttp) authedWorld (some "")).map
        (fun r => r.2.trace.map Event.url?) =
      some [some "https://api.robinhood.com/positions/",
        some "https://api.robinhood.com/page2"] :=
  ⟨rfl, rfl, rfl, rfl⟩

/-! ## The inquiry wait -/

theorem inquiryWait_retry (url : String) (deadline t t1 : Int) (reply : Reply)
    (rest : List Event) (ht : t < deadline) (hr : reply.noData = true)
    (h : inquiryWait url deadline rest = true) :
    inquiryWait url deadline (Event.request t ⟨.GET, url, none, none⟩ reply ::
      Event.sleep t1 (4 * Second) :: rest) = true := by
  simp [inquiryWait, ht, hr, h]

theorem firstData_retry (t t1 d : Int) (req : Request) (reply : Reply) (rest : List Event)
    (hr : reply.noData = true) :
    firstData (Event.request t req reply :: Event.sleep t1 d :: rest) = firstData rest := by
  cases reply with
  | failure e => simp [firstData]
  | response status data =>
    cases data with
    | none => simp [firstData]
    | some x => simp [Reply.noData] at hr

/-- Shape of a run of the inquiry wait when requests to the inquiry URL can be
created: the actions form an `inquiryWait` run that starts with a GET if the deadline
is not yet reached, the number of GETs is bounded through the 4-second sleeps, and the
result is the data of the first GET that returned data. -/
theorem inquiryLoop_run (env : Env) (url : String) (deadline : Int)
    (hUrl : env.urlError url = none) :
    ∀ (fuel : Nat) (w : World) (r : Option Obj) (w1 : World),
    inquiryLoop fuel env url deadline w = some (r, w1) →
    ∃ evs, w1.trace = w.trace ++ evs ∧ inquiryWait url deadline evs = true ∧
      (w.now < deadline → ∃ reply rest,
        evs = Event.request w.now ⟨.GET, url, none, none⟩ reply :: rest) ∧
      (evs.countP Event.isGet = 0 ∨
        4 * Second * ((evs.countP Event.isGet : Int) - 1) < deadline - w.now) ∧
      r = firstData evs ∧ w1.nsleep = w.nsleep + evs.countP (Event.isSleepOf (4 * Second)) := by
  intro fuel
  induction fuel with
  | zero => intro w r w1 h; simp [inquiryLoop] at h
  | succ n ih =>
    intro w r w1 h
    by_cases hlt : w.now < deadline
    · have hget := Get_of_reply env w url hUrl
      have hslp := sleep_after_get_now env w url (4 * Second)
      have retry : ∀ reply : Reply, reply.noData = true →
          env.http w.nreq ⟨.GET, url, none, none⟩ = reply →
          inquiryLoop n env url deadline (sleep env (Get env w url false).2 (4 * Second)) =
            some (r, w1) →
          ∃ evs, w1.trace = w.trace ++ evs ∧ inquiryWait url deadline evs = true ∧
            (w.now < deadline → ∃ reply rest,
              evs = Event.request w.now ⟨.GET, url, none, none⟩ reply :: rest) ∧
            (evs.countP Event.isGet = 0 ∨
              4 * Second * ((evs.countP Event.isGet : Int) - 1) < deadline - w.now) ∧
            r = firstData evs ∧
            w1.nsleep = w.nsleep + evs.countP (Event.isSleepOf (4 * Second)) := by
        intro reply hnd hrep hloop
        obtain ⟨evs, ht, hw, _, hc, hd, hns⟩ := ih _ r w1 hloop
        refine ⟨Event.request w.now ⟨.GET, url, none, none⟩ reply ::
          Event.sleep (Get env w url false).2.now (4 * Second) :: evs, ?_, ?_, ?_, ?_, ?_, ?_⟩
        · rw [ht, hget]
          simp [sleep, roundTrip, hrep]
        · exact inquiryWait_retry url deadline _ _ reply evs hlt hnd hw
        · intro _
          exact ⟨reply, _, rfl⟩
        · right
          have hcount : (Event.request w.now ⟨.GET, url, none, none⟩ reply ::
              Event.sleep (Get env w url false).2.now (4 * Second) :: evs).countP Event.isGet =
              evs.countP Event.isGet + 1 := by
            simp [List.countP_cons, Event.isGet]
          rw [hcount]
          have hS : Second = 1000000000 := rfl
          rw [hS] at hslp hc ⊢
          rcases hc with h0 | hpos
          · rw [h0]
            simp only [Nat.zero_add, Nat.cast_one, sub_self, mul_zero]
            omega
          · push_cast
            omega
        · rw [firstData_retry _ _ _ _ reply evs hnd]
          exact hd
        · rw [hns]
          have : (sleep env (Get env w url false).2 (4 * Second)).nsleep = w.nsleep + 1 := by
            rw [hget]
            rfl
          rw [this]
          simp [List.countP_cons, Event.isSleepOf]
          omega
      cases hrep : env.http w.nreq ⟨.GET, url, none, none⟩ with
      | failure e =>
        have hg : Get env w url false = (.error e, (Get env w url false).2) := by
          rw [hget, hrep]
        rw [inquiryLoop, if_pos hlt, hg] at h
        exact retry (.failure e) rfl hrep h
      | response status data =>
        cases data with
        | none =>
          have hg : Get env w url false =
              (.ok (parseResponse status none), (Get env w url false).2) := by
            rw [hget, hrep]
          rw [inquiryLoop, if_pos hlt, hg] at h
          exact retry (.response status none) rfl hrep h
        | some d =>
          have hg : Get env w url false =
              (.ok (parseResponse status (some d)), (Get env w url false).2) := by
            rw [hget, hrep]
          rw [inquiryLoop, if_pos hlt, hg] at h
          simp only [parseResponse, Option.some.injEq, Prod.mk.injEq] at h
          obtain ⟨h1, h2⟩ := h
          refine ⟨[Event.request w.now ⟨.GET, url, none, none⟩ (.response status (some d))],
            ?_, ?_, ?_, ?_, ?_, ?_⟩
          · rw [← h2, hget]
            simp [roundTrip, hrep]
          · simp [inquiryWait, hlt]
          · intro _
            exact ⟨_, _, rfl⟩
          · right
            simp [List.countP_cons, Event.isGet]
            omega
          · rw [← h1]
            rfl
          · rw [← h2, hget]
            simp [roundTrip, List.countP_cons, Event.isSleepOf]
    · simp only [inquiryLoop, hlt, if_false, Option.some.injEq, Prod.mk.injEq] at h
      obtain ⟨h1, h2⟩ := h
      subst h2
      exact ⟨[], by simp, rfl, fun hh => absurd hh hlt, Or.inl rfl, h1.symm, by simp⟩

/-- C24: the inquiry wait of `handleSheriffVerification`, entered in the world `w`
with the deadline 20 seconds ahead and an inquiry URL that requests can be created
for, ends (six iterations suffice).  Its actions start with a GET of the inquiry URL;
every GET is started before the deadline; every GET that fails or returns no data is
followed by a 4-second sleep and a GET that returns data is the last action; at most
5 GETs are made; the result is the data of the first GET that returned data; and
when there is none the verification fails with the inquiry timeout error, which is
not the timeout error of the challenge loop. -/
theorem inquiryLoop_behaviour (env : Env) (w : World) (inquiryURL : String) (fuel : Nat)
    (hUrl : env.urlError inquiryURL = none) (hFuel : 6 ≤ fuel) :
    ∃ r w1 evs, inquiryLoop fuel env inquiryURL (w.now + 20 * Second) w = some (r, w1) ∧
      w1.trace = w.trace ++ evs ∧
      (∃ reply rest, evs = Event.request w.now ⟨.GET, inquiryURL, none, none⟩ reply :: rest) ∧
      inquiryWait inquiryURL (w.now + 20 * Second) evs = true ∧
      evs.countP Event.isGet ≤ 5 ∧
      evs.countP (Event.isSleepOf (4 * Second)) = w1.nsleep - w.nsleep ∧
      r = firstData evs ∧
      (r = none →
        resolveChallenge fuel env w1 inquiryURL r =
          some (some (.new "unable to get inquiry data within timeout"), w1)) ∧
      (∀ statusURL startTime w2, ¬ w2.now - startTime < 2 * (60 * Second) →
        challengeLoop fuel env statusURL inquiryURL startTime w2 =
          some (some (.new "sheriff verification timeout"), w2)) ∧
      GoError.new "unable to get inquiry data within timeout" ≠
        GoError.new "sheriff verification timeout" := by
  obtain ⟨n, rfl⟩ : ∃ n, fuel = n + 1 := ⟨fuel - 1, by omega⟩
  have hS : Second = 1000000000 := rfl
  obtain ⟨⟨r, w1⟩, hr⟩ := inquiryLoop_total env inquiryURL (w.now + 20 * Second) n w (by
    rw [hS]
    have : (5 : Int) ≤ (n : Int) := by omega
    omega)
  obtain ⟨evs, ht, hw, hhead, hc, hd, hns⟩ :=
    inquiryLoop_run env inquiryURL (w.now + 20 * Second) hUrl (n + 1) w r w1 hr
  refine ⟨r, w1, evs, hr, ht, hhead (by rw [hS]; omega), hw, ?_, by omega, hd, ?_, ?_,
    by decide⟩
  · rw [hS] at hc
    rcases hc with h0 | h1
    · omega
    · omega
  · intro hnone
    rw [hnone]
    rfl
  · intro statusURL startTime w2 hlt
    simp [challengeLoop, hlt]

theorem inquiryLoop_behaviour_witness :
    ∃ r w1 evs, inquiryLoop 6 (sampleEnv silentHttp) (SheriffInquiryURL "m-1")
        (emptyWorld.now + 20 * Second) emptyWorld = some (r, w1) ∧
      w1.trace = emptyWorld.trace ++ evs ∧
      (∃ reply rest, evs =
        Event.request emptyWorld.now ⟨.GET, SheriffInquiryURL "m-1", none, none⟩ reply :: rest) ∧
      inquiryWait (SheriffInquiryURL "m-1") (emptyWorld.now + 20 * Second) evs = true ∧
      evs.countP Event.isGet ≤ 5 ∧
      evs.countP (Event.isSleepOf (4 * Second)) = w1.nsleep - emptyWorld.nsleep ∧
      r = firstData evs ∧
      (r = none →
        resolveChallenge 6 (sampleEnv silentHttp) w1 (SheriffInquiryURL "m-1") r =
          some (some (.new "unable to get inquiry data within timeout"), w1)) ∧
      (∀ statusURL startTime w2, ¬ w2.now - startTime < 2 * (60 * Second) →
        challengeLoop 6 (sampleEnv silentHttp) statusURL (SheriffInquiryURL "m-1") startTime w2 =
          some (some (.new "sheriff verification timeout"), w2)) ∧
      GoError.new "unable to get inquiry data within timeout" ≠
        GoError.new "sheriff verification timeout" :=
  inquiryLoop_behaviour (sampleEnv silentHttp) emptyWorld (SheriffInquiryURL "m-1") 6 rfl
    (by decide)

/-- The run of `silentHttp`: the inquiry never yields data, and the verification
makes the start POST, 5 inquiry GETs and 5 four-second sleeps before it fails with
the inquiry timeout error. -/
theorem handleSheriffVerification_silent_scenario :
    (handleSheriffVerification 25 (sampleEnv silentHttp)
        (afterLoginPost (sampleEnv silentHttp) emptyWorld "alice" "secret" "" sampleDeviceToken)
        sampleDeviceToken "wf-1").map
      (fun r => (r.1, r.2.trace.countP Event.isGet, r.2.trace.countP Event.isPost,
        r.2.trace.countP (Event.isSleepOf (4 * Second)), r.2.nsleep)) =
      some (some (.new "unable to get inquiry data within timeout"), 5, 2, 5, 5) := by
  rfl

/-! ## The challenge loop, one iteration at a time -/

/-- One iteration of the challenge loop in terms of the transport's reply to the
poll, when requests to the status URL can be created. -/
theorem challengeLoop_step (fuel : Nat) (env : Env) (statusURL inquiryURL : String)
    (startTime : Int) (w : World) (hUrl : env.urlError statusURL = none) :
    challengeLoop (fuel + 1) env statusURL inquiryURL startTime w =
      if w.now - startTime < 2 * (60 * Second) then
        match env.http w.nreq ⟨.GET, statusURL, none, none⟩ with
        | .failure _ =>
          challengeLoop fuel env statusURL inquiryURL startTime
            (sleep env (roundTrip env w ⟨.GET, statusURL, none, none⟩).2 (5 * Second))
        | .response _ none =>
          challengeLoop fuel env statusURL inquiryURL startTime
            (sleep env (roundTrip env w ⟨.GET, statusURL, none, none⟩).2 (5 * Second))
        | .response _ (some data) =>
          if GetString data "challenge_status" = "validated" then
            some (completeVerification env (roundTrip env w ⟨.GET, statusURL, none, none⟩).2
              inquiryURL)
          else if GetString data "challenge_status" = "issued" then
            challengeLoop fuel env statusURL inquiryURL startTime
              (sleep env (roundTrip env w ⟨.GET, statusURL, none, none⟩).2 (15 * Second))
          else
            some (some (.new ("unexpected challenge status: " ++
              GetString data "challenge_status")),
              (roundTrip env w ⟨.GET, statusURL, none, none⟩).2)
      else some (some (.new "sheriff verification timeout"), w) := by
  rw [challengeLoop, Get_of_reply env w statusURL hUrl]
  by_cases hlt : w.now - startTime < 2 * (60 * Second)
  · rw [if_pos hlt, if_pos hlt]
    cases env.http w.nreq ⟨.GET, statusURL, none, none⟩ with
    | failure e => rfl
    | response status data =>
      cases data with
      | none => rfl
      | some d => rfl
  · rw [if_neg hlt, if_neg hlt]

theorem roundTrip_trace (env : Env) (w : World) (req : Request) :
    (roundTrip env w req).2.trace = w.trace ++ [Event.request w.now req (env.http w.nreq req)] ∧
    (roundTrip env w req).2.nsleep = w.nsleep ∧ (roundTrip env w req).2.nreq = w.nreq + 1 :=
  ⟨rfl, rfl, rfl⟩

/-- A run of the challenge loop entered within the budget starts with a poll. -/
theorem challengeLoop_first_action (fuel : Nat) (env : Env) (statusURL inquiryURL : String)
    (startTime : Int) (w : World) (hUrl : env.urlError statusURL = none)
    (hBudget : w.now - startTime < 2 * (60 * Second)) (r : Option GoError) (w1 : World)
    (h : challengeLoop (fuel + 1) env statusURL inquiryURL startTime w = some (r, w1)) :
    ∃ rest, w1.trace = w.trace ++
      Event.request w.now ⟨.GET, statusURL, none, none⟩
        (env.http w.nreq ⟨.GET, statusURL, none, none⟩) :: rest := by
  have key : ∀ w2 : World, (∃ mid, w2.trace = w.trace ++
      Event.request w.now ⟨.GET, statusURL, none, none⟩
        (env.http w.nreq ⟨.GET, statusURL, none, none⟩) :: mid) →
      Reaches (PollAction inquiryURL statusURL) w2 w1 →
      ∃ rest, w1.trace = w.trace ++
        Event.request w.now ⟨.GET, statusURL, none, none⟩
          (env.http w.nreq ⟨.GET, statusURL, none, none⟩) :: rest := by
    intro w2 ⟨mid, hmid⟩ hreach
    obtain ⟨_, _, _, evs, hevs, _⟩ := hreach
    exact ⟨mid ++ evs, by rw [hevs, hmid]; simp⟩
  have hslept : ∀ d : Int, ∃ mid,
      (sleep env (roundTrip env w ⟨.GET, statusURL, none, none⟩).2 d).trace = w.trace ++
      Event.request w.now ⟨.GET, statusURL, none, none⟩
        (env.http w.nreq ⟨.GET, statusURL, none, none⟩) :: mid :=
    fun d => ⟨[Event.sleep (roundTrip env w ⟨.GET, statusURL, none, none⟩).2.now d], by
      simp [sleep, roundTrip]⟩
  have hpolled : ∃ mid, (roundTrip env w ⟨.GET, statusURL, none, none⟩).2.trace = w.trace ++
      Event.request w.now ⟨.GET, statusURL, none, none⟩
        (env.http w.nreq ⟨.GET, statusURL, none, none⟩) :: mid := ⟨[], rfl⟩
  rw [challengeLoop_step fuel env statusURL inquiryURL startTime w hUrl, if_pos hBudget] at h
  split at h
  · exact key _ (hslept _) (challengeLoop_reaches env statusURL inquiryURL startTime _ _ _ _ h)
  · exact key _ (hslept _) (challengeLoop_reaches env statusURL inquiryURL startTime _ _ _ _ h)
  · split at h
    · simp only [Option.some.injEq] at h
      have hr := completeVerification_reaches statusURL env
        (roundTrip env w ⟨.GET, statusURL, none, none⟩).2 inquiryURL
      rw [h] at hr
      exact key _ hpolled hr
    · split at h
      · exact key _ (hslept _)
          (challengeLoop_reaches env statusURL inquiryURL startTime _ _ _ _ h)
      · simp only [Option.some.injEq, Prod.mk.injEq] at h
        rw [← h.2]
        exact ⟨[], rfl⟩

/-- C25: one iteration of the challenge loop, entered within the 2-minute budget,
polls the status URL and dispatches on the reply.  A failed request or a response
without data: a 5-second sleep, then the loop again.  The status `issued`: a
15-second sleep, then the loop again.  The status `validated`: the continuation
POST, whose outcome is the result.  Any other status, the empty string of a missing
or non-string status included: the verification ends at once, right after the poll,
with the error `unexpected challenge status: <status>`.  The loop entered again
polls once more if the budget is not used up, and otherwise ends with the timeout
error. -/
theorem challengeLoop_dispatch (fuel : Nat) (env : Env) (statusURL inquiryURL : String)
    (startTime : Int) (w : World) (hUrl : env.urlError statusURL = none)
    (hInquiry : env.urlError inquiryURL = none)
    (hBudget : w.now - startTime < 2 * (60 * Second)) :
    (Get env w statusURL false).2.trace = w.trace ++
      [Event.request w.now ⟨.GET, statusURL, none, none⟩
        (env.http w.nreq ⟨.GET, statusURL, none, none⟩)] ∧
    ((env.http w.nreq ⟨.GET, statusURL, none, none⟩).noData = true →
      challengeLoop (fuel + 1) env statusURL inquiryURL startTime w =
        challengeLoop fuel env statusURL inquiryURL startTime
          (sleep env (Get env w statusURL false).2 (5 * Second)) ∧
      (sleep env (Get env w statusURL false).2 (5 * Second)).trace =
        (Get env w statusURL false).2.trace ++
          [Event.sleep (Get env w statusURL false).2.now (5 * Second)]) ∧
    (∀ status data,
      env.http w.nreq ⟨.GET, statusURL, none, none⟩ = .response status (some data) →
      (GetString data "challenge_status" = "issued" →
        challengeLoop (fuel + 1) env statusURL inquiryURL startTime w =
          challengeLoop fuel env statusURL inquiryURL startTime
            (sleep env (Get env w statusURL false).2 (15 * Second)) ∧
        (sleep env (Get env w statusURL false).2 (15 * Second)).trace =
          (Get env w statusURL false).2.trace ++
            [Event.sleep (Get env w statusURL false).2.now (15 * Second)]) ∧
      (GetString data "challenge_status" = "validated" →
        challengeLoop (fuel + 1) env statusURL inquiryURL startTime w =
          some (completeVerification env (Get env w statusURL false).2 inquiryURL) ∧
        (completeVerification env (Get env w statusURL false).2 inquiryURL).2.trace =
          (Get env w statusURL false).2.trace ++
            [Event.request (Get env w statusURL false).2.now
              ⟨.POST, inquiryURL, some continuePayload, none⟩
              (env.http (Get env w statusURL false).2.nreq
                ⟨.POST, inquiryURL, some continuePayload, none⟩)]) ∧
      (GetString data "challenge_status" ≠ "issued" →
        GetString data "challenge_status" ≠ "validated" →
        challengeLoop (fuel + 1) env statusURL inquiryURL startTime w =
          some (some (.new ("unexpected challenge status: " ++
            GetString data "challenge_status")), (Get env w statusURL false).2)) ∧
      (asString (data.get "challenge_status") = none →
        GetString data "challenge_status" = "")) ∧
    (∀ w2 : World,
      (w2.now - startTime < 2 * (60 * Second) → ∀ r w3,
        challengeLoop (fuel + 1) env statusURL inquiryURL startTime w2 = some (r, w3) →
        ∃ rest, w3.trace = w2.trace ++
          Event.request w2.now ⟨.GET, statusURL, none, none⟩
            (env.http w2.nreq ⟨.GET, statusURL, none, none⟩) :: rest) ∧
      (¬ w2.now - startTime < 2 * (60 * Second) →
        challengeLoop (fuel + 1) env statusURL inquiryURL startTime w2 =
          some (some (.new "sheriff verification timeout"), w2))) := by
  have hw1 : (Get env w statusURL false).2 = (roundTrip env w ⟨.GET, statusURL, none, none⟩).2 := by
    rw [Get_of_reply env w statusURL hUrl]
  have hstep := challengeLoop_step fuel env statusURL inquiryURL startTime w hUrl
  rw [if_pos hBudget] at hstep
  rw [hw1]
  refine ⟨rfl, ?_, ?_, ?_⟩
  · intro hnd
    refine ⟨?_, rfl⟩
    rw [hstep]
    cases hrep : env.http w.nreq ⟨.GET, statusURL, none, none⟩ with
    | failure e => rfl
    | response status data =>
      cases data with
      | none => rfl
      | some d => rw [hrep] at hnd; simp [Reply.noData] at hnd
  · intro status data hrep
    rw [hrep] at hstep
    simp only at hstep
    refine ⟨?_, ?_, ?_, ?_⟩
    · intro hs
      refine ⟨?_, rfl⟩
      rw [hstep, hs]
      simp
    · intro hs
      refine ⟨?_, ?_⟩
      · rw [hstep, if_pos hs]
      · rw [completeVerification_eq env _ inquiryURL hInquiry]
        rfl
    · intro h1 h2
      rw [hstep, if_neg h2, if_neg h1]
    · intro hs
      rw [← GetString_eq_asString, hs]
      rfl
  · intro w2
    refine ⟨fun hb r w3 h =>
      challengeLoop_first_action fuel env statusURL inquiryURL startTime w2 hUrl hb r w3 h, ?_⟩
    intro hb
    simp [challengeLoop, hb]

theorem challengeLoop_dispatch_witness :
    challengeLoop (24 + 1) (sampleEnv scenarioHttp) (SheriffChallengeStatusURL "c-1")
        (SheriffInquiryURL "m-1") cancelledWorld.now cancelledWorld =
      some (completeVerification (sampleEnv scenarioHttp)
        (Get (sampleEnv scenarioHttp) cancelledWorld (SheriffChallengeStatusURL "c-1")
          false).2 (SheriffInquiryURL "m-1")) ∧
    (completeVerification (sampleEnv scenarioHttp)
        (Get (sampleEnv scenarioHttp) cancelledWorld (SheriffChallengeStatusURL "c-1")
          false).2 (SheriffInquiryURL "m-1")).2.trace =
      (Get (sampleEnv scenarioHttp) cancelledWorld (SheriffChallengeStatusURL "c-1")
          false).2.trace ++
        [Event.request (Get (sampleEnv scenarioHttp) cancelledWorld
            (SheriffChallengeStatusURL "c-1") false).2.now
          ⟨.POST, SheriffInquiryURL "m-1", some continuePayload, none⟩
          ((sampleEnv scenarioHttp).http (Get (sampleEnv scenarioHttp) cancelledWorld
              (SheriffChallengeStatusURL "c-1") false).2.nreq
            ⟨.POST, SheriffInquiryURL "m-1", some continuePayload, none⟩)] :=
  ((challengeLoop_dispatch 24 (sampleEnv scenarioHttp) (SheriffChallengeStatusURL "c-1")
    (SheriffInquiryURL "m-1") cancelledWorld.now cancelledWorld rfl rfl (by decide)).2.2.1
    200 [("challenge_status", .str "validated")] rfl).2.1 rfl

/-- The dispatch on two concrete polls from `cancelledWorld`: the status `validated`
of `scenarioHttp` leads to the continuation POST and its approval, and the status
`denied` of `deniedHttp` ends the verification right after the poll. -/
theorem challengeLoop_dispatch_examples :
    (challengeLoop 1 (sampleEnv scenarioHttp) (SheriffChallengeStatusURL "c-1")
        (SheriffInquiryURL "m-1") cancelledWorld.now cancelledWorld).map
      (fun r => (r.1, (r.2.trace.drop cancelledWorld.trace.length).map Event.url?)) =
      some (none, [some (SheriffChallengeStatusURL "c-1"), some (SheriffInquiryURL "m-1")]) ∧
    (challengeLoop 1 (sampleEnv deniedHttp) (SheriffChallengeStatusURL "c-1")
        (SheriffInquiryURL "m-1") cancelledWorld.now cancelledWorld).map
      (fun r => (r.1, (r.2.trace.drop cancelledWorld.trace.length).map Event.url?)) =
      some (some (.new "unexpected challenge status: denied"),
        [some (SheriffChallengeStatusURL "c-1")]) :=
  ⟨rfl, rfl⟩

/-! ## Missing identifiers -/

/-- Every action of an inquiry wait is a sleep or a GET of the inquiry URL. -/
theorem inquiryWait_actions (url : String) (deadline : Int) :
    ∀ evs, inquiryWait url deadline evs = true → ∀ e ∈ evs,
      (∃ t d, e = Event.sleep t d) ∨
      (∃ t req reply, e = Event.request t req reply ∧ req.method = .GET ∧ req.url = url)
  | [], _, e, he => by simp at he
  | [.request t req (.response s (some d))], h, e, he => by
    simp only [inquiryWait, Bool.and_eq_true, decide_eq_true_eq] at h
    rw [List.mem_singleton] at he
    exact Or.inr ⟨t, req, _, he, h.1.1, h.1.2⟩
  | [.request _ _ (.failure _)], h, _, _ => by simp [inquiryWait] at h
  | [.request _ _ (.response _ none)], h, _, _ => by simp [inquiryWait] at h
  | .sleep _ _ :: _, h, _, _ => by simp [inquiryWait] at h
  | .request _ _ _ :: .request _ _ _ :: _, h, _, _ => by simp [inquiryWait] at h
  | .request t req reply :: .sleep t1 d :: rest, h, e, he => by
    simp only [inquiryWait, Bool.and_eq_true, decide_eq_true_eq] at h
    rcases List.mem_cons.mp he with h1 | h1
    · exact Or.inr ⟨t, req, reply, h1, h.1.1.1.1.1, h.1.1.1.1.2⟩
    · rcases List.mem_cons.mp h1 with h2 | h2
      · exact Or.inl ⟨t1, d, h2⟩
      · exact inquiryWait_actions url deadline rest h.2 e h2

theorem inquiryWait_no_post_no_status (machineID : String) (deadline : Int) (evs : List Event)
    (h : inquiryWait (SheriffInquiryURL machineID) deadline evs = true) :
    ∀ e ∈ evs, e.isPost = false ∧ e.isStatusPoll = false := by
  intro e he
  rcases inquiryWait_actions _ deadline evs h e he with ⟨t, d, rfl⟩ | ⟨t, req, reply, rfl, hm, hu⟩
  · exact ⟨rfl, rfl⟩
  · simp [Event.isPost, Event.isStatusPoll, hm, hu, isChallengeStatusURL_inquiry]

/-- C26: let requests to the start URL be creatable.  If the verification-start POST
fails, or its response has no data or no non-empty string `id`, then
`handleSheriffVerification` fails and the start POST is the only action of the run.
If the start POST yields a machine id and the inquiry wait ends with a body that has
no `context` object, no `sheriff_challenge` object inside it, or no non-empty string
`id` in that, then `handleSheriffVerification` fails with the matching error in the
world the inquiry wait ended in: the GET that returned the body is the last action,
and after the start POST the run consists of sleeps and GETs of the inquiry URL only,
with no POST and no poll of a challenge status. -/
theorem handleSheriffVerification_missing_identifier (fuel : Nat) (env : Env) (w : World)
    (deviceToken workflowID : String) (hStart : env.urlError PathfinderUserMachineURL = none) :
    (roundTrip env w (startPost deviceToken workflowID)).2.trace = w.trace ++
      [Event.request w.now (startPost deviceToken workflowID)
        (env.http w.nreq (startPost deviceToken workflowID))] ∧
    ((∀ status data, env.http w.nreq (startPost deviceToken workflowID) =
        .response status (some data) → GetString data "id" = "") →
      ∃ err, handleSheriffVerification fuel env w deviceToken workflowID =
        some (some err, (roundTrip env w (startPost deviceToken workflowID)).2)) ∧
    (∀ status data inquiryData w2,
      env.http w.nreq (startPost deviceToken workflowID) = .response status (some data) →
      GetString data "id" ≠ "" →
      inquiryLoop fuel env (SheriffInquiryURL (GetString data "id"))
        ((roundTrip env w (startPost deviceToken workflowID)).2.now + 20 * Second)
        (roundTrip env w (startPost deviceToken workflowID)).2 = some (some inquiryData, w2) →
      (∀ contextData challenge, asObj (inquiryData.get "context") = some contextData →
        asObj (contextData.get "sheriff_challenge") = some challenge →
        GetString challenge "id" = "") →
      (∃ err, handleSheriffVerification fuel env w deviceToken workflowID =
          some (some err, w2) ∧
        (err = .new "no context in inquiry data" ∨
          err = .new "no sheriff_challenge in context" ∨ err = .new "no challenge ID")) ∧
      ∃ evs, w2.trace = (roundTrip env w (startPost deviceToken workflowID)).2.trace ++ evs ∧
        inquiryWait (SheriffInquiryURL (GetString data "id"))
          ((roundTrip env w (startPost deviceToken workflowID)).2.now + 20 * Second) evs = true ∧
        firstData evs = some inquiryData ∧
        ∀ e ∈ evs, e.isPost = false ∧ e.isStatusPoll = false) := by
  have hpost : Post env w PathfinderUserMachineURL (machinePayload deviceToken workflowID) false =
      ((match env.http w.nreq (startPost deviceToken workflowID) with
        | .failure e => .error e
        | .response status data => .ok (parseResponse status data)),
        (roundTrip env w (startPost deviceToken workflowID)).2) :=
    Post_of_reply env w _ _ hStart
  refine ⟨rfl, ?_, ?_⟩
  · intro hno
    unfold handleSheriffVerification
    rw [hpost]
    cases hrep : env.http w.nreq (startPost deviceToken workflowID) with
    | failure e => exact ⟨_, rfl⟩
    | response status data =>
      cases data with
      | none => exact ⟨_, rfl⟩
      | some d =>
        have hid := hno status d hrep
        simp only [parseResponse, hid, if_true]
        exact ⟨_, rfl⟩
  · intro status data inquiryData w2 hrep hid hloop hmissing
    have hu : env.urlError (SheriffInquiryURL (GetString data "id")) = none := by
      obtain ⟨_, _, _, hh⟩ := inquiryLoop_trace env _ _ fuel _ _ _ hloop
      exact hh (by simp)
    obtain ⟨evs, ht, hw, _, _, hd, _⟩ := inquiryLoop_run env _ _ hu fuel _ _ _ hloop
    refine ⟨?_, evs, ht, hw, hd.symm, inquiryWait_no_post_no_status _ _ evs hw⟩
    unfold handleSheriffVerification
    rw [hpost, hrep]
    simp only [parseResponse, hid, if_false, hloop, resolveChallenge]
    rcases Option.eq_none_or_eq_some (asObj (Obj.get inquiryData "context")) with
      hc | ⟨contextData, hc⟩
    · rw [hc]
      exact ⟨_, rfl, Or.inl rfl⟩
    · rw [hc]
      simp only
      rcases Option.eq_none_or_eq_some (asObj (Obj.get contextData "sheriff_challenge")) with
        hs | ⟨challenge, hs⟩
      · rw [hs]
        exact ⟨_, rfl, Or.inr (Or.inl rfl)⟩
      · rw [hs]
        simp only [hmissing contextData challenge hc hs, if_true]
        exact ⟨_, rfl, Or.inr (Or.inr rfl)⟩

theorem handleSheriffVerification_missing_identifier_witness :
    ∃ err, handleSheriffVerification 25 (sampleEnv workflowAndMfaHttp)
        (afterFirstPost workflowAndMfaHttp "secret") sampleDeviceToken "wf-1" =
      some (some err, (roundTrip (sampleEnv workflowAndMfaHttp)
        (afterFirstPost workflowAndMfaHttp "secret") (startPost sampleDeviceToken "wf-1")).2) :=
  (handleSheriffVerification_missing_identifier 25 (sampleEnv workflowAndMfaHttp)
    (afterFirstPost workflowAndMfaHttp "secret") sampleDeviceToken "wf-1" rfl).2.1
    (fun status data h => by cases h)

/-! ## Credentials returned by Login and RefreshToken -/

/-- C27 (code defect): the token file of `alice` has the content `{}`, which decodes
to a credential without access token that never expires.  `Login` returns it as a
success without any request, and the client is not authenticated afterwards. -/
theorem Login_returns_stored_blank_credential :
    Login 25 offlineEnv blankWorld "alice" "secret" "" =
      some (.ok blankToken, SetAuth blankWorld (some blankToken)) ∧
    blankToken.AccessToken = "" ∧
    IsAuthenticated (SetAuth blankWorld (some blankToken)) = false ∧
    (SetAuth blankWorld (some blankToken)).trace = [] :=
  ⟨rfl, rfl, rfl, rfl⟩

/-- What a successful `RefreshToken` returns: the credential is installed on the
client with the zero time as its issuance, so it counts as expired at once whenever
its lifetime is positive, fits a 64-bit duration and ends before the current time. -/
theorem RefreshToken_ok (env : Env) (w : World) (refreshToken deviceToken : String)
    (a : Auth) (w1 : World)
    (h : RefreshToken env w refreshToken deviceToken = (.ok a, w1)) :
    a.IssuedAt = 0 ∧ w1.auth = some a ∧ a.DeviceToken = deviceToken ∧
    (0 < a.ExpiresIn → a.ExpiresIn * Second < 2 ^ 63 → a.ExpiresIn * Second < w1.now →
      a.IsExpired w1.now = true) := by
  unfold RefreshToken at h
  split at h
  · simp at h
  · split at h
    · simp at h
    · simp only [Prod.mk.injEq, Except.ok.injEq] at h
      obtain ⟨h1, h2⟩ := h
      subst h1
      subst h2
      refine ⟨rfl, rfl, rfl, ?_⟩
      intro hpos hfit hnow
      have hw := wrapInt64_of_range _ (by
        have : (0 : Int) < Second := by decide
        have := Int.mul_pos hpos this
        omega) hfit
      simp only [Auth.IsExpired]
      rw [if_neg hpos.ne']
      simp only [hw, zero_add, decide_eq_true_eq]
      exact hnow

/-- C28 (code defect): a refresh answered with status 200, the access token `acc-1`
and `expires_in = 86400` returns a credential whose issuance is the zero time, so
that `IsExpired` is true at the moment it is returned and installed; and a refresh
answered with an empty access token succeeds with a credential without access
token, leaving the client not authenticated. -/
theorem RefreshToken_returns_expired_credential :
    (RefreshToken (sampleEnv tokenHttp) authedWorld "ref-0" sampleDeviceToken).1 =
      .ok refreshedToken ∧
    (RefreshToken (sampleEnv tokenHttp) authedWorld "ref-0" sampleDeviceToken).2.auth =
      some refreshedToken ∧
    refreshedToken.IssuedAt = 0 ∧
    refreshedToken.IsExpired
      (RefreshToken (sampleEnv tokenHttp) authedWorld "ref-0" sampleDeviceToken).2.now = true ∧
    ((RefreshToken (sampleEnv emptyTokenHttp) authedWorld "ref-0" sampleDeviceToken).1.toOption.map
      Auth.AccessToken) = some "" ∧
    IsAuthenticated
      (RefreshToken (sampleEnv emptyTokenHttp) authedWorld "ref-0" sampleDeviceToken).2 = false :=
  ⟨rfl, rfl, rfl, by decide, rfl, rfl⟩

/-! ## Bank transfers -/

/-- A run of `FetchAllPages` adds only GET requests to the trace and leaves the
client and the files alone. -/
theorem fetchPages_only_gets (env : Env) (a : Bool) :
    ∀ (fuel : Nat) (w : World) (url : String) (acc : List Obj)
      (r : Except GoError (List Obj)) (w1 : World),
    fetchPages fuel env w url a acc = some (r, w1) →
    w1.auth = w.auth ∧ w1.files = w.files ∧
    ∃ evs, w1.trace = w.trace ++ evs ∧ ∀ e ∈ evs, e.isGet = true ∧ e.isPost = false := by
  intro fuel
  induction fuel with
  | zero => intro w url acc r w1 h; simp [fetchPages] at h
  | succ n ih =>
    intro w url acc r w1 h
    by_cases hu : url = ""
    · simp only [fetchPages, hu, ne_eq, not_true_eq_false, if_false, Option.some.injEq,
        Prod.mk.injEq] at h
      rw [← h.2]
      exact ⟨rfl, rfl, [], by simp, by simp⟩
    · have hget : (Get env w url a).2.auth = w.auth ∧ (Get env w url a).2.files = w.files ∧
          ∃ evs, (Get env w url a).2.trace = w.trace ++ evs ∧
            ∀ e ∈ evs, e.isGet = true ∧ e.isPost = false := by
        unfold Get
        rw [doRequest_eq]
        cases env.urlError url with
        | some e => exact ⟨rfl, rfl, [], by simp, by simp⟩
        | none =>
          simp only
          split
          · exact ⟨rfl, rfl, [], by simp, by simp⟩
          · refine ⟨rfl, rfl, [_], rfl, ?_⟩
            intro e he
            rw [List.mem_singleton] at he
            subst he
            exact ⟨rfl, rfl⟩
      obtain ⟨ha, hf, evs, ht, hg⟩ := hget
      rw [fetchPages, if_pos hu] at h
      rcases hres : Get env w url a with ⟨res, w2⟩
      rw [hres] at h ha hf ht
      simp only at ha hf ht
      cases res with
      | error err =>
        simp only [Option.some.injEq, Prod.mk.injEq] at h
        rw [← h.2]
        exact ⟨ha, hf, evs, ht, hg⟩
      | ok resp =>
        simp only at h
        obtain ⟨ha2, hf2, evs2, ht2, hg2⟩ := ih _ _ _ _ _ h
        refine ⟨ha2.trans ha, hf2.trans hf, evs ++ evs2, ?_, ?_⟩
        · rw [ht2, ht, List.append_assoc]
        · intro e he
          rcases List.mem_append.mp he with h1 | h1
          · exact hg e h1
          · exact hg2 e h1

theorem GetLinkedBankAccounts_frame (fuel : Nat) (env : Env) (w : World)
    (r : Except GoError (List Obj)) (w1 : World)
    (h : GetLinkedBankAccounts fuel env w = some (r, w1)) :
    w1.auth = w.auth ∧ w1.files = w.files ∧
    ∃ evs, w1.trace = w.trace ++ evs ∧ ∀ e ∈ evs, e.isGet = true ∧ e.isPost = false := by
  unfold GetLinkedBankAccounts at h
  split at h
  · simp only [Option.some.injEq, Prod.mk.injEq] at h
    rw [← h.2]
    exact ⟨rfl, rfl, [], by simp, by simp⟩
  · split at h
    · simp at h
    · rename_i err w2 hf
      simp only [Option.some.injEq, Prod.mk.injEq] at h
      rw [← h.2]
      exact fetchPages_only_gets env true fuel w LinkedURL [] _ _ hf
    · rename_i results w2 hf
      simp only [Option.some.injEq, Prod.mk.injEq] at h
      rw [← h.2]
      exact fetchPages_only_gets env true fuel w LinkedURL [] _ _ hf

/-- The loop of `getBankURLByAccountNumber` finds the first account with the number. -/
theorem findBankURL_eq_find (accountNumber : String) (accounts : List Obj) :
    findBankURL accountNumber accounts =
      (accounts.find? (fun a => decide (GetString a "bank_account_number" = accountNumber))).map
        (fun a => GetString a "url") := by
  induction accounts with
  | nil => rfl
  | cons account rest ih =>
    by_cases h : GetString account "bank_account_number" = accountNumber
    · simp [findBankURL, h]
    · simp [findBankURL, h, ih]

theorem findBankURL_none (accountNumber : String) (accounts : List Obj) :
    findBankURL accountNumber accounts = none ↔
      ∀ a ∈ accounts, GetString a "bank_account_number" ≠ accountNumber := by
  rw [findBankURL_eq_find]
  simp

/-- C30 (amended): on an authenticated client whose lookup of the linked bank
accounts yields the list `accounts`, `DepositFundsIntoRobinhood` and
`WithdrawFundsFromRobinhood` (the common body with the direction `deposit` and
`withdraw`) put into the transfer payload as ACH relationship the `url` of the first
linked account whose `bank_account_number` equals `accountNumber`, and, when no
linked account has that number, the `url` of the first linked account of the list.
Only when the list is empty does the call fail, with the wrapped error
`no linked bank accounts found`, in the world the lookup ended in; the lookup itself
makes no POST. -/
theorem bankTransfer_relationship (direction : String) (fuel : Nat) (env : Env) (w : World)
    (accountNumber : String) (amount : GoFloat) (accounts : List Obj) (w1 : World)
    (hAuth : IsAuthenticated w = true)
    (hLinked : GetLinkedBankAccounts fuel env w = some (.ok accounts, w1)) :
    DepositFundsIntoRobinhood fuel env w accountNumber amount =
      bankTransfer "deposit" fuel env w accountNumber amount ∧
    WithdrawFundsFromRobinhood fuel env w accountNumber amount =
      bankTransfer "withdraw" fuel env w accountNumber amount ∧
    findBankURL accountNumber accounts =
      (accounts.find? (fun a => decide (GetString a "bank_account_number" = accountNumber))).map
        (fun a => GetString a "url") ∧
    (accounts = [] →
      bankTransfer direction fuel env w accountNumber amount =
        some (.returned (.error (.wrap "failed to get bank relationship"
          (.new "no linked bank accounts found"))), w1)) ∧
    (∀ first rest, accounts = first :: rest →
      bankTransfer direction fuel env w accountNumber amount =
        match NewUUID env with
        | .error e => some (.panicked e.Error, w1)
        | .ok refID =>
          some (.returned ((PostBody env w1 BankTransfersURL
              (transferPayload amount direction
                ((findBankURL accountNumber accounts).getD (GetString first "url")) refID)
              true).1.map Response.Data),
            (PostBody env w1 BankTransfersURL
              (transferPayload amount direction
                ((findBankURL accountNumber accounts).getD (GetString first "url")) refID)
              true).2)) ∧
    (∀ f achRelationship refID, amount = .finite f → env.urlError BankTransfersURL = none →
      (PostBody env w1 BankTransfersURL
          (transferPayload amount direction achRelationship refID) true).2.trace =
        w1.trace ++ [Event.request w1.now
          ⟨.POST, BankTransfersURL,
            some (.obj [("amount", .num f), ("direction", .str direction),
              ("ach_relationship", .str achRelationship), ("ref_id", .str refID)]),
            some (authorizationHeader w1)⟩
          (env.http w1.nreq ⟨.POST, BankTransfersURL,
            some (.obj [("amount", .num f), ("direction", .str direction),
              ("ach_relationship", .str achRelationship), ("ref_id", .str refID)]),
            some (authorizationHeader w1)⟩)]) ∧
    (∃ evs, w1.trace = w.trace ++ evs ∧ ∀ e ∈ evs, e.isGet = true ∧ e.isPost = false) := by
  obtain ⟨hauth1, _, hevs⟩ := GetLinkedBankAccounts_frame fuel env w _ w1 hLinked
  have hA1 : IsAuthenticated w1 = true := by
    unfold IsAuthenticated at hAuth ⊢
    rw [hauth1]
    exact hAuth
  refine ⟨rfl, rfl, findBankURL_eq_find accountNumber accounts, ?_, ?_, ?_, hevs⟩
  · intro hnil
    subst hnil
    simp [bankTransfer, hAuth, getBankURLByAccountNumber, hLinked, findBankURL]
  · intro first rest hcons
    subst hcons
    simp only [bankTransfer, hAuth, Bool.not_true, Bool.false_eq_true, if_false,
      getBankURLByAccountNumber, hLinked]
    rcases hfind : findBankURL accountNumber (first :: rest) with _ | url
    · simp only [Option.getD_none]
      cases NewUUID env with
      | error e => rfl
      | ok refID =>
        simp only
        rcases PostBody env w1 BankTransfersURL
          (transferPayload amount direction (GetString first "url") refID) true with ⟨res, w2⟩
        cases res <;> rfl
    · simp only [Option.getD_some]
      cases NewUUID env with
      | error e => rfl
      | ok refID =>
        simp only
        rcases PostBody env w1 BankTransfersURL
          (transferPayload amount direction url refID) true with ⟨res, w2⟩
        cases res <;> rfl
  · intro f achRelationship refID hf hu
    subst hf
    have hm : (transferPayload (.finite f) direction achRelationship refID).marshal =
        .ok (.obj [("amount", .num f), ("direction", .str direction),
          ("ach_relationship", .str achRelationship), ("ref_id", .str refID)]) := by
      simp [transferPayload, Body.marshal, Body.marshalFields]
    simp only [PostBody, hm, Post]
    rw [doRequest_eq, hu]
    simp [hA1, roundTrip]

theorem bankTransfer_relationship_witness :
    bankTransfer "deposit" 3 (sampleEnv bankHttp) authedWorld "1111" fiftyDollars =
      match NewUUID (sampleEnv bankHttp) with
      | .error e => some (.panicked e.Error, (Get (sampleEnv bankHttp) authedWorld LinkedURL true).2)
      | .ok refID =>
        some (.returned ((PostBody (sampleEnv bankHttp)
            (Get (sampleEnv bankHttp) authedWorld LinkedURL true).2 BankTransfersURL
            (transferPayload fiftyDollars "deposit"
              ((findBankURL "1111" [linkedAccount]).getD (GetString linkedAccount "url")) refID)
            true).1.map Response.Data),
          (PostBody (sampleEnv bankHttp)
            (Get (sampleEnv bankHttp) authedWorld LinkedURL true).2 BankTransfersURL
            (transferPayload fiftyDollars "deposit"
              ((findBankURL "1111" [linkedAccount]).getD (GetString linkedAccount "url")) refID)
            true).2) :=
  (bankTransfer_relationship "deposit" 3 (sampleEnv bankHttp) authedWorld "1111" fiftyDollars
    [linkedAccount] (Get (sampleEnv bankHttp) authedWorld LinkedURL true).2 rfl rfl).2.2.2.2.1
    linkedAccount [] rfl

/-- C30 (as stated) fails: the only linked bank account has the number `1111`.  A
deposit and a withdrawal for the account number `9999` do not fail: each posts a
transfer whose ACH relationship is the `url` of that first linked account. -/
theorem bankTransfer_falls_back_to_first_account :
    findBankURL "9999" [linkedAccount] = none ∧
    (GetLinkedBankAccounts 3 (sampleEnv bankHttp) authedWorld).map (fun r => r.1.toOption) =
      some (some [linkedAccount]) ∧
    (DepositFundsIntoRobinhood 3 (sampleEnv bankHttp) authedWorld "9999" fiftyDollars).map
        (fun r => r.2.trace.map (fun e =>
          (e.isPost, e.url?, asString (dataGet (asObj e.body?) "direction"),
            asString (dataGet (asObj e.body?) "ach_relationship")))) =
      some [(false, some LinkedURL, none, none),
        (true, some BankTransfersURL, some "deposit",
          some "https://api.robinhood.com/ach/relationships/r-1/")] ∧
    (WithdrawFundsFromRobinhood 3 (sampleEnv bankHttp) authedWorld "9999" fiftyDollars).map
        (fun r => r.2.trace.map (fun e =>
          (e.isPost, e.url?, asString (dataGet (asObj e.body?) "direction"),
            asString (dataGet (asObj e.body?) "ach_relationship")))) =
      some [(false, some LinkedURL, none, none),
        (true, some BankTransfersURL, some "withdraw",
          some "https://api.robinhood.com/ach/relationships/r-1/")] :=
  ⟨rfl, rfl, rfl, rfl⟩

/-- Without any linked bank account the transfer fails after the lookup, and a
matching account number selects the account that carries it. -/
theorem bankTransfer_examples :
    (DepositFundsIntoRobinhood 3 (sampleEnv noBankHttp) authedWorld "9999" fiftyDollars).map
        (fun r => (r.2.trace.map Event.isPost,
          match r.1 with
          | .returned (.error e) => e.Error
          | _ => "")) =
      some ([false], "failed to get bank relationship: no linked bank accounts found") ∧
    findBankURL "1111" [[("bank_account_number", .str "2222"), ("url", .str "u-2")],
      linkedAccount, [("bank_account_number", .str "1111"), ("url", .str "u-3")]] =
      some "https://api.robinhood.com/ach/relationships/r-1/" :=
  ⟨rfl, rfl⟩

/-! ## Orders -/

theorem GetsOnly_refl (w : World) : GetsOnly w w := ⟨rfl, [], by simp, by simp⟩

theorem GetsOnly_trans {w w1 w2 : World} (h1 : GetsOnly w w1) (h2 : GetsOnly w1 w2) :
    GetsOnly w w2 := by
  obtain ⟨a1, e1, t1, p1⟩ := h1
  obtain ⟨a2, e2, t2, p2⟩ := h2
  refine ⟨a2.trans a1, e1 ++ e2, by rw [t2, t1, List.append_assoc], ?_⟩
  intro e he
  rcases List.mem_append.mp he with h | h
  · exact p1 e h
  · exact p2 e h

theorem doRequest_GET_GetsOnly (env : Env) (w : World) (url : String) (body : Option Value)
    (a : Bool) : GetsOnly w (doRequest env w .GET url body a).2 := by
  rw [doRequest_eq]
  cases env.urlError url with
  | some e => exact GetsOnly_refl w
  | none =>
    simp only
    split
    · exact GetsOnly_refl w
    · refine ⟨rfl, [_], rfl, ?_⟩
      intro e he
      rw [List.mem_singleton] at he
      subst he
      rfl

theorem GetQuotes_GetsOnly (lib : StdLib) (env : Env) (w : World) (symbols : List String) :
    GetsOnly w (GetQuotes lib env w symbols).2 := by
  have h := doRequest_GET_GetsOnly env w
    (BuildURL (BaseURL ++ "/quotes/") [("symbols", JoinSymbols (NormalizeSymbols lib symbols))])
    none false
  unfold GetQuotes GetWith
  simp only
  split <;> rename_i heq <;> rw [heq] at h <;> exact h

theorem GetLatestPrice_GetsOnly (lib : StdLib) (env : Env) (w : World)
    (priceType : Option String) (ext : Bool) (symbols : List String) :
    GetsOnly w (GetLatestPrice lib env w priceType ext symbols).2 := by
  have h := GetQuotes_GetsOnly lib env w symbols
  unfold GetLatestPrice
  split <;> rename_i heq <;> rw [heq] at h <;> exact h

theorem getInstrumentURL_GetsOnly (lib : StdLib) (env : Env) (w : World) (symbol : String) :
    GetsOnly w (getInstrumentURL lib env w symbol).2 := by
  have h := doRequest_GET_GetsOnly env w
    (BuildURL (BaseURL ++ "/instruments/") [("symbol", NormalizeSymbol lib symbol)]) none false
  have h2 : GetsOnly w (GetInstrumentBySymbol lib env w symbol).2 := by
    unfold GetInstrumentBySymbol GetWith
    simp only
    split
    · rename_i heq
      rw [heq] at h
      exact h
    · rename_i heq
      rw [heq] at h
      split <;> exact h
  unfold getInstrumentURL
  split <;> rename_i heq <;> rw [heq] at h2 <;> exact h2

theorem GetAccountProfile_GetsOnly (env : Env) (w : World) (accountNumber : String) :
    GetsOnly w (GetAccountProfile env w accountNumber).2 := by
  have h := doRequest_GET_GetsOnly env w (BaseURL ++ "/accounts/" ++ accountNumber ++ "/")
    none true
  unfold GetAccountProfile Get
  split
  · exact GetsOnly_refl w
  · split <;> rename_i heq <;> rw [heq] at h <;> exact h

theorem GetAllAccountProfiles_GetsOnly (env : Env) (w : World) :
    GetsOnly w (GetAllAccountProfiles env w).2 := by
  have h := doRequest_GET_GetsOnly env w (BaseURL ++ "/accounts/?default_to_all_accounts=true")
    none true
  unfold GetAllAccountProfiles Get
  split
  · exact GetsOnly_refl w
  · split
    · rename_i heq
      rw [heq] at h
      exact h
    · rename_i heq
      rw [heq] at h
      split <;> exact h

theorem getAccountURL_GetsOnly (env : Env) (w : World) (accountNumber : Option String) :
    GetsOnly w (getAccountURL env w accountNumber).2 := by
  unfold getAccountURL
  split
  · rename_i n
    have h := GetAccountProfile_GetsOnly env w n
    split <;> rename_i heq <;> rw [heq] at h <;> exact h
  · have h := GetAllAccountProfiles_GetsOnly env w
    split <;> rename_i heq <;> rw [heq] at h <;> exact h

/-- Without limit and stop price the terms are those of a market order with
immediate trigger; in every case the terms are computed without a POST. -/
theorem orderTerms_spec (lib : StdLib) (env : Env) (w : World) (symbol side : String)
    (limitPrice stopPrice : Option GoFloat) (priceType : String) (ext : Bool) :
    GetsOnly w (orderTerms lib env w symbol side limitPrice stopPrice priceType ext).2 ∧
    (limitPrice = none → stopPrice = none → ∀ terms w1,
      orderTerms lib env w symbol side limitPrice stopPrice priceType ext = (.ok terms, w1) →
      terms.stopPrice = none ∧ terms.orderType = "market" ∧ terms.trigger = "immediate") := by
  unfold orderTerms
  split
  · exact ⟨GetsOnly_refl w, fun h => by simp at h⟩
  · exact ⟨GetsOnly_refl w, fun h => by simp at h⟩
  · exact ⟨GetsOnly_refl w, fun _ h => by simp at h⟩
  · have h := GetLatestPrice_GetsOnly lib env w (some priceType) ext [symbol]
    split
    · rename_i heq
      rw [heq] at h
      exact ⟨h, fun _ _ terms w1 hh => by simp at hh⟩
    · rename_i heq
      rw [heq] at h
      exact ⟨h, fun _ _ terms w1 hh => by simp at hh⟩
    · rename_i heq
      rw [heq] at h
      refine ⟨h, fun _ _ terms w1 hh => ?_⟩
      simp only [Prod.mk.injEq, Except.ok.injEq] at hh
      rw [← hh.1]
      exact ⟨rfl, rfl, rfl⟩

theorem marshalFields_cons (k : String) (b : Body) (rest : List (String × Body)) :
    Body.marshalFields ((k, b) :: rest) =
      match b.marshal, Body.marshalFields rest with
      | .ok v, (vs, err) => ((k, v) :: vs, err)
      | .error e, (vs, none) => (vs, some (k, e))
      | .error e, (vs, some (k1, e1)) => (vs, if k1 < k then some (k1, e1) else some (k, e)) := by
  rw [Body.marshalFields]

/-- When the fields of a map marshal, the value of a key in the result is the
marshalled entry of that key. -/
theorem marshalFields_get :
    ∀ (kvs : List (String × Body)) (vs : List (String × Value)),
    Body.marshalFields kvs = (vs, none) →
    ∀ key, Obj.get vs key = (lookupField kvs key).bind (fun b => b.marshal.toOption) := by
  intro kvs
  induction kvs with
  | nil =>
    intro vs h key
    simp only [Body.marshalFields, Prod.mk.injEq, and_true] at h
    subst h
    rfl
  | cons kb rest ih =>
    obtain ⟨k, b⟩ := kb
    intro vs h key
    rw [marshalFields_cons] at h
    rcases hr : Body.marshalFields rest with ⟨vs1, err⟩
    rw [hr] at h
    cases hb : b.marshal with
    | error e =>
      rw [hb] at h
      cases err with
      | none => simp at h
      | some ke =>
        simp only [Prod.mk.injEq] at h
        split at h <;> simp at h
    | ok v =>
      rw [hb] at h
      simp only [Prod.mk.injEq] at h
      obtain ⟨h1, h2⟩ := h
      subst h1
      subst h2
      by_cases hk : k = key
      · simp [Obj.get, lookupField, hk, hb, Except.toOption]
      · simp only [Obj.get, lookupField, hk, if_false]
        exact ih vs1 hr key

theorem marshal_obj_ok (kvs : List (String × Body)) (v : Value)
    (h : (Body.obj kvs).marshal = .ok v) :
    ∃ vs, v = .obj vs ∧
      ∀ key, Obj.get vs key = (lookupField kvs key).bind (fun b => b.marshal.toOption) := by
  rw [Body.marshal] at h
  rcases hr : Body.marshalFields kvs with ⟨vs, err⟩
  rw [hr] at h
  cases err with
  | some ke => simp at h
  | none =>
    simp only [Except.ok.injEq] at h
    exact ⟨vs, h.symm, marshalFields_get kvs vs hr⟩

theorem lookupField_setField (payload : List (String × Body)) (key : String) (value : Body)
    (k : String) :
    lookupField (setField payload key value) k =
      if key = k then some value else lookupField payload k := by
  induction payload with
  | nil => simp [setField, lookupField]
  | cons kv rest ih =>
    obtain ⟨k0, v0⟩ := kv
    by_cases h0 : k0 = key
    · subst h0
      by_cases hk : k0 = k
      · simp [setField, lookupField, hk]
      · simp [setField, lookupField, hk]
    · by_cases hk : k0 = k
      · subst hk
        have : ¬ key = k0 := fun e => h0 e.symm
        simp [setField, lookupField, h0, this]
      · simp [setField, lookupField, h0, hk, ih]

theorem lookupField_deleteField (payload : List (String × Body)) (key k : String) :
    lookupField (deleteField payload key) k =
      if key = k then none else lookupField payload k := by
  induction payload with
  | nil => simp [deleteField, lookupField]
  | cons kv rest ih =>
    obtain ⟨k0, v0⟩ := kv
    unfold deleteField at ih ⊢
    by_cases h0 : k0 = key
    · subst h0
      by_cases hk : k0 = k
      · simp [lookupField, hk] at ih ⊢
        simpa [hk] using ih
      · simp [lookupField, hk] at ih ⊢
        simpa [hk] using ih
    · by_cases hk : k0 = k
      · subst hk
        have : ¬ key = k0 := fun e => h0 e.symm
        simp [lookupField, h0, this]
      · simp [lookupField, h0, hk]
        simpa using ih

/-- The payload of a market buy in regular hours: a limit order with the preset
percent limit, immediate trigger, no stop price. -/
theorem orderFields_market_buy (accountURL instrumentURL symbol : String)
    (price askPrice bidPrice : GoFloat) (timestamp : String) (quantity : GoFloat)
    (refID timeInForce : String) (ext : Bool) :
    lookupField (orderFields accountURL instrumentURL symbol price askPrice bidPrice timestamp
      quantity refID "market" timeInForce "immediate" "buy" "regular_hours" ext none) "side" =
      some (.val (.str "buy")) ∧
    lookupField (orderFields accountURL instrumentURL symbol price askPrice bidPrice timestamp
      quantity refID "market" timeInForce "immediate" "buy" "regular_hours" ext none) "type" =
      some (.val (.str "limit")) ∧
    lookupField (orderFields accountURL instrumentURL symbol price askPrice bidPrice timestamp
      quantity refID "market" timeInForce "immediate" "buy" "regular_hours" ext none)
      "preset_percent_limit" = some (.val (.str "0.05")) ∧
    lookupField (orderFields accountURL instrumentURL symbol price askPrice bidPrice timestamp
      quantity refID "market" timeInForce "immediate" "buy" "regular_hours" ext none) "trigger" =
      some (.val (.str "immediate")) ∧
    lookupField (orderFields accountURL instrumentURL symbol price askPrice bidPrice timestamp
      quantity refID "market" timeInForce "immediate" "buy" "regular_hours" ext none)
      "stop_price" = none :=
  ⟨rfl, rfl, rfl, rfl, rfl⟩

/-- The POST of `submitOrder`: nothing is sent when the payload does not marshal, the
request cannot be created or the client is not authenticated; otherwise one POST to
the orders URL carries the marshalled payload. -/
theorem submitOrder_trace (env : Env) (w : World) (accountNumber : Option String)
    (payload : List (String × Body)) :
    (submitOrder env w accountNumber payload).2.trace = w.trace ∨
    ∃ vs reply,
      (submitOrder env w accountNumber payload).2.trace = w.trace ++
        [Event.request w.now ⟨.POST, OrdersURL none accountNumber none, some (.obj vs),
          some (authorizationHeader w)⟩ reply] ∧
      ∀ key, Obj.get vs key = (lookupField payload key).bind (fun b => b.marshal.toOption) := by
  unfold submitOrder PostBody
  cases hm : (Body.obj payload).marshal with
  | error e => exact Or.inl rfl
  | ok v =>
    obtain ⟨vs, hv, hget⟩ := marshal_obj_ok payload v hm
    subst hv
    simp only [Post]
    rw [doRequest_eq]
    cases env.urlError (OrdersURL none accountNumber none) with
    | some e => exact Or.inl rfl
    | none =>
      simp only
      by_cases ha : (true && !IsAuthenticated w) = true
      · rw [if_pos ha]
        exact Or.inl rfl
      · rw [if_neg ha]
        right
        simp only [if_true]
        refine ⟨vs, env.http w.nreq ⟨.POST, OrdersURL none accountNumber none, some (.obj vs),
          some (authorizationHeader w)⟩, ?_, hget⟩
        rcases hrep : env.http w.nreq ⟨.POST, OrdersURL none accountNumber none,
          some (.obj vs), some (authorizationHeader w)⟩ with e | ⟨status, data⟩ <;>
          simp only [roundTrip, hrep]

theorem noPost_of_GetsOnly {w w1 : World} (P : Event → Prop) (h : GetsOnly w w1) :
    ∃ evs, w1.trace = w.trace ++ evs ∧ (∀ e ∈ evs, e.isPost = true → P e) ∧
      evs.countP Event.isPost = 0 := by
  obtain ⟨_, evs, ht, hp⟩ := h
  refine ⟨evs, ht, ?_, ?_⟩
  · intro e he hpost
    rw [hp e he] at hpost
    exact absurd hpost (by simp)
  · rw [List.countP_eq_zero]
    intro e he
    rw [hp e he]
    simp

/-- C23 (amended): for every symbol, quantity, account, time in force and
extended-hours flag, and every client, a run of `OrderBuyMarket` sends at most one
POST, and that POST goes to the orders URL with a payload that has side `buy`, type
`limit` together with `preset_percent_limit` `0.05`, trigger `immediate`, and no
`stop_price`. -/
theorem OrderBuyMarket_payload (lib : StdLib) (env : Env) (w : World) (symbol : String)
    (quantity : GoFloat) (accountNumber : Option String) (timeInForce : String)
    (extendedHours : Bool) :
    ∃ evs,
      (OrderBuyMarket lib env w symbol quantity accountNumber timeInForce extendedHours).2.trace =
        w.trace ++ evs ∧
      (∀ e ∈ evs, e.isPost = true → MarketBuyPost accountNumber e) ∧
      evs.countP Event.isPost ≤ 1 := by
  have close : ∀ w1 : World, GetsOnly w w1 →
      ∃ evs, w1.trace = w.trace ++ evs ∧
        (∀ e ∈ evs, e.isPost = true → MarketBuyPost accountNumber e) ∧
        evs.countP Event.isPost ≤ 1 := by
    intro w1 h
    obtain ⟨evs, h1, h2, h3⟩ := noPost_of_GetsOnly (MarketBuyPost accountNumber) h
    exact ⟨evs, h1, h2, by omega⟩
  unfold OrderBuyMarket placeOrder
  by_cases hA : IsAuthenticated w = true
  swap
  · have hA2 : IsAuthenticated w = false := by simpa using hA
    simp only [hA2, Bool.not_false, if_true]
    exact close w (GetsOnly_refl w)
  simp only [hA, Bool.not_true, Bool.false_eq_true, if_false, if_true]
  have hT := orderTerms_spec lib env w (lib.ToUpper (lib.TrimSpace symbol)) "buy" none none
    "ask_price" extendedHours
  rcases h1 : orderTerms lib env w (lib.ToUpper (lib.TrimSpace symbol)) "buy" none none
    "ask_price" extendedHours with ⟨r1, w1⟩
  rw [h1] at hT
  obtain ⟨g1, hterms⟩ := hT
  cases r1 with
  | error err => exact close w1 g1
  | ok terms =>
    obtain ⟨ts, tt, tg⟩ := hterms rfl rfl terms w1 rfl
    simp only
    have g2 := getAccountURL_GetsOnly env w1 accountNumber
    rcases h2 : getAccountURL env w1 accountNumber with ⟨r2, w2⟩
    rw [h2] at g2
    cases r2 with
    | error err => exact close w2 (GetsOnly_trans g1 g2)
    | ok accountURL =>
      simp only
      have g3 := getInstrumentURL_GetsOnly lib env w2 (lib.ToUpper (lib.TrimSpace symbol))
      rcases h3 : getInstrumentURL lib env w2 (lib.ToUpper (lib.TrimSpace symbol)) with ⟨r3, w3⟩
      rw [h3] at g3
      cases r3 with
      | error err => exact close w3 (GetsOnly_trans (GetsOnly_trans g1 g2) g3)
      | ok instrumentURL =>
        simp only
        have g4 := GetLatestPrice_GetsOnly lib env w3 (some "ask_price") extendedHours
          [lib.ToUpper (lib.TrimSpace symbol)]
        rcases h4 : GetLatestPrice lib env w3 (some "ask_price") extendedHours
          [lib.ToUpper (lib.TrimSpace symbol)] with ⟨asks, w4⟩
        rw [h4] at g4
        simp only
        have g5 := GetLatestPrice_GetsOnly lib env w4 (some "bid_price") extendedHours
          [lib.ToUpper (lib.TrimSpace symbol)]
        rcases h5 : GetLatestPrice lib env w4 (some "bid_price") extendedHours
          [lib.ToUpper (lib.TrimSpace symbol)] with ⟨bids, w5⟩
        rw [h5] at g5
        simp only
        have g : GetsOnly w w5 :=
          GetsOnly_trans (GetsOnly_trans (GetsOnly_trans (GetsOnly_trans g1 g2) g3) g4) g5
        rcases ha : pricesOf asks with _ | ⟨askPrice, asks1⟩
        · exact close w5 g
        · rcases hb : pricesOf bids with _ | ⟨bidPrice, bids1⟩
          · exact close w5 g
          · simp only
            cases NewUUID env with
            | error e => exact close w5 g
            | ok refID =>
              simp only [finishOrder, ts, tt, tg]
              obtain ⟨_, evs, ht, hp⟩ := g
              obtain ⟨hside, htype, hpreset, htrig, hstop⟩ :=
                orderFields_market_buy accountURL instrumentURL
                  (lib.ToUpper (lib.TrimSpace symbol)) terms.price
                  (RoundPrice lib (ParseFloat lib askPrice))
                  (RoundPrice lib (ParseFloat lib bidPrice)) (lib.formatTime w5.now) quantity
                  refID timeInForce extendedHours
              rcases submitOrder_trace env w5 accountNumber
                (orderFields accountURL instrumentURL (lib.ToUpper (lib.TrimSpace symbol))
                  terms.price (RoundPrice lib (ParseFloat lib askPrice))
                  (RoundPrice lib (ParseFloat lib bidPrice)) (lib.formatTime w5.now) quantity
                  refID "market" timeInForce "immediate" "buy" "regular_hours" extendedHours
                  none) with hs | ⟨vs, reply, hs, hget⟩
              · rw [hs]
                refine ⟨evs, ht, ?_, ?_⟩
                · intro e he hpost
                  rw [hp e he] at hpost
                  exact absurd hpost (by simp)
                · have : evs.countP Event.isPost = 0 := by
                    rw [List.countP_eq_zero]
                    intro e he
                    rw [hp e he]
                    simp
                  omega
              · rw [hs, ht]
                refine ⟨evs ++ [_], by rw [List.append_assoc], ?_, ?_⟩
                · intro e he hpost
                  rcases List.mem_append.mp he with h | h
                  · rw [hp e h] at hpost
                    exact absurd hpost (by simp)
                  · rw [List.mem_singleton] at h
                    refine ⟨_, vs, _, _, h, ?_, ?_, ?_, ?_, ?_⟩
                    · rw [hget, hside]; rfl
                    · rw [hget, htype]; rfl
                    · rw [hget, hpreset]; rfl
                    · rw [hget, htrig]; rfl
                    · rw [hget, hstop]; rfl
                · have : evs.countP Event.isPost = 0 := by
                    rw [List.countP_eq_zero]
                    intro e he
                    rw [hp e he]
                    simp
                  rw [List.countP_append, this]
                  simp [List.countP_cons, Event.isPost]

theorem OrderBuyMarket_payload_witness :
    ∃ evs,
      (OrderBuyMarket sampleLib (sampleEnv orderHttp) authedWorld "AAPL" threeShares none "gfd"
        false).2.trace = authedWorld.trace ++ evs ∧
      (∀ e ∈ evs, e.isPost = true → MarketBuyPost none e) ∧
      evs.countP Event.isPost ≤ 1 :=
  OrderBuyMarket_payload sampleLib (sampleEnv orderHttp) authedWorld "AAPL" threeShares none
    "gfd" false

/-- C23 (as stated) fails: a market buy of three shares of AAPL on an authenticated
client is posted, after five GETs, to the orders URL with side `buy`, trigger
`immediate` and no stop price, but with type `limit` and the preset percent limit
`0.05`, not with type `market`. -/
theorem OrderBuyMarket_posts_limit_order :
    (OrderBuyMarket sampleLib (sampleEnv orderHttp) authedWorld "AAPL" threeShares none "gfd"
        false).1 = .returned (.ok (some [("id", .str "order-1")])) ∧
    (OrderBuyMarket sampleLib (sampleEnv orderHttp) authedWorld "AAPL" threeShares none "gfd"
        false).2.trace.map Event.isPost = [false, false, false, false, false, true] ∧
    (OrderBuyMarket sampleLib (sampleEnv orderHttp) authedWorld "AAPL" threeShares none "gfd"
        false).2.trace.getLast?.map
      (fun e => (e.url?, asString (dataGet (asObj e.body?) "side"),
        asString (dataGet (asObj e.body?) "type"),
        asString (dataGet (asObj e.body?) "preset_percent_limit"),
        asString (dataGet (asObj e.body?) "trigger"),
        (dataGet (asObj e.body?) "stop_price").isSome)) =
      some (some "https://api.robinhood.com/orders/", some "buy", some "limit", some "0.05",
        some "immediate", false) :=
  ⟨rfl, rfl, rfl⟩

/-! ## Price lists in placeOrder -/

/-- The prices of a dropped-error lookup are empty exactly when the lookup failed or
returned no quotes. -/
theorem pricesOf_eq_nil (r : Except GoError (List Value)) :
    pricesOf r = [] ↔ (∃ err, r = .error err) ∨ r = .ok [] := by
  cases r with
  | error err => simp [pricesOf]
  | ok prices => simp [pricesOf]

/-- For every library and environment: once the terms, the account URL and the
instrument URL are obtained, `placeOrder` panics on the index `[0]` when the ask
lookup or the bid lookup fails or returns no quotes. -/
theorem placeOrder_panics_on_empty_prices (lib : StdLib) (env : Env) (w : World)
    (symbol : String) (quantity : GoFloat) (side : String) (limitPrice stopPrice : Option GoFloat)
    (accountNumber : Option String) (timeInForce : String) (extendedHours : Bool)
    (marketHours : String) (trailAmount : Option GoFloat) (trailType : String)
    (terms : OrderTerms) (w1 w2 w3 : World) (accountURL instrumentURL : String)
    (hAuth : IsAuthenticated w = true)
    (hTerms : orderTerms lib env w (lib.ToUpper (lib.TrimSpace symbol)) side limitPrice
      stopPrice (if side = "buy" then "ask_price" else "bid_price") extendedHours =
        (.ok terms, w1))
    (hAccount : getAccountURL env w1 accountNumber = (.ok accountURL, w2))
    (hInstrument : getInstrumentURL lib env w2 (lib.ToUpper (lib.TrimSpace symbol)) =
      (.ok instrumentURL, w3))
    (hEmpty : pricesOf (GetLatestPrice lib env w3 (some "ask_price") extendedHours
        [lib.ToUpper (lib.TrimSpace symbol)]).1 = [] ∨
      pricesOf (GetLatestPrice lib env
        (GetLatestPrice lib env w3 (some "ask_price") extendedHours
          [lib.ToUpper (lib.TrimSpace symbol)]).2 (some "bid_price") extendedHours
        [lib.ToUpper (lib.TrimSpace symbol)]).1 = []) :
    placeOrder lib env w symbol quantity side limitPrice stopPrice accountNumber timeInForce
        extendedHours marketHours trailAmount trailType =
      (.panicked indexPanic,
        (GetLatestPrice lib env
          (GetLatestPrice lib env w3 (some "ask_price") extendedHours
            [lib.ToUpper (lib.TrimSpace symbol)]).2 (some "bid_price") extendedHours
          [lib.ToUpper (lib.TrimSpace symbol)]).2) := by
  unfold placeOrder
  simp only [hAuth, Bool.not_true, Bool.false_eq_true, if_false, hTerms, hAccount, hInstrument]
  rcases h4 : GetLatestPrice lib env w3 (some "ask_price") extendedHours
    [lib.ToUpper (lib.TrimSpace symbol)] with ⟨asks, w4⟩
  rw [h4] at hEmpty
  simp only at hEmpty ⊢
  rcases h5 : GetLatestPrice lib env w4 (some "bid_price") extendedHours
    [lib.ToUpper (lib.TrimSpace symbol)] with ⟨bids, w5⟩
  rw [h5] at hEmpty
  simp only at hEmpty ⊢
  rcases ha : pricesOf asks with _ | ⟨askPrice, asks1⟩
  · rfl
  · rcases hb : pricesOf bids with _ | ⟨bidPrice, bids1⟩
    · rfl
    · rw [ha, hb] at hEmpty
      simp at hEmpty

/-- C29 (code defect): on an authenticated client with working account and
instrument lookups, a market buy whose ask lookup fails, a market buy whose bid lookup
fails, a limit buy whose ask lookup fails and a trailing stop whose last-price lookup
fails do not return an error: each reads element 0 of the empty price list and
panics with an index out of range, without posting an order.  The first price lookup
of a market order is checked and does return an error. -/
theorem placeOrder_indexes_empty_prices :
    (OrderBuyMarket sampleLib (sampleEnv (quoteOutageHttp 3)) authedWorld "AAPL" threeShares none
        "gfd" false).1 = .panicked "runtime error: index out of range [0] with length 0" ∧
    (OrderBuyMarket sampleLib (sampleEnv (quoteOutageHttp 4)) authedWorld "AAPL" threeShares none
        "gfd" false).1 = .panicked "runtime error: index out of range [0] with length 0" ∧
    (OrderBuyLimit sampleLib (sampleEnv (quoteOutageHttp 0)) authedWorld "AAPL" threeShares
        (.finite ⟨10, 0⟩) (some "5QR123") "gfd" false).1 =
      .panicked "runtime error: index out of range [0] with length 0" ∧
    (OrderTrailingStop sampleLib (sampleEnv (quoteOutageHttp 5)) authedWorld "AAPL" threeShares
        "sell" (.finite ⟨1, 0⟩) "amount" none "gfd" false).1 =
      .panicked "runtime error: index out of range [0] with length 0" ∧
    (OrderBuyMarket sampleLib (sampleEnv (quoteOutageHttp 3)) authedWorld "AAPL" threeShares none
        "gfd" false).2.trace.map Event.isPost = [false, false, false, false, false] ∧
    (OrderTrailingStop sampleLib (sampleEnv (quoteOutageHttp 5)) authedWorld "AAPL" threeShares
        "sell" (.finite ⟨1, 0⟩) "amount" none "gfd" false).2.trace.map Event.isPost =
      [false, false, false, false, false, false] ∧
    (OrderBuyMarket sampleLib (sampleEnv (quoteOutageHttp 0)) authedWorld "AAPL" threeShares none
        "gfd" false).1 =
      .returned (.error (.wrap "failed to get latest price" (.new "connection reset"))) :=
  ⟨rfl, rfl, rfl, rfl, rfl, rfl, rfl⟩

end Robinstock
